import Mathlib

/-!
# NATCompleteClient: the NAT-traversal sample of RakNet

A shallow embedding of `Samples/NATCompleteClient/main.cpp`.

The program talks to three collaborators whose code is not part of the sample:
the console (`Gets`, `kbhit`, `getch`), the transport (`RakPeerInterface` and the
plugins attached to it) and the miniupnpc library.  They are represented by a
`World`: for every call that returns an answer the world holds a script of the
answers still to come, and every request the program issues to a collaborator is
appended to `World.trace`.  A script that has run dry gives the quiet answer: no
line, no packet, no key, no connected system, no UPnP device, a rejected connect
request, the last clock reading.

A call that does not return is a `Fault`: a loop that waits for a packet or for
a line that never comes, or a call through a plugin pointer that is null.

The callbacks of `UDPProxyClientResultHandler` are made by the proxy plugin
while `main` polls the transport in its packet loop; the plugin exists from the
`Init` of the technique on.

Diagnostic `printf` output of the helper functions and of the techniques is not
recorded; the status lines of `main` are (they are the only observable that
tells the ways `main` returns apart).  `RakAssert` is compiled out, as in a
release build, and `getch` returns at once.
-/

namespace NATCompleteClient

/-! ## Values exchanged with the collaborators -/

/-- Modelled from the spec: the remote endpoint handle, an opaque value compared
by equality (`SystemAddress` is declared in RakNetTypes.h, which is not among
the sources). -/
structure SystemAddress where
  host : Nat
  port : Nat
deriving DecidableEq, Repr

/-- Modelled from the spec: the distinguished handle that stands for "none". -/
def UNASSIGNED_SYSTEM_ADDRESS : SystemAddress := ⟨0, 0⟩

/-- The message identifiers `main.cpp` names (first byte of a packet); every
other value of the byte is `other`. -/
inductive MessageID
  | ID_CONNECTION_REQUEST_ACCEPTED
  | ID_NO_FREE_INCOMING_CONNECTIONS
  | ID_NAT_TYPE_DETECTION_RESULT
  | ID_NAT_TARGET_NOT_CONNECTED
  | ID_NAT_TARGET_UNRESPONSIVE
  | ID_NAT_CONNECTION_TO_TARGET_LOST
  | ID_NAT_PUNCHTHROUGH_FAILED
  | ID_NAT_PUNCHTHROUGH_SUCCEEDED
  | ID_DISCONNECTION_NOTIFICATION
  | ID_NEW_INCOMING_CONNECTION
  | ID_ALREADY_CONNECTED
  | ID_INCOMPATIBLE_PROTOCOL_VERSION
  | ID_REMOTE_DISCONNECTION_NOTIFICATION
  | ID_REMOTE_CONNECTION_LOST
  | ID_REMOTE_NEW_INCOMING_CONNECTION
  | ID_CONNECTION_BANNED
  | ID_CONNECTION_ATTEMPT_FAILED
  | ID_INVALID_PASSWORD
  | ID_CONNECTION_LOST
  | other (byte : Nat)
deriving DecidableEq, Repr

/-- A transport event: `data[0]`, `data[1]`, the sender's address and GUID. -/
structure Packet where
  id : MessageID
  data1 : Nat
  systemAddress : SystemAddress
  guid : Nat
deriving DecidableEq, Repr

/-- What `RakPeerInterface::Connect` returns; the sample only tests for
`CONNECTION_ATTEMPT_STARTED`. -/
inductive ConnectionAttemptResult
  | CONNECTION_ATTEMPT_STARTED
  | rejected (code : Nat)
deriving DecidableEq, Repr

/-- The plugins the techniques create. -/
inductive PluginKind
  | NatTypeDetectionClient
  | NatPunchthroughClient
  | Router2
  | UDPProxyClient
deriving DecidableEq, Repr

/-- The six notifications of `UDPProxyClientResultHandler`. -/
inductive ProxyNotification
  | OnForwardingSuccess (proxyIPAddress : List Char) (proxyPort : Nat)
  | OnForwardingNotification
  | OnNoServersOnline
  | OnRecipientNotConnected
  | OnAllServersBusy
  | OnForwardingInProgress
deriving DecidableEq, Repr

/-- The answers of miniupnpc during one `UPNPFramework::Init`. -/
structure UPnPAnswers where
  /-- True when `upnpDiscover` returned a non-null device list. -/
  devlist : Bool
  /-- The value returned by `UPNP_GetValidIGD`. -/
  validIGD : Int
  /-- True when `UPNP_AddPortMapping` returned `UPNPCOMMAND_SUCCESS`. -/
  addPortMappingOk : Bool
  /-- True when `UPNP_GetSpecificPortMappingEntry` returned `UPNPCOMMAND_SUCCESS`. -/
  getSpecificPortMappingEntryOk : Bool
deriving DecidableEq, Repr

/-- A request issued to the transport, to a plugin or to miniupnpc. A GUID is
represented by the text `RakNetGUID::FromString` is given. -/
inductive Effect
  | Connect (host : List Char) (remotePort : Nat)
  | AttachPlugin (k : PluginKind)
  | DeletePlugin (k : PluginKind)
  | DetectNATType (server : SystemAddress)
  | SetDebugInterface
  | OpenNAT (guid : List Char) (server : SystemAddress)
  | FindRouterPortStride (server : SystemAddress)
  | EstablishRouting (guid : List Char)
  | SetResultHandler
  | RequestForwarding (server : SystemAddress) (target : List Char)
  | UPNP_AddPortMapping (eport iport : Nat)
  | UPNP_GetSpecificPortMappingEntry (eport : Nat)
deriving DecidableEq, Repr

/-- The ways a call fails to return: a loop that waits for something the world
never delivers, or a call through a null plugin pointer, or an index outside the
array of samples. -/
inductive Fault
  | hang
  | nullDeref
  | outOfBounds
deriving DecidableEq, Repr

/-- The collaborators. -/
structure World where
  /-- What each coming `Gets` call leaves in the caller's buffer. -/
  lines : List (List Char)
  /-- What each coming `Receive` call returns (`none`: no packet). -/
  receive : List (Option Packet)
  /-- The notifications the proxy plugin raises during each coming `Receive`
  call of the main loop. -/
  proxyCallbacks : List (List ProxyNotification)
  /-- What each coming `GetSystemList` call returns. -/
  systemLists : List (List SystemAddress)
  /-- What each coming `Connect` call returns. -/
  connects : List ConnectionAttemptResult
  /-- The last clock reading and the coming ones of `GetTimeMS`. -/
  now : Nat
  clock : List Nat
  /-- The modulus of the unsigned type `RakNet::TimeMS` (declared in
  RakNetTime.h, which is not among the sources). -/
  timeModulus : Nat
  /-- What each coming `kbhit` call returns. -/
  keys : List Bool
  /-- The answers of miniupnpc, one record for each coming `UPNPFramework::Init`. -/
  upnp : List UPnPAnswers
  /-- The port of `sockets[0]->GetBoundAddress()`. -/
  boundPort : Nat
  /-- True when `rakPeer->Startup(32, &sd, 1)` returns `RAKNET_STARTED`. -/
  startupOk : Bool
  /-- The requests issued so far, oldest first. -/
  trace : List Effect
deriving DecidableEq, Repr

def World.emit (w : World) (e : Effect) : World :=
  { w with trace := w.trace ++ [e] }

/-- The call `Gets(buff, size)`: the content of the buffer afterwards. -/
def Gets (w : World) : List Char × World :=
  match w.lines with
  | [] => ([], w)
  | l :: ls => (l, { w with lines := ls })

/-- The call `rakPeer->Receive()` as the helper functions see it. -/
def Receive (w : World) : Option Packet × World :=
  match w.receive with
  | [] => (none, w)
  | p :: ps => (p, { w with receive := ps })

/-- The call `rakPeer->GetSystemList(addresses, guids)`. -/
def GetSystemList (w : World) : List SystemAddress × World :=
  match w.systemLists with
  | [] => ([], w)
  | l :: ls => (l, { w with systemLists := ls })

/-- The call `rakPeer->Connect(host, remotePort, 0, 0)`. -/
def Connect (w : World) (host : List Char) (remotePort : Nat) :
    ConnectionAttemptResult × World :=
  match w.connects with
  | [] => (.rejected 0, w.emit (.Connect host remotePort))
  | r :: rs => (r, { w with connects := rs }.emit (.Connect host remotePort))

/-- The call `RakNet::GetTimeMS()`. -/
def GetTimeMS (w : World) : Nat × World :=
  match w.clock with
  | [] => (w.now, w)
  | t :: ts => (t, { w with now := t, clock := ts })

/-- The call `kbhit()`. -/
def kbhit (w : World) : Bool × World :=
  match w.keys with
  | [] => (false, w)
  | k :: ks => (k, { w with keys := ks })

/-- The miniupnpc answers for one `UPNPFramework::Init`. -/
def upnpAnswers (w : World) : UPnPAnswers × World :=
  match w.upnp with
  | [] => (⟨false, 0, false, false⟩, w)
  | a :: as => (a, { w with upnp := as })

/-- The sum `GetTimeMS() + ms` in the unsigned type `TimeMS`. -/
def deadlineAfter (w : World) (now ms : Nat) : Nat := (now + ms) % w.timeModulus

/-! ## `atoi` -/

/-- The function `isspace` of the C locale. -/
def isspace (c : Char) : Bool :=
  c = ' ' || c = '\t' || c = '\n' || c.toNat = 11 || c.toNat = 12 || c = '\r'

/-- The value of the longest run of decimal digits at the start of the text. -/
def digitsValue : Nat → List Char → Nat
  | acc, [] => acc
  | acc, c :: cs =>
    if c.isDigit then digitsValue (acc * 10 + (c.toNat - 48)) cs else acc

/-- The integer `atoi` reads: blanks, an optional sign, decimal digits. -/
def atoiValue (s : List Char) : Int :=
  match s.dropWhile isspace with
  | '-' :: cs => - (digitsValue 0 cs : Int)
  | '+' :: cs => (digitsValue 0 cs : Int)
  | cs => (digitsValue 0 cs : Int)

def LONG_MIN : Int := -9223372036854775808
def LONG_MAX : Int := 9223372036854775807

/-- The function `strtol` of the C library in base 10: the integer read, held to
the range of a `long` of 64 bits. -/
def strtol (s : List Char) : Int :=
  if atoiValue s < LONG_MIN then LONG_MIN
  else if LONG_MAX < atoiValue s then LONG_MAX
  else atoiValue s

/-- The function `atoi` of the C library, which is not among the sources, as
glibc defines it where `long` has 64 bits: `(int) strtol(nptr, NULL, 10)`, the
value of `strtol` cut to its low 32 bits. It is the integer read whenever that
is an `int`; C leaves the result undefined otherwise. -/
def atoi (s : List Char) : Int :=
  (strtol s + 2147483648) % 4294967296 - 2147483648

/-- Conversion of an `int` to `unsigned int`. -/
def toUnsignedInt (z : Int) : Nat := (z % 4294967296).toNat

/-- Conversion of an `int` to `unsigned short`. -/
def toUnsignedShort (z : Int) : Nat := (z % 65536).toNat

/-! ## The helper functions -/

/-- The function `SelectAmongConnectedSystems` (main.cpp, lines 72-104). -/
def SelectAmongConnectedSystems (w : World) : SystemAddress × World :=
  let addresses := (GetSystemList w).1
  let w1 := (GetSystemList w).2
  if addresses.length = 0 then (UNASSIGNED_SYSTEM_ADDRESS, w1)
  else if addresses.length > 1 then
    let buff := (Gets w1).1
    let w2 := (Gets w1).2
    if buff = [] then (UNASSIGNED_SYSTEM_ADDRESS, w2)
    else
      let idx := toUnsignedInt (atoi buff)
      if idx ≤ 0 ∨ idx > addresses.length then (UNASSIGNED_SYSTEM_ADDRESS, w2)
      else (addresses.getD (idx - 1) UNASSIGNED_SYSTEM_ADDRESS, w2)
  else (addresses.getD 0 UNASSIGNED_SYSTEM_ADDRESS, w1)

/-- The test `p==0 || p[0]==0` on a C string that may be a null pointer. -/
def absentOrEmpty (p : Option (List Char)) : Bool :=
  match p with
  | none => true
  | some s => s.isEmpty

/-- The polling loop of `ConnectBlocking` (lines 165-184) over the script of
coming `Receive` answers: the first packet decides, and the loop never returns
when no packet comes. The result is the address returned and the script left. -/
def ConnectBlocking.poll :
    List (Option Packet) → Option (SystemAddress × List (Option Packet))
  | [] => none
  | none :: rest => ConnectBlocking.poll rest
  | some packet :: rest =>
    if packet.id = .ID_CONNECTION_REQUEST_ACCEPTED then
      some (packet.systemAddress, rest)
    else if packet.id = .ID_NO_FREE_INCOMING_CONNECTIONS then
      some (UNASSIGNED_SYSTEM_ADDRESS, rest)
    else
      some (UNASSIGNED_SYSTEM_ADDRESS, rest)

/-- The second part of `ConnectBlocking` (lines 158-185): the connect request for
the address and port text settled on, and the wait for its outcome. -/
def ConnectBlocking.attempt (w : World) (ipAddr port : List Char) :
    Except Fault (SystemAddress × World) :=
  let car := (Connect w ipAddr (toUnsignedShort (atoi port))).1
  let w1 := (Connect w ipAddr (toUnsignedShort (atoi port))).2
  if car ≠ .CONNECTION_ATTEMPT_STARTED then
    .ok (UNASSIGNED_SYSTEM_ADDRESS, w1)
  else
    match ConnectBlocking.poll w1.receive with
    | none => .error .hang
    | some (a, rest) => .ok (a, { w1 with receive := rest })

/-- The function `ConnectBlocking` (main.cpp, lines 111-185). -/
def ConnectBlocking (w : World) (defaultAddress defaultPort : Option (List Char)) :
    Except Fault (SystemAddress × World) :=
  let ipLine := (Gets w).1
  let w1 := (Gets w).2
  if ipLine = [] ∧ absentOrEmpty defaultAddress = true then
    .ok (UNASSIGNED_SYSTEM_ADDRESS, w1)
  else
    let ipAddr := if ipLine = [] then defaultAddress.getD [] else ipLine
    let portLine := (Gets w1).1
    let w2 := (Gets w1).2
    if portLine = [] ∧ absentOrEmpty defaultPort = true then
      .ok (UNASSIGNED_SYSTEM_ADDRESS, w2)
    else
      let port := if portLine = [] then defaultPort.getD [] else portLine
      ConnectBlocking.attempt w2 ipAddr port

/-! ## The techniques -/

inductive SampleResult
  | PENDING
  | FAILED
  | SUCCEEDED
deriving DecidableEq, Repr

def DEFAULT_SERVER_PORT : List Char := ['6', '1', '1', '1', '1']
def DEFAULT_SERVER_ADDRESS : List Char :=
  ['1', '9', '2', '.', '1', '6', '8', '.', '1', '.', '5']
def RAKPEER_PORT_STR : List Char := ['0']

/-- The type `struct UPNPFramework` (lines 186-303). -/
structure UPNPFramework where
  sampleResult : SampleResult
deriving DecidableEq, Repr

/-- The type `struct NatTypeDetectionFramework` (lines 304-386); `ntdc` tells whether the
pointer is non-null. -/
structure NatTypeDetectionFramework where
  sampleResult : SampleResult
  ntdc : Bool
  timeout : Nat
deriving DecidableEq, Repr

/-- The type `struct NatPunchthoughClientFramework` (lines 389-540). -/
structure NatPunchthoughClientFramework where
  sampleResult : SampleResult
  serverAddress : SystemAddress
  npClient : Bool
  timeout : Nat
  isListening : Bool
deriving DecidableEq, Repr

/-- The type `struct Router2Framework` (lines 543-618). -/
structure Router2Framework where
  sampleResult : SampleResult
  router2 : Bool
  timeout : Nat
deriving DecidableEq, Repr

/-- The type `struct UDPProxyClientFramework` (lines 619-727). -/
structure UDPProxyClientFramework where
  sampleResult : SampleResult
  udpProxy : Bool
  timeout : Nat
  isListening : Bool
deriving DecidableEq, Repr

/-- The members a constructor leaves without a value hold whatever the memory
held. -/
structure Indeterminate where
  natTypeTimeout : Nat
  punchServerAddress : SystemAddress
  punchTimeout : Nat
  punchIsListening : Bool
  router2Timeout : Nat
  proxyTimeout : Nat
  proxyIsListening : Bool
deriving DecidableEq, Repr

/-! ### PortMapping -/

/-- The constructor (line 188). -/
def UPNPFramework.new : UPNPFramework := ⟨.FAILED⟩

def UPNPFramework.QueryRequiresServer (_ : UPNPFramework) : Bool := false
def UPNPFramework.QueryQuitOnSuccess (_ : UPNPFramework) : Bool := true

/-- The method `UPNPFramework::Init` (lines 194-290). -/
def UPNPFramework.Init (s : UPNPFramework) (w : World) : UPNPFramework × World :=
  if s.sampleResult = .FAILED then (s, w)
  else
    let a := (upnpAnswers w).1
    let w1 := (upnpAnswers w).2
    if a.devlist then
      if a.validIGD = 1 then
        let iport := w1.boundPort
        let eport := iport
        let w2 := w1.emit (.UPNP_AddPortMapping eport iport)
        let w3 := w2.emit (.UPNP_GetSpecificPortMappingEntry eport)
        if a.getSpecificPortMappingEntryOk = false then
          ({ s with sampleResult := .FAILED }, w3)
        else
          ({ s with sampleResult := .SUCCEEDED }, w3)
      else ({ s with sampleResult := .FAILED }, w1)
    else ({ s with sampleResult := .FAILED }, w1)

def UPNPFramework.ProcessPacket (s : UPNPFramework) (_ : Packet) : UPNPFramework := s

def UPNPFramework.Update (s : UPNPFramework) (w : World) : UPNPFramework × World :=
  if s.sampleResult = .FAILED then (s, w) else (s, w)

def UPNPFramework.Shutdown (s : UPNPFramework) (w : World) : UPNPFramework × World :=
  (s, w)

/-! ### NatClassification -/

/-- The constructor (line 307). -/
def NatTypeDetectionFramework.new (i : Indeterminate) : NatTypeDetectionFramework :=
  ⟨.FAILED, false, i.natTypeTimeout⟩

def NatTypeDetectionFramework.QueryRequiresServer (_ : NatTypeDetectionFramework) :
    Bool := true
def NatTypeDetectionFramework.QueryQuitOnSuccess (_ : NatTypeDetectionFramework) :
    Bool := false

/-- The method `NatTypeDetectionFramework::Init` (lines 313-337). -/
def NatTypeDetectionFramework.Init (s : NatTypeDetectionFramework) (w : World) :
    Except Fault (NatTypeDetectionFramework × World) :=
  if s.sampleResult = .FAILED then .ok (s, w)
  else
    let sel := SelectAmongConnectedSystems w
    let attach := fun (serverAddress : SystemAddress) (w1 : World) =>
      let w2 := w1.emit (.AttachPlugin .NatTypeDetectionClient)
      let w3 := w2.emit (.DetectNATType serverAddress)
      let t := GetTimeMS w3
      ({ s with ntdc := true, timeout := deadlineAfter w3 t.1 5000 }, t.2)
    if sel.1 = UNASSIGNED_SYSTEM_ADDRESS then
      match ConnectBlocking sel.2 (some DEFAULT_SERVER_ADDRESS) (some DEFAULT_SERVER_PORT) with
      | .error f => .error f
      | .ok (serverAddress, w1) =>
        if serverAddress = UNASSIGNED_SYSTEM_ADDRESS then
          .ok ({ s with sampleResult := .FAILED }, w1)
        else .ok (attach serverAddress w1)
    else .ok (attach sel.1 sel.2)

/-- The method `NatTypeDetectionFramework::ProcessPacket` (lines 340-367). -/
def NatTypeDetectionFramework.ProcessPacket (s : NatTypeDetectionFramework)
    (packet : Packet) : NatTypeDetectionFramework :=
  if packet.id = .ID_NAT_TYPE_DETECTION_RESULT then
    { s with sampleResult := .SUCCEEDED }
  else s

/-- The method `NatTypeDetectionFramework::Update` (lines 368-377). -/
def NatTypeDetectionFramework.Update (s : NatTypeDetectionFramework) (w : World) :
    NatTypeDetectionFramework × World :=
  if s.sampleResult = .FAILED then (s, w)
  else if s.sampleResult = .PENDING then
    if (GetTimeMS w).1 > s.timeout then
      ({ s with sampleResult := .FAILED }, (GetTimeMS w).2)
    else (s, (GetTimeMS w).2)
  else (s, w)

/-- The method `NatTypeDetectionFramework::Shutdown` (lines 378-382). -/
def NatTypeDetectionFramework.Shutdown (s : NatTypeDetectionFramework) (w : World) :
    NatTypeDetectionFramework × World :=
  ({ s with ntdc := false },
    if s.ntdc then w.emit (.DeletePlugin .NatTypeDetectionClient) else w)

/-! ### PunchThrough -/

/-- The constructor (line 394). -/
def NatPunchthoughClientFramework.new (i : Indeterminate) :
    NatPunchthoughClientFramework :=
  ⟨.FAILED, i.punchServerAddress, false, i.punchTimeout, i.punchIsListening⟩

def NatPunchthoughClientFramework.QueryRequiresServer
    (_ : NatPunchthoughClientFramework) : Bool := true
def NatPunchthoughClientFramework.QueryQuitOnSuccess
    (_ : NatPunchthoughClientFramework) : Bool := true

/-- The method `NatPunchthoughClientFramework::Init` (lines 400-452). -/
def NatPunchthoughClientFramework.Init (s : NatPunchthoughClientFramework)
    (w : World) : Except Fault (NatPunchthoughClientFramework × World) :=
  if s.sampleResult = .FAILED then .ok (s, w)
  else
    let sel := SelectAmongConnectedSystems w
    let attach := fun (serverAddress : SystemAddress) (w1 : World) =>
      let w2 := w1.emit .SetDebugInterface
      let w3 := w2.emit (.AttachPlugin .NatPunchthroughClient)
      let guid := (Gets w3).1
      let w4 := (Gets w3).2
      if guid ≠ [] then
        let w5 := w4.emit (.OpenNAT guid serverAddress)
        let t := GetTimeMS w5
        ({ s with serverAddress := serverAddress, npClient := true, isListening := false,
                  timeout := deadlineAfter w5 t.1 10000 }, t.2)
      else
        ({ s with serverAddress := serverAddress, npClient := true, isListening := true },
          w4.emit (.FindRouterPortStride serverAddress))
    if sel.1 = UNASSIGNED_SYSTEM_ADDRESS then
      match ConnectBlocking sel.2 (some DEFAULT_SERVER_ADDRESS) (some DEFAULT_SERVER_PORT) with
      | .error f => .error f
      | .ok (serverAddress, w1) =>
        if serverAddress = UNASSIGNED_SYSTEM_ADDRESS then
          .ok ({ s with serverAddress := serverAddress, sampleResult := .FAILED }, w1)
        else .ok (attach serverAddress w1)
    else .ok (attach sel.1 sel.2)

/-- The four failure events of lines 456-461. -/
def isPunchFailure (id : MessageID) : Bool :=
  id = .ID_NAT_TARGET_NOT_CONNECTED || id = .ID_NAT_TARGET_UNRESPONSIVE ||
  id = .ID_NAT_CONNECTION_TO_TARGET_LOST || id = .ID_NAT_PUNCHTHROUGH_FAILED

/-- The method `NatPunchthoughClientFramework::ProcessPacket` (lines 454-520). -/
def NatPunchthoughClientFramework.ProcessPacket (s : NatPunchthoughClientFramework)
    (packet : Packet) (w : World) :
    Except Fault (NatPunchthoughClientFramework × World) :=
  if isPunchFailure packet.id = true then
    .ok ({ s with sampleResult := .FAILED }, w)
  else if packet.id = .ID_NAT_PUNCHTHROUGH_SUCCEEDED then
    let guid := (Gets w).1
    let w1 := (Gets w).2
    if guid ≠ [] then
      if s.npClient = false then .error .nullDeref
      else
        let w2 := w1.emit (.OpenNAT guid s.serverAddress)
        let t := GetTimeMS w2
        .ok ({ s with timeout := deadlineAfter w2 t.1 10000 }, t.2)
    else .ok ({ s with sampleResult := .SUCCEEDED }, w1)
  else .ok (s, w)

/-- The method `NatPunchthoughClientFramework::Update` (lines 521-530). -/
def NatPunchthoughClientFramework.Update (s : NatPunchthoughClientFramework)
    (w : World) : NatPunchthoughClientFramework × World :=
  if s.sampleResult = .FAILED then (s, w)
  else if s.sampleResult = .PENDING then
    if (GetTimeMS w).1 > s.timeout ∧ s.isListening = false then
      ({ s with sampleResult := .FAILED }, (GetTimeMS w).2)
    else (s, (GetTimeMS w).2)
  else (s, w)

/-- The method `NatPunchthoughClientFramework::Shutdown` (lines 531-535). -/
def NatPunchthoughClientFramework.Shutdown (s : NatPunchthoughClientFramework)
    (w : World) : NatPunchthoughClientFramework × World :=
  ({ s with npClient := false },
    if s.npClient then w.emit (.DeletePlugin .NatPunchthroughClient) else w)

/-! ### PeerRelay -/

/-- The loop `do Gets(buff) while (buff[0]==0)` over the script of coming lines:
the first line that is not empty and the script left; the loop never ends when
no such line comes. -/
def firstNonEmptyLine : List (List Char) → Option (List Char × List (List Char))
  | [] => none
  | l :: ls => if l = [] then firstNonEmptyLine ls else some (l, ls)

/-- The constructor (line 546). -/
def Router2Framework.new (i : Indeterminate) : Router2Framework :=
  ⟨.FAILED, false, i.router2Timeout⟩

def Router2Framework.QueryRequiresServer (_ : Router2Framework) : Bool := false
def Router2Framework.QueryQuitOnSuccess (_ : Router2Framework) : Bool := true

/-- The method `Router2Framework::Init` (lines 552-597). -/
def Router2Framework.Init (s : Router2Framework) (w : World) :
    Except Fault (Router2Framework × World) :=
  if s.sampleResult = .FAILED then .ok (s, w)
  else
    match firstNonEmptyLine w.lines with
    | none => .error .hang
    | some (supportedStr, ls) =>
      let w1 := { w with lines := ls }
      let supported := atoi supportedStr
      if supported ≤ 0 then .ok ({ s with sampleResult := .FAILED }, w1)
      else
        let sel := SelectAmongConnectedSystems w1
        let attach := fun (w2 : World) =>
          match firstNonEmptyLine w2.lines with
          | none => Except.error Fault.hang
          | some (guid, ls2) =>
            let w3 := { w2 with lines := ls2 }
            let w4 := w3.emit (.AttachPlugin .Router2)
            let w5 := w4.emit (.EstablishRouting guid)
            let t := GetTimeMS w5
            .ok ({ s with router2 := true, timeout := deadlineAfter w5 t.1 5000 }, t.2)
        if sel.1 = UNASSIGNED_SYSTEM_ADDRESS then
          match ConnectBlocking sel.2 (some []) (some RAKPEER_PORT_STR) with
          | .error f => .error f
          | .ok (peerAddress, w2) =>
            if peerAddress = UNASSIGNED_SYSTEM_ADDRESS then
              .ok ({ s with sampleResult := .FAILED }, w2)
            else attach w2
        else attach sel.2

def Router2Framework.ProcessPacket (s : Router2Framework) (_ : Packet) :
    Router2Framework := s

/-- The method `Router2Framework::Update` (lines 601-610). -/
def Router2Framework.Update (s : Router2Framework) (w : World) :
    Router2Framework × World :=
  if s.sampleResult = .FAILED then (s, w)
  else if s.sampleResult = .PENDING then
    if (GetTimeMS w).1 > s.timeout then
      ({ s with sampleResult := .FAILED }, (GetTimeMS w).2)
    else (s, (GetTimeMS w).2)
  else (s, w)

/-- The method `Router2Framework::Shutdown` (lines 611-615). -/
def Router2Framework.Shutdown (s : Router2Framework) (w : World) :
    Router2Framework × World :=
  ({ s with router2 := false },
    if s.router2 then w.emit (.DeletePlugin .Router2) else w)

/-! ### ProxyRelay -/

/-- The constructor (line 622); `SUPPORT_UDP_PROXY` is `PENDING` (line 53). -/
def UDPProxyClientFramework.new (i : Indeterminate) : UDPProxyClientFramework :=
  ⟨.PENDING, false, i.proxyTimeout, i.proxyIsListening⟩

def UDPProxyClientFramework.QueryRequiresServer (_ : UDPProxyClientFramework) :
    Bool := true
def UDPProxyClientFramework.QueryQuitOnSuccess (_ : UDPProxyClientFramework) :
    Bool := true

/-- The method `UDPProxyClientFramework::Init` (lines 628-668). -/
def UDPProxyClientFramework.Init (s : UDPProxyClientFramework) (w : World) :
    Except Fault (UDPProxyClientFramework × World) :=
  if s.sampleResult = .FAILED then .ok (s, w)
  else
    let sel := SelectAmongConnectedSystems w
    let attach := fun (serverAddress : SystemAddress) (w1 : World) =>
      let w2 := w1.emit (.AttachPlugin .UDPProxyClient)
      let w3 := w2.emit .SetResultHandler
      let guid := (Gets w3).1
      let w4 := (Gets w3).2
      let w5 := if guid ≠ [] then w4.emit (.RequestForwarding serverAddress guid) else w4
      let t := GetTimeMS w5
      ({ s with udpProxy := true, isListening := decide (guid = []),
                timeout := deadlineAfter w5 t.1 5000 }, t.2)
    if sel.1 = UNASSIGNED_SYSTEM_ADDRESS then
      match ConnectBlocking sel.2 (some DEFAULT_SERVER_ADDRESS) (some DEFAULT_SERVER_PORT) with
      | .error f => .error f
      | .ok (serverAddress, w1) =>
        if serverAddress = UNASSIGNED_SYSTEM_ADDRESS then
          .ok ({ s with sampleResult := .FAILED }, w1)
        else .ok (attach serverAddress w1)
    else .ok (attach sel.1 sel.2)

def UDPProxyClientFramework.ProcessPacket (s : UDPProxyClientFramework) (_ : Packet) :
    UDPProxyClientFramework := s

/-- The method `UDPProxyClientFramework::Update` (lines 672-681). -/
def UDPProxyClientFramework.Update (s : UDPProxyClientFramework) (w : World) :
    UDPProxyClientFramework × World :=
  if s.sampleResult = .FAILED then (s, w)
  else if s.sampleResult = .PENDING then
    if (GetTimeMS w).1 > s.timeout ∧ s.isListening = false then
      ({ s with sampleResult := .FAILED }, (GetTimeMS w).2)
    else (s, (GetTimeMS w).2)
  else (s, w)

/-- The method `UDPProxyClientFramework::Shutdown` (lines 682-686). -/
def UDPProxyClientFramework.Shutdown (s : UDPProxyClientFramework) (w : World) :
    UDPProxyClientFramework × World :=
  ({ s with udpProxy := false },
    if s.udpProxy then w.emit (.DeletePlugin .UDPProxyClient) else w)

/-- The result-handler callbacks (lines 688-722). -/
def UDPProxyClientFramework.onNotification (s : UDPProxyClientFramework)
    (n : ProxyNotification) (w : World) : UDPProxyClientFramework × World :=
  match n with
  | .OnForwardingSuccess proxyIPAddress proxyPort =>
    ({ s with sampleResult := .SUCCEEDED }, (Connect w proxyIPAddress proxyPort).2)
  | .OnForwardingNotification => ({ s with sampleResult := .SUCCEEDED }, w)
  | .OnNoServersOnline => ({ s with sampleResult := .FAILED }, w)
  | .OnRecipientNotConnected => ({ s with sampleResult := .FAILED }, w)
  | .OnAllServersBusy => ({ s with sampleResult := .FAILED }, w)
  | .OnForwardingInProgress => (s, w)

/-! ### `SampleFramework`: dispatch over the five variants -/

inductive Sample
  | upnp (s : UPNPFramework)
  | natType (s : NatTypeDetectionFramework)
  | punch (s : NatPunchthoughClientFramework)
  | router2 (s : Router2Framework)
  | proxy (s : UDPProxyClientFramework)
deriving DecidableEq, Repr

/-- What `QueryName` returns. -/
inductive SampleName
  | UPNPFramework
  | NatTypeDetectionFramework
  | NatPunchthoughClientFramework
  | Router2Framework
  | UDPProxyClientFramework
deriving DecidableEq, Repr

def Sample.sampleResult : Sample → SampleResult
  | .upnp s => s.sampleResult
  | .natType s => s.sampleResult
  | .punch s => s.sampleResult
  | .router2 s => s.sampleResult
  | .proxy s => s.sampleResult

def Sample.QueryName : Sample → SampleName
  | .upnp _ => .UPNPFramework
  | .natType _ => .NatTypeDetectionFramework
  | .punch _ => .NatPunchthoughClientFramework
  | .router2 _ => .Router2Framework
  | .proxy _ => .UDPProxyClientFramework

def Sample.QueryRequiresServer : Sample → Bool
  | .upnp s => s.QueryRequiresServer
  | .natType s => s.QueryRequiresServer
  | .punch s => s.QueryRequiresServer
  | .router2 s => s.QueryRequiresServer
  | .proxy s => s.QueryRequiresServer

def Sample.QueryQuitOnSuccess : Sample → Bool
  | .upnp s => s.QueryQuitOnSuccess
  | .natType s => s.QueryQuitOnSuccess
  | .punch s => s.QueryQuitOnSuccess
  | .router2 s => s.QueryQuitOnSuccess
  | .proxy s => s.QueryQuitOnSuccess

def Sample.Init (x : Sample) (w : World) : Except Fault (Sample × World) :=
  match x with
  | .upnp s => .ok (.upnp (s.Init w).1, (s.Init w).2)
  | .natType s => (s.Init w).map fun r => (.natType r.1, r.2)
  | .punch s => (s.Init w).map fun r => (.punch r.1, r.2)
  | .router2 s => (s.Init w).map fun r => (.router2 r.1, r.2)
  | .proxy s => (s.Init w).map fun r => (.proxy r.1, r.2)

def Sample.ProcessPacket (x : Sample) (packet : Packet) (w : World) :
    Except Fault (Sample × World) :=
  match x with
  | .upnp s => .ok (.upnp (s.ProcessPacket packet), w)
  | .natType s => .ok (.natType (s.ProcessPacket packet), w)
  | .punch s => (s.ProcessPacket packet w).map fun r => (.punch r.1, r.2)
  | .router2 s => .ok (.router2 (s.ProcessPacket packet), w)
  | .proxy s => .ok (.proxy (s.ProcessPacket packet), w)

def Sample.Update (x : Sample) (w : World) : Sample × World :=
  match x with
  | .upnp s => (.upnp (s.Update w).1, (s.Update w).2)
  | .natType s => (.natType (s.Update w).1, (s.Update w).2)
  | .punch s => (.punch (s.Update w).1, (s.Update w).2)
  | .router2 s => (.router2 (s.Update w).1, (s.Update w).2)
  | .proxy s => (.proxy (s.Update w).1, (s.Update w).2)

def Sample.Shutdown (x : Sample) (w : World) : Sample × World :=
  match x with
  | .upnp s => (.upnp (s.Shutdown w).1, (s.Shutdown w).2)
  | .natType s => (.natType (s.Shutdown w).1, (s.Shutdown w).2)
  | .punch s => (.punch (s.Shutdown w).1, (s.Shutdown w).2)
  | .router2 s => (.router2 (s.Shutdown w).1, (s.Shutdown w).2)
  | .proxy s => (.proxy (s.Shutdown w).1, (s.Shutdown w).2)

/-- A call of the result-handler callback; only `UDPProxyClientFramework` is a
`UDPProxyClientResultHandler`. -/
def Sample.onNotification (x : Sample) (n : ProxyNotification) (w : World) :
    Sample × World :=
  match x with
  | .proxy s => (.proxy (s.onNotification n w).1, (s.onNotification n w).2)
  | _ => (x, w)

/-- The plugin pointer of the sample is non-null. -/
def Sample.plugin : Sample → Bool
  | .upnp _ => false
  | .natType s => s.ntdc
  | .punch s => s.npClient
  | .router2 s => s.router2
  | .proxy s => s.udpProxy

/-- The member `timeout` of the sample. -/
def Sample.timeout : Sample → Option Nat
  | .upnp _ => none
  | .natType s => some s.timeout
  | .punch s => some s.timeout
  | .router2 s => some s.timeout
  | .proxy s => some s.timeout

/-- The member `isListening` of the sample. -/
def Sample.isListening : Sample → Option Bool
  | .punch s => some s.isListening
  | .proxy s => some s.isListening
  | _ => none

/-- The calls a technique receives. -/
inductive TechOp
  | Init
  | ProcessPacket (packet : Packet)
  | notification (n : ProxyNotification)
  | Update
deriving DecidableEq, Repr

def Sample.call (x : Sample) (op : TechOp) (w : World) : Except Fault (Sample × World) :=
  match op with
  | .Init => x.Init w
  | .ProcessPacket packet => x.ProcessPacket packet w
  | .notification n => .ok (x.onNotification n w)
  | .Update => .ok (x.Update w)

/-- The values of `sampleResult` seen before the first call and after each call
of a sequence, up to a call that does not return. -/
def outcomeHistory : List TechOp → Sample → World → List SampleResult
  | [], x, _ => [x.sampleResult]
  | op :: ops, x, w =>
    match x.call op w with
    | .error _ => [x.sampleResult]
    | .ok r => x.sampleResult :: outcomeHistory ops r.1 r.2

/-- The outcome a packet stands for, for the variant that looks at it: the
classification result for NatClassification; the four failure events, and the
success event when the line read next is empty, for PunchThrough. -/
def packetOutcome (x : Sample) (packet : Packet) (w : World) : Option SampleResult :=
  match x with
  | .natType _ =>
    if packet.id = .ID_NAT_TYPE_DETECTION_RESULT then some .SUCCEEDED else none
  | .punch _ =>
    if isPunchFailure packet.id = true then some .FAILED
    else if packet.id = .ID_NAT_PUNCHTHROUGH_SUCCEEDED ∧ (Gets w).1 = [] then some .SUCCEEDED
    else none
  | _ => none

/-- The outcome a notification of the proxy plugin stands for. -/
def notificationOutcome (x : Sample) (n : ProxyNotification) : Option SampleResult :=
  match x with
  | .proxy _ =>
    match n with
    | .OnForwardingSuccess _ _ => some .SUCCEEDED
    | .OnForwardingNotification => some .SUCCEEDED
    | .OnNoServersOnline => some .FAILED
    | .OnRecipientNotConnected => some .FAILED
    | .OnAllServersBusy => some .FAILED
    | .OnForwardingInProgress => none
  | _ => none

/-- The deadline `Update` compares the clock with: none for PortMapping, and
none for PunchThrough and ProxyRelay while they listen. -/
def Sample.deadline : Sample → Option Nat
  | .upnp _ => none
  | .natType s => some s.timeout
  | .punch s => if s.isListening = false then some s.timeout else none
  | .router2 s => some s.timeout
  | .proxy s => if s.isListening = false then some s.timeout else none

/-- A request to the transport to connect (the other requests go to a plugin or
to miniupnpc). -/
def Effect.isConnect : Effect → Bool
  | .Connect _ _ => true
  | _ => false

/-! ## The orchestrator: `main` (lines 791-984)

`main` is a machine over the array of samples, the cursor `currentStage`, the
world, and a program counter that names the loop the control is in.  One step
of the machine is one pass through the body of that loop.  `log` lists what
`main` itself did, oldest first: its calls of the virtual functions of the
samples (written down before the call is made), its status lines, its sleeps
and its shutdown of the transport. -/

/-- The type `enum FeatureList` (lines 782-790). -/
inductive FeatureList
  | _UPNPFramework
  | _NatTypeDetectionFramework
  | _NatPunchthoughFramework
  | _Router2Framework
  | _UDPProxyClientFramework
  | FEATURE_LIST_COUNT
deriving DecidableEq, Repr

def FeatureList.toNat : FeatureList → Nat
  | ._UPNPFramework => 0
  | ._NatTypeDetectionFramework => 1
  | ._NatPunchthoughFramework => 2
  | ._Router2Framework => 3
  | ._UDPProxyClientFramework => 4
  | .FEATURE_LIST_COUNT => 5

/-- The status lines `main` prints while it runs the techniques. -/
inductive Status
  | failedToStart
  | noServerSkipping (name : SampleName)
  | executing (name : SampleName)
  | failed (name : SampleName)
  | passed (name : SampleName)
  | connectivityNotPossible
  | proceedingToNextStage
  | pressAnyKeyToQuit
  | pressAnyKeyToQuitWhenDone
  | pressEnterToQuit
deriving DecidableEq, Repr

/-- What `main` does. -/
inductive MainEvent
  | print (s : Status)
  | Init (i : Nat)
  | Update (i : Nat)
  | ProcessPacket (i : Nat) (packet : Packet)
  | Shutdown (i : Nat)
  | PrintPacketMessages (packet : Packet)
  | RakSleep (ms : Nat)
  | rakPeerShutdown
  | getch
deriving DecidableEq, Repr

/-- Where the control is. -/
inductive PC
  /-- The test of the loop that skips techniques (line 853). -/
  | skip
  /-- The top of the outer loop (line 870). -/
  | init
  /-- The top of the inner loop (line 876). -/
  | update
  /-- The test of the outcome (line 888). -/
  | check
  /-- The test of the loop that waits for a key, terminate-on-success (line 921). -/
  | waitQuit
  /-- The test of the loop that waits for a key, list exhausted (line 955). -/
  | waitDone
  /-- The function `main` has returned. -/
  | exited (code : Int)
  /-- A call did not return. -/
  | fault (f : Fault)
deriving DecidableEq, Repr

def PC.isFault : PC → Bool
  | .fault _ => true
  | _ => false

structure MainState where
  samples : List Sample
  currentStage : Nat
  world : World
  log : List MainEvent
  pc : PC
deriving DecidableEq, Repr

/-- The call `samples[i]->ProcessPacket(packet)`. -/
def processPacketAt (packet : Packet) (m : MainState) (i : Nat) : MainState :=
  if m.pc.isFault then m
  else
    match m.samples[i]? with
    | none => { m with pc := .fault .outOfBounds }
    | some x =>
      match x.ProcessPacket packet m.world with
      | .error f => { m with log := m.log ++ [.ProcessPacket i packet], pc := .fault f }
      | .ok r =>
        { m with samples := m.samples.set i r.1, world := r.2,
                 log := m.log ++ [.ProcessPacket i packet] }

/-- The loop of lines 880-883. -/
def processPacketAll (packet : Packet) (m : MainState) : MainState :=
  (List.range m.samples.length).foldl (processPacketAt packet) m

/-- One notification reaches the sample at index `i` when that sample is the
result handler of a plugin that exists. -/
def notifyAt (n : ProxyNotification) (m : MainState) (i : Nat) : MainState :=
  match m.samples[i]? with
  | none => m
  | some x =>
    if x.plugin = true then
      { m with samples := m.samples.set i (x.onNotification n m.world).1,
               world := (x.onNotification n m.world).2 }
    else m

/-- The notifications the proxy plugin raises during one `Receive` call. -/
def receiveCallbacks (m : MainState) : MainState :=
  match m.world.proxyCallbacks with
  | [] => m
  | ns :: rest =>
    ns.foldl (fun m1 n => (List.range m1.samples.length).foldl (notifyAt n) m1)
      { m with world := { m.world with proxyCallbacks := rest } }

/-- The loop `for (packet=Receive(); packet; DeallocatePacket, packet=Receive())`
of lines 878-886 (and 923-931, 957-965) over the script of coming `Receive`
answers. -/
def drainLoop : List (Option Packet) → MainState → MainState
  | [], m => receiveCallbacks m
  | none :: rest, m => receiveCallbacks { m with world := { m.world with receive := rest } }
  | some packet :: rest, m =>
    let m1 := receiveCallbacks { m with world := { m.world with receive := rest } }
    let m2 := processPacketAll packet m1
    if m2.pc.isFault then m2
    else drainLoop rest { m2 with log := m2.log ++ [.PrintPacketMessages packet] }

def drain (m : MainState) : MainState := drainLoop m.world.receive m

/-- One pass through the body of the loop the control is in. -/
def mainStep (m : MainState) : MainState :=
  match m.pc with
  | .skip =>
    match m.samples[m.currentStage]? with
    | none => { m with pc := .fault .outOfBounds }
    | some x =>
      if x.QueryRequiresServer = true then
        let stageInt := m.currentStage + 1
        if stageInt = m.samples.length then
          { m with currentStage := stageInt,
                   log := m.log ++ [.print (.noServerSkipping x.QueryName),
                                    .print .connectivityNotPossible, .getch],
                   pc := .exited 1 }
        else
          { m with currentStage := stageInt,
                   log := m.log ++ [.print (.noServerSkipping x.QueryName)] }
      else { m with pc := .init }
  | .init =>
    match m.samples[m.currentStage]? with
    | none => { m with pc := .fault .outOfBounds }
    | some x =>
      match x.Init m.world with
      | .error f =>
        { m with log := m.log ++ [.print (.executing x.QueryName), .Init m.currentStage],
                 pc := .fault f }
      | .ok r =>
        { m with samples := m.samples.set m.currentStage r.1, world := r.2,
                 log := m.log ++ [.print (.executing x.QueryName), .Init m.currentStage],
                 pc := .update }
  | .update =>
    match m.samples[m.currentStage]? with
    | none => { m with pc := .fault .outOfBounds }
    | some x =>
      let m1 := drain
        { m with samples := m.samples.set m.currentStage (x.Update m.world).1,
                 world := (x.Update m.world).2,
                 log := m.log ++ [.Update m.currentStage] }
      if m1.pc.isFault then m1 else { m1 with pc := .check }
  | .check =>
    match m.samples[m.currentStage]? with
    | none => { m with pc := .fault .outOfBounds }
    | some x =>
      if x.sampleResult = .FAILED ∨ x.sampleResult = .SUCCEEDED then
        if x.sampleResult = .FAILED then
          let stageInt := m.currentStage + 1
          if stageInt = m.samples.length then
            { m with currentStage := stageInt,
                     log := m.log ++ [.print (.failed x.QueryName),
                                      .print .connectivityNotPossible,
                                      .rakPeerShutdown, .getch],
                     pc := .exited 1 }
          else
            { m with currentStage := stageInt,
                     log := m.log ++ [.print (.failed x.QueryName),
                                      .print .proceedingToNextStage],
                     pc := .init }
        else
          if x.QueryQuitOnSuccess = true then
            { m with log := m.log ++ [.print (.passed x.QueryName),
                                      .print .pressAnyKeyToQuit],
                     pc := .waitQuit }
          else
            let stageInt := m.currentStage + 1
            if stageInt < m.samples.length then
              { m with currentStage := stageInt,
                       log := m.log ++ [.print (.passed x.QueryName),
                                        .print .proceedingToNextStage],
                       pc := .init }
            else
              { m with log := m.log ++ [.print (.passed x.QueryName),
                                        .print .proceedingToNextStage,
                                        .print .pressAnyKeyToQuitWhenDone],
                       pc := .waitDone }
      else { m with log := m.log ++ [.RakSleep 30], pc := .update }
  | .waitQuit =>
    if (kbhit m.world).1 = true then
      { m with world := (Gets (kbhit m.world).2).2,
               log := m.log ++ [.rakPeerShutdown, .print .pressEnterToQuit, .getch],
               pc := .exited 1 }
    else
      let m1 := drain { m with world := (kbhit m.world).2 }
      if m1.pc.isFault then m1 else { m1 with log := m1.log ++ [.RakSleep 30] }
  | .waitDone =>
    if (kbhit m.world).1 = true then
      { m with world := (kbhit m.world).2,
               log := m.log ++ [.rakPeerShutdown, .getch],
               pc := .exited 1 }
    else
      let m1 := drain { m with world := (kbhit m.world).2 }
      if m1.pc.isFault then m1 else { m1 with log := m1.log ++ [.RakSleep 30] }
  | .exited _ => m
  | .fault _ => m

/-- The machine after `n` steps. -/
def mainRun : Nat → MainState → MainState
  | 0, m => m
  | n + 1, m => mainRun n (mainStep m)

/-- The machine at line 851, for a list of samples and a first stage. -/
def orchestrate (hasServer : Bool) (samples : List Sample) (currentStage : Nat)
    (w : World) : MainState :=
  { samples := samples, currentStage := currentStage, world := w, log := [],
    pc := if hasServer = false then .skip else .init }

/-- The samples `main` creates (lines 821-828). -/
def mainSamples (i : Indeterminate) : List Sample :=
  [.upnp .new, .natType (.new i), .punch (.new i), .router2 (.new i), .proxy (.new i)]

/-- Line 843. -/
def responseLetter : Char := 'y'

/-- Line 844. -/
def hasServer : Bool :=
  responseLetter = 'y' || responseLetter = 'Y' || responseLetter = ' '

/-- Line 849. -/
def firstStage : FeatureList := ._UDPProxyClientFramework

/-- The machine `main` starts (lines 791-866). -/
def mainStart (i : Indeterminate) (w : World) : MainState :=
  if w.startupOk = true then
    orchestrate hasServer (mainSamples i) firstStage.toNat w
  else
    { samples := [], currentStage := 0, world := w,
      log := [.print .failedToStart, .getch], pc := .exited 1 }


/-- A world in which nothing happens: no line, no packet, no key, no connected
system, no UPnP device, and every connect request rejected. -/
def quietWorld : World :=
  { lines := [], receive := [], proxyCallbacks := [], systemLists := [], connects := [],
    now := 0, clock := [], timeModulus := 4294967296, keys := [], upnp := [],
    boundPort := 50000, startupOk := true, trace := [] }

/-! ## Reading the log of `main` -/

def MainEvent.initIndex : MainEvent → Option Nat
  | .Init i => some i
  | _ => none

def MainEvent.isFailed : MainEvent → Bool
  | .print (.failed _) => true
  | _ => false

def MainEvent.isPassed : MainEvent → Bool
  | .print (.passed _) => true
  | _ => false

/-- The events of the packet loop: a `ProcessPacket` call or the diagnostic
printing of a packet. -/
def MainEvent.isPacketEvent : MainEvent → Bool
  | .ProcessPacket _ _ => true
  | .PrintPacketMessages _ => true
  | _ => false

/-- The indices of the samples whose `Init` was called, in the order of the
calls. -/
def initCalls (log : List MainEvent) : List Nat := log.filterMap MainEvent.initIndex

/-- How often `main` reported a failed technique. -/
def failures (log : List MainEvent) : Nat := log.countP MainEvent.isFailed

/-- How often `main` reported a passed technique. -/
def passes (log : List MainEvent) : Nat := log.countP MainEvent.isPassed

/-- True when `main` reported that connectivity is not possible: the overall failure. -/
def reportsNoConnectivity (log : List MainEvent) : Prop :=
  MainEvent.print .connectivityNotPossible ∈ log

/-- The bookkeeping of `main` at one program counter, for a run that started at
stage `c` of `L` samples with a server at hand: `cur` is the cursor, `inits` the
number of `Init` calls, `reports` the number of techniques reported failed or
passed, `passed` the number reported passed, and `noConnectivity` tells whether
the overall failure was reported. -/
def steadyAt (L c : Nat) (pc : PC) (cur inits reports passed : Nat)
    (noConnectivity : Prop) : Prop :=
  match pc with
  | .skip => False
  | .init => cur < L ∧ cur = c + reports ∧ inits = reports ∧ ¬ noConnectivity
  | .update => cur < L ∧ cur = c + reports ∧ inits = reports + 1 ∧ ¬ noConnectivity
  | .check => cur < L ∧ cur = c + reports ∧ inits = reports + 1 ∧ ¬ noConnectivity
  | .waitQuit =>
    cur < L ∧ cur + 1 = c + reports ∧ inits = reports ∧ 0 < passed ∧ ¬ noConnectivity
  | .waitDone =>
    cur < L ∧ cur + 1 = c + reports ∧ inits = reports ∧ 0 < passed ∧ ¬ noConnectivity
  | .exited code =>
    code = 1 ∧ inits = reports ∧
    (noConnectivity ∧ cur = L ∧ cur = c + reports ∨
      ¬ noConnectivity ∧ cur < L ∧ cur + 1 = c + reports ∧ 0 < passed)
  | .fault _ =>
    cur < L ∧ ¬ noConnectivity ∧
    (cur = c + reports ∧ (inits = reports ∨ inits = reports + 1) ∨
      cur + 1 = c + reports ∧ inits = reports ∧ 0 < passed)

/-- The bookkeeping of a run that started at stage `c` of `L` samples with a
server at hand: `Init` was called for the stages from `c` on, one after the
other; the cursor is `c` plus the techniques reported failed or passed, less
the one whose success ended the run; and the overall failure is reported
exactly in the state `main` returned in with the cursor at `L`. -/
def Steady (L c : Nat) (m : MainState) : Prop :=
  m.samples.length = L ∧
  initCalls m.log = List.range' c (initCalls m.log).length ∧
  steadyAt L c m.pc m.currentStage (initCalls m.log).length
    (failures m.log + passes m.log) (passes m.log) (reportsNoConnectivity m.log)

/-- What `main` does once a success has ended the run: the packet loop, the
sleeps, the shutdown of the transport and the wait for the last keys. -/
def MainEvent.isEpilogue : MainEvent → Bool
  | .ProcessPacket _ _ => true
  | .PrintPacketMessages _ => true
  | .RakSleep _ => true
  | .rakPeerShutdown => true
  | .getch => true
  | .print .pressEnterToQuit => true
  | _ => false

/-- The control is in a loop that waits for a key, or `main` has returned 1, or
a call did not return. -/
def PC.isOver : PC → Bool
  | .waitQuit => true
  | .waitDone => true
  | .exited 1 => true
  | .fault _ => true
  | _ => false

/-- The outcome that the test of line 888 finds when the control is there: the
`sampleResult` of the active sample. -/
def observedOutcome (m : MainState) : Option SampleResult :=
  if m.pc = .check then (m.samples[m.currentStage]?).map Sample.sampleResult else none

/-- How often, during the first `n` steps from `m`, the test of the outcome
found the active technique `FAILED`. -/
def failuresFound : Nat → MainState → Nat
  | 0, _ => 0
  | n + 1, m =>
    (if observedOutcome m = some .FAILED then 1 else 0) + failuresFound n (mainStep m)

/-- PortMapping that has not run yet, then ProxyRelay that has not run yet. -/
def failingPair : List Sample := [.upnp ⟨.PENDING⟩, .proxy ⟨.PENDING, false, 0, false⟩]

/-- Values for the members the constructors leave without a value. -/
def someIndeterminate : Indeterminate := ⟨0, ⟨0, 0⟩, 0, false, 0, 0, false⟩

/-- What the packet loop may change: samples and world, but not the cursor, the
number of samples or the coming keys; the log grows by packet events only; the
program counter stays or becomes a fault. -/
structure Quiet (m m' : MainState) : Prop where
  stage : m'.currentStage = m.currentStage
  size : m'.samples.length = m.samples.length
  keys : m'.world.keys = m.world.keys
  pc : m'.pc = m.pc ∨ m'.pc.isFault = true
  log : ∃ ext, m'.log = m.log ++ ext ∧ ∀ e ∈ ext, e.isPacketEvent = true

/-- What holds between a state in which the run is over and a later one. -/
structure Epilogue (m m' : MainState) : Prop where
  stage : m'.currentStage = m.currentStage
  over : m'.pc.isOver = true
  log : ∃ ext, m'.log = m.log ++ ext ∧ ∀ e ∈ ext, e.isEpilogue = true

/-! ## Worlds and states used as examples -/

/-- The test of the outcome finds a ProxyRelay that succeeded; the key comes at
the second `kbhit`. -/
def passedProxy : MainState :=
  { samples := [.proxy ⟨.SUCCEEDED, true, 0, false⟩], currentStage := 0,
    world := { quietWorld with keys := [false, true] }, log := [], pc := .check }

/-- One connected system, no line on the console, and the clock readings 0
and 6000. -/
def listeningWorld : World :=
  { quietWorld with systemLists := [[⟨10, 1⟩]], clock := [0, 6000] }

/-- The transport starts the connect attempt and delivers, after one empty
poll, the acceptance by the system at `⟨10, 1⟩`. -/
def acceptingWorld : World :=
  { quietWorld with
    connects := [.CONNECTION_ATTEMPT_STARTED],
    receive := [none, some ⟨.ID_CONNECTION_REQUEST_ACCEPTED, 0, ⟨10, 1⟩, 7⟩] }

/-- A packet with the classification result. -/
def resultPacket : Packet := ⟨.ID_NAT_TYPE_DETECTION_RESULT, 0, ⟨1, 1⟩, 7⟩

/-! ## Definitions for the claims on single techniques -/

/-- The miniupnpc answers of a run in which a device and a valid gateway are
found, `UPNP_AddPortMapping` fails and `UPNP_GetSpecificPortMappingEntry`
succeeds. -/
def installFailsWorld : World :=
  { quietWorld with upnp := [⟨true, 1, false, true⟩] }

/-- The calls `ProcessPacket(packet)` for the packets of a list, one after the
other. -/
def NatPunchthoughClientFramework.processPackets :
    List Packet → NatPunchthoughClientFramework → World →
      Except Fault (NatPunchthoughClientFramework × World)
  | [], s, w => .ok (s, w)
  | packet :: rest, s, w =>
    match s.ProcessPacket packet w with
    | .error f => .error f
    | .ok r => NatPunchthoughClientFramework.processPackets rest r.1 r.2

/-- A packet that reports a punch success. -/
def punchSuccessPacket : Packet := ⟨.ID_NAT_PUNCHTHROUGH_SUCCEEDED, 1, ⟨20, 2⟩, 9⟩

/-- A PunchThrough that waits for the outcome of a punch, its plugin created and
the coordination endpoint `⟨10, 1⟩` stored. -/
def pendingPunch : NatPunchthoughClientFramework := ⟨.PENDING, ⟨10, 1⟩, true, 10000, false⟩

/-- Two target lines, then an empty line, and the clock readings 100 and 200. -/
def twoTargetsWorld : World :=
  { quietWorld with lines := [['7'], ['8'], []], clock := [100, 200] }

/-! ## Definitions for the claims on the start and the end of a run -/

/-- The number of samples from index `c` on that require a server, up to the
first that does not. -/
def skippedFrom (samples : List Sample) (c : Nat) : Nat :=
  ((samples.drop c).takeWhile Sample.QueryRequiresServer).length

/-- The status lines `No server: Skipping` for the `k` samples from index `c`
on. -/
def skipLines (samples : List Sample) (c k : Nat) : List MainEvent :=
  ((samples.drop c).take k).map fun x => MainEvent.print (.noServerSkipping x.QueryName)

/-! ## Definitions for the claims on teardown and on what follows the end -/

/-- A call `samples[i]->Shutdown(rakPeer)` made by `main`. -/
def MainEvent.isShutdown : MainEvent → Bool
  | .Shutdown _ => true
  | _ => false

/-- What holds between a state of `main` and a later one when no technique was
torn down in between: a sample whose plugin exists still has it, and the log
has grown by no `Shutdown` call. -/
structure Attached (m m' : MainState) : Prop where
  plugins : ∀ (i : Nat) (x : Sample), m.samples[i]? = some x → x.plugin = true →
    ∃ y : Sample, m'.samples[i]? = some y ∧ y.plugin = true
  log : ∃ ext, m'.log = m.log ++ ext ∧ ∀ e ∈ ext, e.isShutdown = false

/-- One connected system, the line `7` on the console, and the clock readings 0
and 6000: the forwarding ProxyRelay asks for is not answered in time. -/
def timedOutWorld : World :=
  { quietWorld with systemLists := [[⟨10, 1⟩]], lines := [['7']], clock := [0, 6000] }

/-- One connected system and the line `7` on the console; the proxy plugin
reports the forwarding during the first `Receive` call of the main loop, and a
packet with a classification result arrives after that; the key comes at the
second `kbhit`. -/
def latePacketWorld : World :=
  { quietWorld with
    systemLists := [[⟨10, 1⟩]], lines := [['7']], clock := [0],
    proxyCallbacks := [[.OnForwardingNotification]],
    receive := [none, some resultPacket], keys := [false, true] }

/-- The control is in the loop that waits for a key after ProxyRelay succeeded;
a packet is on its way and the key comes at the second `kbhit`. -/
def waitingForKey : MainState :=
  { samples := [.natType ⟨.FAILED, false, 0⟩, .proxy ⟨.SUCCEEDED, true, 5000, false⟩],
    currentStage := 1,
    world := { quietWorld with receive := [some resultPacket], keys := [false, true] },
    log := [], pc := .waitQuit }

/-! ## Definitions for the claim on the outcome a technique starts with -/

/-- The miniupnpc answers of a run in which a device and a valid gateway are
found and both requests succeed. -/
def gatewayWorld : World :=
  { quietWorld with upnp := [⟨true, 1, true, true⟩] }

/-! ## Theorems -/

/-! ### The helper functions -/

theorem connect_trace (w : World) (host : List Char) (remotePort : Nat) :
    (Connect w host remotePort).2.trace = w.trace ++ [.Connect host remotePort] := by
  unfold Connect
  split <;> rfl

theorem connect_receive (w : World) (host : List Char) (remotePort : Nat) :
    (Connect w host remotePort).2.receive = w.receive := by
  unfold Connect
  split <;> rfl

theorem gets_trace (w : World) : (Gets w).2.trace = w.trace := by
  unfold Gets
  split <;> rfl

theorem poll_first_packet (n : Nat) (packet : Packet) (rest : List (Option Packet)) :
    ConnectBlocking.poll (List.replicate n none ++ some packet :: rest) =
      some (if packet.id = .ID_CONNECTION_REQUEST_ACCEPTED then packet.systemAddress
            else UNASSIGNED_SYSTEM_ADDRESS, rest) := by
  induction n with
  | zero =>
    simp only [List.replicate, List.nil_append, ConnectBlocking.poll]
    split <;> simp
  | succ k ih => simpa [List.replicate, ConnectBlocking.poll] using ih

theorem poll_no_packet (script : List (Option Packet)) (h : ∀ x ∈ script, x = none) :
    ConnectBlocking.poll script = none := by
  induction script with
  | nil => rfl
  | cons x xs ih =>
    have hx : x = none := h x (List.mem_cons_self _ _)
    subst hx
    simpa [ConnectBlocking.poll] using ih (fun y hy => h y (List.mem_cons_of_mem _ hy))

theorem poll_none (script : List (Option Packet)) (h : ConnectBlocking.poll script = none) :
    ∀ x ∈ script, x = none := by
  induction script with
  | nil => simp
  | cons x xs ih =>
    cases x with
    | none =>
      intro y hy
      rcases List.mem_cons.mp hy with rfl | hy
      · rfl
      · exact ih (by simpa [ConnectBlocking.poll] using h) y hy
    | some packet =>
      simp only [ConnectBlocking.poll] at h
      split_ifs at h

theorem attempt_trace (w : World) (ipAddr port : List Char) (a : SystemAddress) (w1 : World)
    (h : ConnectBlocking.attempt w ipAddr port = .ok (a, w1)) :
    w1.trace = w.trace ++ [.Connect ipAddr (toUnsignedShort (atoi port))] := by
  unfold ConnectBlocking.attempt at h
  simp only [] at h
  repeat' split at h
  all_goals (cases h <;> simp [connect_trace])

/-- The second part of `ConnectBlocking` returns after one connect request for
the address and the port it was given, or it waits for ever for a packet after
the transport started the attempt. -/
theorem attempt_result (w : World) (ipAddr port : List Char) :
    (∃ a w1, ConnectBlocking.attempt w ipAddr port = .ok (a, w1) ∧
      w1.trace = w.trace ++ [.Connect ipAddr (toUnsignedShort (atoi port))]) ∨
    (ConnectBlocking.attempt w ipAddr port = .error .hang ∧
      (Connect w ipAddr (toUnsignedShort (atoi port))).1 = .CONNECTION_ATTEMPT_STARTED ∧
      ∀ x ∈ w.receive, x = none) := by
  cases hr : ConnectBlocking.attempt w ipAddr port with
  | ok r =>
    obtain ⟨a, w1⟩ := r
    exact Or.inl ⟨a, w1, rfl, attempt_trace w ipAddr port a w1 hr⟩
  | error f =>
    right
    unfold ConnectBlocking.attempt at hr
    simp only [] at hr
    split at hr
    · cases hr
    · rename_i hstarted
      split at hr
      · rename_i hpoll
        cases hr
        refine ⟨rfl, by simpa using hstarted, ?_⟩
        rw [← connect_receive w ipAddr (toUnsignedShort (atoi port))]
        exact poll_none _ hpoll
      · cases hr

/-- C9: `ConnectBlocking` takes the default address for an empty address line
and the default port for an empty port line, and the one connect request it
issues is for exactly that address and port text: when it returns, the trace
has grown by this request alone, and it fails to return only when the transport
started the attempt and delivers no packet. With an empty line and a default
that is absent or empty it returns the unassigned address and issues no
request. -/
theorem connect_blocking_defaults (w w1 w2 : World)
    (defaultAddress defaultPort : Option (List Char)) (ipLine portLine : List Char)
    (hIp : Gets w = (ipLine, w1)) (hPort : Gets w1 = (portLine, w2)) :
    (∀ d p, ipLine = [] → defaultAddress = some d → d ≠ [] →
      (portLine ≠ [] ∧ p = portLine ∨ portLine = [] ∧ defaultPort = some p ∧ p ≠ []) →
      ConnectBlocking w defaultAddress defaultPort = ConnectBlocking.attempt w2 d p ∧
      (Connect w2 d (toUnsignedShort (atoi p))).2.trace =
        w.trace ++ [.Connect d (toUnsignedShort (atoi p))] ∧
      (∀ a w3, ConnectBlocking w defaultAddress defaultPort = .ok (a, w3) →
        w3.trace = w.trace ++ [.Connect d (toUnsignedShort (atoi p))]) ∧
      ((∃ a w3, ConnectBlocking w defaultAddress defaultPort = .ok (a, w3)) ∨
        ConnectBlocking w defaultAddress defaultPort = .error .hang ∧
        (Connect w2 d (toUnsignedShort (atoi p))).1 = .CONNECTION_ATTEMPT_STARTED ∧
        ∀ x ∈ w2.receive, x = none)) ∧
    (∀ p, ipLine ≠ [] → portLine = [] → defaultPort = some p → p ≠ [] →
      ConnectBlocking w defaultAddress defaultPort = ConnectBlocking.attempt w2 ipLine p ∧
      (Connect w2 ipLine (toUnsignedShort (atoi p))).2.trace =
        w.trace ++ [.Connect ipLine (toUnsignedShort (atoi p))] ∧
      (∀ a w3, ConnectBlocking w defaultAddress defaultPort = .ok (a, w3) →
        w3.trace = w.trace ++ [.Connect ipLine (toUnsignedShort (atoi p))]) ∧
      ((∃ a w3, ConnectBlocking w defaultAddress defaultPort = .ok (a, w3)) ∨
        ConnectBlocking w defaultAddress defaultPort = .error .hang ∧
        (Connect w2 ipLine (toUnsignedShort (atoi p))).1 = .CONNECTION_ATTEMPT_STARTED ∧
        ∀ x ∈ w2.receive, x = none)) ∧
    (ipLine = [] → absentOrEmpty defaultAddress = true →
      ConnectBlocking w defaultAddress defaultPort = .ok (UNASSIGNED_SYSTEM_ADDRESS, w1) ∧
      w1.trace = w.trace) ∧
    (¬ (ipLine = [] ∧ absentOrEmpty defaultAddress = true) → portLine = [] →
      absentOrEmpty defaultPort = true →
      ConnectBlocking w defaultAddress defaultPort = .ok (UNASSIGNED_SYSTEM_ADDRESS, w2) ∧
      w2.trace = w.trace) := by
  have t1 : w1.trace = w.trace := by
    have := gets_trace w
    rw [hIp] at this
    exact this
  have t2 : w2.trace = w.trace := by
    have := gets_trace w1
    rw [hPort] at this
    rw [← t1]
    exact this
  have hrest : ∀ d p,
      ConnectBlocking w defaultAddress defaultPort = ConnectBlocking.attempt w2 d p →
      ConnectBlocking w defaultAddress defaultPort = ConnectBlocking.attempt w2 d p ∧
      (Connect w2 d (toUnsignedShort (atoi p))).2.trace =
        w.trace ++ [.Connect d (toUnsignedShort (atoi p))] ∧
      (∀ a w3, ConnectBlocking w defaultAddress defaultPort = .ok (a, w3) →
        w3.trace = w.trace ++ [.Connect d (toUnsignedShort (atoi p))]) ∧
      ((∃ a w3, ConnectBlocking w defaultAddress defaultPort = .ok (a, w3)) ∨
        ConnectBlocking w defaultAddress defaultPort = .error .hang ∧
        (Connect w2 d (toUnsignedShort (atoi p))).1 = .CONNECTION_ATTEMPT_STARTED ∧
        ∀ x ∈ w2.receive, x = none) := by
    intro d p heq
    refine ⟨heq, by rw [connect_trace, t2], ?_, ?_⟩
    · intro a w3 hok
      rw [heq] at hok
      unfold ConnectBlocking.attempt at hok
      simp only [] at hok
      repeat' split at hok
      all_goals (cases hok <;> simp [connect_trace, t2])
    · rw [heq]
      rcases attempt_result w2 d p with ⟨a, w3, hok, _⟩ | hh
      · exact Or.inl ⟨a, w3, hok⟩
      · exact Or.inr hh
  refine ⟨?_, ?_, ?_, ?_⟩
  · intro d p hi hd hdne hp
    subst hi hd
    have hd' : absentOrEmpty (some d) = false := by
      cases d with
      | nil => exact absurd rfl hdne
      | cons c cs => rfl
    apply hrest
    rcases hp with ⟨hne, rfl⟩ | ⟨he, hdp, hpne⟩
    · simp [ConnectBlocking, hIp, hPort, hd', hne]
    · subst he hdp
      have hp' : absentOrEmpty (some p) = false := by
        cases p with
        | nil => exact absurd rfl hpne
        | cons c cs => rfl
      simp [ConnectBlocking, hIp, hPort, hd', hp']
  · intro p hi he hdp hpne
    subst he hdp
    have hp' : absentOrEmpty (some p) = false := by
      cases p with
      | nil => exact absurd rfl hpne
      | cons c cs => rfl
    apply hrest
    simp [ConnectBlocking, hIp, hPort, hi, hp']
  · intro hi ha
    exact ⟨by simp [ConnectBlocking, hIp, hi, ha], t1⟩
  · intro h1 he ha
    refine ⟨?_, t2⟩
    simp only [ConnectBlocking, hIp, hPort]
    rw [if_neg h1, if_pos ⟨he, ha⟩]

/-- C10: once address and port are settled, `ConnectBlocking` returns the
unassigned address, without a `Receive` call, when `Connect` does not return
`CONNECTION_ATTEMPT_STARTED`; otherwise the first packet the transport delivers
decides: its source address when it is `ID_CONNECTION_REQUEST_ACCEPTED`, the
unassigned address for every other kind; and the call never returns when no
packet is delivered. -/
theorem connect_blocking_first_event (w : World) (ipAddr port : List Char) :
    ((Connect w ipAddr (toUnsignedShort (atoi port))).1 ≠ .CONNECTION_ATTEMPT_STARTED →
      ConnectBlocking.attempt w ipAddr port =
        .ok (UNASSIGNED_SYSTEM_ADDRESS, (Connect w ipAddr (toUnsignedShort (atoi port))).2) ∧
      (Connect w ipAddr (toUnsignedShort (atoi port))).2.receive = w.receive) ∧
    ((Connect w ipAddr (toUnsignedShort (atoi port))).1 = .CONNECTION_ATTEMPT_STARTED →
      ∀ (n : Nat) (packet : Packet) (rest : List (Option Packet)),
        w.receive = List.replicate n none ++ some packet :: rest →
        ConnectBlocking.attempt w ipAddr port =
          .ok (if packet.id = .ID_CONNECTION_REQUEST_ACCEPTED then packet.systemAddress
               else UNASSIGNED_SYSTEM_ADDRESS,
               { (Connect w ipAddr (toUnsignedShort (atoi port))).2 with receive := rest })) ∧
    ((Connect w ipAddr (toUnsignedShort (atoi port))).1 = .CONNECTION_ATTEMPT_STARTED →
      (∀ x ∈ w.receive, x = none) →
      ConnectBlocking.attempt w ipAddr port = .error .hang) := by
  refine ⟨?_, ?_, ?_⟩
  · intro h
    exact ⟨by simp [ConnectBlocking.attempt, h], connect_receive _ _ _⟩
  · intro h n packet rest hr
    simp only [ConnectBlocking.attempt, h, ne_eq, not_true_eq_false, if_false]
    rw [connect_receive, hr, poll_first_packet]
  · intro h hr
    simp only [ConnectBlocking.attempt, h, ne_eq, not_true_eq_false, if_false]
    rw [connect_receive, poll_no_packet _ hr]


/-! ### The techniques never assign `PENDING` -/

theorem upnp_init_outcome (s : UPNPFramework) (w : World) :
    (s.Init w).1.sampleResult = s.sampleResult ∨ (s.Init w).1.sampleResult ≠ .PENDING := by
  unfold UPNPFramework.Init
  simp only []
  repeat' split
  all_goals simp

theorem natType_init_outcome (s : NatTypeDetectionFramework) (w : World)
    (r : NatTypeDetectionFramework × World) (h : s.Init w = .ok r) :
    r.1.sampleResult = s.sampleResult ∨ r.1.sampleResult ≠ .PENDING := by
  unfold NatTypeDetectionFramework.Init at h
  simp only [] at h
  repeat' split at h
  all_goals (cases h <;> simp)

theorem punch_init_outcome (s : NatPunchthoughClientFramework) (w : World)
    (r : NatPunchthoughClientFramework × World) (h : s.Init w = .ok r) :
    r.1.sampleResult = s.sampleResult ∨ r.1.sampleResult ≠ .PENDING := by
  unfold NatPunchthoughClientFramework.Init at h
  simp only [] at h
  repeat' split at h
  all_goals (cases h <;> simp)

theorem router2_init_outcome (s : Router2Framework) (w : World)
    (r : Router2Framework × World) (h : s.Init w = .ok r) :
    r.1.sampleResult = s.sampleResult ∨ r.1.sampleResult ≠ .PENDING := by
  unfold Router2Framework.Init at h
  simp only [] at h
  repeat' split at h
  all_goals (cases h <;> simp)

theorem proxy_init_outcome (s : UDPProxyClientFramework) (w : World)
    (r : UDPProxyClientFramework × World) (h : s.Init w = .ok r) :
    r.1.sampleResult = s.sampleResult ∨ r.1.sampleResult ≠ .PENDING := by
  unfold UDPProxyClientFramework.Init at h
  simp only [] at h
  repeat' split at h
  all_goals (cases h <;> simp)

theorem punch_processPacket_outcome (s : NatPunchthoughClientFramework) (packet : Packet)
    (w : World) (r : NatPunchthoughClientFramework × World)
    (h : s.ProcessPacket packet w = .ok r) :
    r.1.sampleResult = s.sampleResult ∨ r.1.sampleResult ≠ .PENDING := by
  unfold NatPunchthoughClientFramework.ProcessPacket at h
  simp only [] at h
  repeat' split at h
  all_goals (cases h <;> simp)

theorem sample_call_outcome (x : Sample) (op : TechOp) (w : World) (r : Sample × World)
    (h : x.call op w = .ok r) :
    r.1.sampleResult = x.sampleResult ∨ r.1.sampleResult ≠ .PENDING := by
  cases op with
  | Init =>
    cases x with
    | upnp s =>
      simp only [Sample.call, Sample.Init, Except.ok.injEq] at h
      subst h
      exact upnp_init_outcome s w
    | natType s =>
      simp only [Sample.call, Sample.Init] at h
      cases hs : s.Init w with
      | error f => simp [hs, Except.map] at h
      | ok q =>
        simp only [hs, Except.map, Except.ok.injEq] at h
        subst h
        exact natType_init_outcome s w q hs
    | punch s =>
      simp only [Sample.call, Sample.Init] at h
      cases hs : s.Init w with
      | error f => simp [hs, Except.map] at h
      | ok q =>
        simp only [hs, Except.map, Except.ok.injEq] at h
        subst h
        exact punch_init_outcome s w q hs
    | router2 s =>
      simp only [Sample.call, Sample.Init] at h
      cases hs : s.Init w with
      | error f => simp [hs, Except.map] at h
      | ok q =>
        simp only [hs, Except.map, Except.ok.injEq] at h
        subst h
        exact router2_init_outcome s w q hs
    | proxy s =>
      simp only [Sample.call, Sample.Init] at h
      cases hs : s.Init w with
      | error f => simp [hs, Except.map] at h
      | ok q =>
        simp only [hs, Except.map, Except.ok.injEq] at h
        subst h
        exact proxy_init_outcome s w q hs
  | ProcessPacket packet =>
    cases x with
    | upnp s =>
      simp only [Sample.call, Sample.ProcessPacket, Except.ok.injEq] at h
      subst h
      simp [Sample.sampleResult, UPNPFramework.ProcessPacket]
    | natType s =>
      simp only [Sample.call, Sample.ProcessPacket, Except.ok.injEq] at h
      subst h
      simp only [Sample.sampleResult, NatTypeDetectionFramework.ProcessPacket]
      split <;> simp
    | punch s =>
      simp only [Sample.call, Sample.ProcessPacket] at h
      cases hs : s.ProcessPacket packet w with
      | error f => simp [hs, Except.map] at h
      | ok q =>
        simp only [hs, Except.map, Except.ok.injEq] at h
        subst h
        exact punch_processPacket_outcome s packet w q hs
    | router2 s =>
      simp only [Sample.call, Sample.ProcessPacket, Except.ok.injEq] at h
      subst h
      simp [Sample.sampleResult, Router2Framework.ProcessPacket]
    | proxy s =>
      simp only [Sample.call, Sample.ProcessPacket, Except.ok.injEq] at h
      subst h
      simp [Sample.sampleResult, UDPProxyClientFramework.ProcessPacket]
  | notification n =>
    simp only [Sample.call, Except.ok.injEq] at h
    subst h
    cases x <;> cases n <;>
      simp [Sample.onNotification, Sample.sampleResult, UDPProxyClientFramework.onNotification]
  | Update =>
    simp only [Sample.call, Except.ok.injEq] at h
    subst h
    cases x with
    | upnp s =>
      simp only [Sample.Update, Sample.sampleResult, UPNPFramework.Update]
      split <;> simp
    | natType s =>
      simp only [Sample.Update, Sample.sampleResult, NatTypeDetectionFramework.Update]
      repeat' split
      all_goals simp
    | punch s =>
      simp only [Sample.Update, Sample.sampleResult, NatPunchthoughClientFramework.Update]
      repeat' split
      all_goals simp
    | router2 s =>
      simp only [Sample.Update, Sample.sampleResult, Router2Framework.Update]
      repeat' split
      all_goals simp
    | proxy s =>
      simp only [Sample.Update, Sample.sampleResult, UDPProxyClientFramework.Update]
      repeat' split
      all_goals simp

theorem outcomeHistory_head (ops : List TechOp) (x : Sample) (w : World) :
    (outcomeHistory ops x w)[0]? = some x.sampleResult := by
  cases ops with
  | nil => rfl
  | cons op ops =>
    simp only [outcomeHistory]
    split <;> simp

theorem outcomeHistory_terminal (ops : List TechOp) :
    ∀ (x : Sample) (w : World), x.sampleResult ≠ .PENDING →
      ∀ r ∈ outcomeHistory ops x w, r ≠ .PENDING := by
  induction ops with
  | nil =>
    intro x w hx r hr
    simp only [outcomeHistory, List.mem_singleton] at hr
    exact hr ▸ hx
  | cons op ops ih =>
    intro x w hx r hr
    simp only [outcomeHistory] at hr
    split at hr
    · simp only [List.mem_singleton] at hr
      exact hr ▸ hx
    · rename_i q hq
      rcases List.mem_cons.mp hr with rfl | hr
      · exact hx
      · refine ih q.1 q.2 ?_ r hr
        rcases sample_call_outcome x op w q hq with h | h
        · rw [h]; exact hx
        · exact h

/-- C4: for every variant and every sequence of `Init`, `ProcessPacket`,
result-handler and `Update` calls, a `sampleResult` that is `FAILED` or
`SUCCEEDED` at one point of the sequence is not `PENDING` at any later point. -/
theorem outcome_never_returns_to_pending (ops : List TechOp) (x : Sample) (w : World)
    (i j : Nat) (a b : SampleResult) (hij : i ≤ j)
    (ha : (outcomeHistory ops x w)[i]? = some a) (hterminal : a ≠ .PENDING)
    (hb : (outcomeHistory ops x w)[j]? = some b) : b ≠ .PENDING := by
  induction i generalizing ops x w j with
  | zero =>
    rw [outcomeHistory_head] at ha
    cases ha
    exact outcomeHistory_terminal ops x w hterminal b (List.getElem?_mem hb)
  | succ i ih =>
    obtain ⟨j, rfl⟩ : ∃ k, j = k + 1 := ⟨j - 1, by omega⟩
    cases ops with
    | nil => simp [outcomeHistory] at ha
    | cons op ops =>
      simp only [outcomeHistory] at ha hb
      split at ha
      · simp at ha
      · rename_i q hq
        simp only [hq, List.getElem?_cons_succ] at ha hb
        exact ih ops q.1 q.2 j (by omega) ha hb


/-! ### Events, ticks and `Init` without an endpoint -/

/-- C5, as the claim states it, fails: a classification result delivered to a
NatClassification whose outcome is `FAILED` makes it `SUCCEEDED`. -/
theorem late_event_overturns_failed :
    (Sample.natType (.new someIndeterminate)).sampleResult = .FAILED ∧
    ∃ r, (Sample.natType (.new someIndeterminate)).ProcessPacket resultPacket quietWorld =
        .ok r ∧
      r.1.sampleResult = .SUCCEEDED :=
  ⟨rfl, _, rfl, rfl⟩

/-- C5, amended: an event leaves the outcome as it is unless the variant looks
at that event; when it does, the outcome becomes the one the event stands for,
whatever the outcome was before, `FAILED` and `SUCCEEDED` included. -/
theorem event_sets_outcome_regardless (x : Sample) (w : World) :
    (∀ packet r, x.ProcessPacket packet w = .ok r →
      r.1.sampleResult = (packetOutcome x packet w).getD x.sampleResult) ∧
    (∀ n, (x.onNotification n w).1.sampleResult =
      (notificationOutcome x n).getD x.sampleResult) := by
  constructor
  · intro packet r h
    cases x with
    | upnp s =>
      simp only [Sample.ProcessPacket, Except.ok.injEq] at h
      subst h
      rfl
    | natType s =>
      simp only [Sample.ProcessPacket, Except.ok.injEq] at h
      subst h
      simp only [Sample.sampleResult, NatTypeDetectionFramework.ProcessPacket, packetOutcome]
      split <;> rfl
    | punch s =>
      simp only [Sample.ProcessPacket] at h
      cases hs : s.ProcessPacket packet w with
      | error f => simp [hs, Except.map] at h
      | ok q =>
        simp only [hs, Except.map, Except.ok.injEq] at h
        subst h
        unfold NatPunchthoughClientFramework.ProcessPacket at hs
        simp only [] at hs
        simp only [Sample.sampleResult, packetOutcome]
        repeat' split at hs
        all_goals (cases hs <;> simp_all)
    | router2 s =>
      simp only [Sample.ProcessPacket, Except.ok.injEq] at h
      subst h
      rfl
    | proxy s =>
      simp only [Sample.ProcessPacket, Except.ok.injEq] at h
      subst h
      rfl
  · intro n
    cases x <;> cases n <;> rfl

/-- C6, as the claim states it, fails: `Init` of a ProxyRelay that is given no
target sets the deadline (5000 here) and listens, and `Update` with outcome
`PENDING` and a clock reading of 6000 leaves the outcome `PENDING`. -/
theorem listening_proxy_ignores_deadline :
    ∃ s w, (UDPProxyClientFramework.new someIndeterminate).Init listeningWorld = .ok (s, w) ∧
      s.sampleResult = .PENDING ∧ s.isListening = true ∧ s.timeout = 5000 ∧
      (GetTimeMS w).1 = 6000 ∧ (s.Update w).1.sampleResult = .PENDING :=
  ⟨_, _, rfl, by decide⟩

/-- C6, amended: `Update` with outcome `PENDING` and a clock reading beyond the
deadline sets `FAILED`, unless the technique listens (PunchThrough, ProxyRelay)
or has no deadline (PortMapping); in every other case `Update` leaves the
sample as it is. -/
theorem update_demotes_after_deadline (x : Sample) (w : World) :
    (∀ d, x.deadline = some d → x.sampleResult = .PENDING → (GetTimeMS w).1 > d →
      (x.Update w).1.sampleResult = .FAILED) ∧
    (x.sampleResult ≠ .PENDING ∨ x.deadline = none ∨
        (∃ d, x.deadline = some d ∧ (GetTimeMS w).1 ≤ d) →
      (x.Update w).1 = x) := by
  constructor
  · intro d hd hp hnow
    cases x with
    | upnp s => simp [Sample.deadline] at hd
    | natType s =>
      simp only [Sample.deadline, Option.some.injEq] at hd
      simp only [Sample.sampleResult] at hp
      subst hd
      simp [Sample.Update, Sample.sampleResult, NatTypeDetectionFramework.Update, hp, hnow]
    | punch s =>
      simp only [Sample.deadline] at hd
      simp only [Sample.sampleResult] at hp
      split at hd
      · rename_i hl
        simp only [Option.some.injEq] at hd
        subst hd
        simp [Sample.Update, Sample.sampleResult, NatPunchthoughClientFramework.Update, hp,
          hnow, hl]
      · cases hd
    | router2 s =>
      simp only [Sample.deadline, Option.some.injEq] at hd
      simp only [Sample.sampleResult] at hp
      subst hd
      simp [Sample.Update, Sample.sampleResult, Router2Framework.Update, hp, hnow]
    | proxy s =>
      simp only [Sample.deadline] at hd
      simp only [Sample.sampleResult] at hp
      split at hd
      · rename_i hl
        simp only [Option.some.injEq] at hd
        subst hd
        simp [Sample.Update, Sample.sampleResult, UDPProxyClientFramework.Update, hp,
          hnow, hl]
      · cases hd
  · intro h
    cases x with
    | upnp s => simp [Sample.Update, UPNPFramework.Update]
    | natType s =>
      simp only [Sample.Update, NatTypeDetectionFramework.Update, Sample.sampleResult,
        Sample.deadline] at h ⊢
      repeat' split
      all_goals simp_all
      all_goals omega
    | punch s =>
      simp only [Sample.Update, NatPunchthoughClientFramework.Update, Sample.sampleResult,
        Sample.deadline] at h ⊢
      repeat' split
      all_goals simp_all
      all_goals omega
    | router2 s =>
      simp only [Sample.Update, Router2Framework.Update, Sample.sampleResult,
        Sample.deadline] at h ⊢
      repeat' split
      all_goals simp_all
      all_goals omega
    | proxy s =>
      simp only [Sample.Update, UDPProxyClientFramework.Update, Sample.sampleResult,
        Sample.deadline] at h ⊢
      repeat' split
      all_goals simp_all
      all_goals omega


theorem getSystemList_trace (w : World) : (GetSystemList w).2.trace = w.trace := by
  unfold GetSystemList
  split <;> rfl

theorem select_trace (w : World) : (SelectAmongConnectedSystems w).2.trace = w.trace := by
  unfold SelectAmongConnectedSystems
  simp only []
  repeat' split
  all_goals simp [gets_trace, getSystemList_trace]

theorem connectBlocking_trace (w : World) (defaultAddress defaultPort : Option (List Char))
    (a : SystemAddress) (w1 : World)
    (h : ConnectBlocking w defaultAddress defaultPort = .ok (a, w1)) :
    ∃ requests, w1.trace = w.trace ++ requests ∧ ∀ e ∈ requests, e.isConnect = true := by
  unfold ConnectBlocking at h
  simp only [] at h
  split at h
  · cases h
    exact ⟨[], by simp [gets_trace], by simp⟩
  · split at h
    · cases h
      exact ⟨[], by simp [gets_trace], by simp⟩
    · have ht := attempt_trace _ _ _ _ _ h
      rw [gets_trace, gets_trace] at ht
      exact ⟨_, ht, by simp [Effect.isConnect]⟩

/-- C7: `Init` of a variant that requires a coordination endpoint, called with
outcome `PENDING` when `SelectAmongConnectedSystems` and then `ConnectBlocking`
return the unassigned address, returns with outcome `FAILED`; the plugin
pointer and the deadline are as before, and the only requests issued are the
connect requests of `ConnectBlocking`. -/
theorem init_without_endpoint_fails (x : Sample) (w w1 w2 : World)
    (hRequires : x.QueryRequiresServer = true) (hPending : x.sampleResult = .PENDING)
    (hSelect : SelectAmongConnectedSystems w = (UNASSIGNED_SYSTEM_ADDRESS, w1))
    (hConnect : ConnectBlocking w1 (some DEFAULT_SERVER_ADDRESS) (some DEFAULT_SERVER_PORT) =
      .ok (UNASSIGNED_SYSTEM_ADDRESS, w2)) :
    ∃ x', x.Init w = .ok (x', w2) ∧ x'.sampleResult = .FAILED ∧
      x'.plugin = x.plugin ∧ x'.timeout = x.timeout ∧ x'.isListening = x.isListening ∧
      ∃ requests, w2.trace = w.trace ++ requests ∧ ∀ e ∈ requests, e.isConnect = true := by
  have htrace : ∃ requests, w2.trace = w.trace ++ requests ∧
      ∀ e ∈ requests, e.isConnect = true := by
    have h1 : w1.trace = w.trace := by
      have := select_trace w
      rw [hSelect] at this
      exact this
    rw [← h1]
    exact connectBlocking_trace _ _ _ _ _ hConnect
  cases x with
  | upnp s => simp [Sample.QueryRequiresServer, UPNPFramework.QueryRequiresServer] at hRequires
  | router2 s =>
    simp [Sample.QueryRequiresServer, Router2Framework.QueryRequiresServer] at hRequires
  | natType s =>
    simp only [Sample.sampleResult] at hPending
    refine ⟨.natType { s with sampleResult := .FAILED }, ?_, rfl, rfl, rfl, rfl, htrace⟩
    simp [Sample.Init, NatTypeDetectionFramework.Init, hPending, hSelect, hConnect, Except.map]
  | punch s =>
    simp only [Sample.sampleResult] at hPending
    refine ⟨.punch { s with serverAddress := UNASSIGNED_SYSTEM_ADDRESS, sampleResult := .FAILED },
      ?_, rfl, rfl, rfl, rfl, htrace⟩
    simp [Sample.Init, NatPunchthoughClientFramework.Init, hPending, hSelect, hConnect,
      Except.map]
  | proxy s =>
    simp only [Sample.sampleResult] at hPending
    refine ⟨.proxy { s with sampleResult := .FAILED }, ?_, rfl, rfl, rfl, rfl, htrace⟩
    simp [Sample.Init, UDPProxyClientFramework.Init, hPending, hSelect, hConnect, Except.map]


/-! ### The packet loop leaves the bookkeeping of `main` alone -/

theorem quiet_refl (m : MainState) : Quiet m m :=
  ⟨rfl, rfl, rfl, Or.inl rfl, [], by simp, by simp⟩

theorem quiet_trans {a b c : MainState} (h1 : Quiet a b) (h2 : Quiet b c) : Quiet a c := by
  obtain ⟨e1, hl1, he1⟩ := h1.log
  obtain ⟨e2, hl2, he2⟩ := h2.log
  refine ⟨h2.stage.trans h1.stage, h2.size.trans h1.size, h2.keys.trans h1.keys, ?_,
    e1 ++ e2, by rw [hl2, hl1, List.append_assoc], ?_⟩
  · rcases h2.pc with h | h
    · rcases h1.pc with h' | h'
      · exact Or.inl (h.trans h')
      · exact Or.inr (h ▸ h')
    · exact Or.inr h
  · intro e he
    rcases List.mem_append.mp he with h | h
    · exact he1 e h
    · exact he2 e h

theorem quiet_foldl {α : Type} (f : MainState → α → MainState)
    (hf : ∀ m a, Quiet m (f m a)) (l : List α) (m : MainState) : Quiet m (l.foldl f m) := by
  induction l generalizing m with
  | nil => exact quiet_refl m
  | cons a l ih => exact quiet_trans (hf m a) (ih (f m a))

theorem gets_keys (w : World) : (Gets w).2.keys = w.keys := by
  unfold Gets
  split <;> rfl

theorem getTimeMS_keys (w : World) : (GetTimeMS w).2.keys = w.keys := by
  unfold GetTimeMS
  split <;> rfl

theorem connect_keys (w : World) (host : List Char) (remotePort : Nat) :
    (Connect w host remotePort).2.keys = w.keys := by
  unfold Connect
  split <;> rfl

theorem processPacket_keys (x : Sample) (packet : Packet) (w : World) (r : Sample × World)
    (h : x.ProcessPacket packet w = .ok r) : r.2.keys = w.keys := by
  cases x with
  | punch s =>
    simp only [Sample.ProcessPacket] at h
    cases hs : s.ProcessPacket packet w with
    | error f => simp [hs, Except.map] at h
    | ok q =>
      simp only [hs, Except.map, Except.ok.injEq] at h
      subst h
      unfold NatPunchthoughClientFramework.ProcessPacket at hs
      simp only [] at hs
      repeat' split at hs
      all_goals (cases hs <;> simp [gets_keys, getTimeMS_keys, World.emit])
  | upnp s => simp only [Sample.ProcessPacket, Except.ok.injEq] at h; subst h; rfl
  | natType s => simp only [Sample.ProcessPacket, Except.ok.injEq] at h; subst h; rfl
  | router2 s => simp only [Sample.ProcessPacket, Except.ok.injEq] at h; subst h; rfl
  | proxy s => simp only [Sample.ProcessPacket, Except.ok.injEq] at h; subst h; rfl

theorem onNotification_keys (x : Sample) (n : ProxyNotification) (w : World) :
    (x.onNotification n w).2.keys = w.keys := by
  cases x <;> cases n <;>
    simp [Sample.onNotification, UDPProxyClientFramework.onNotification, connect_keys]

theorem processPacketAt_quiet (packet : Packet) (m : MainState) (i : Nat) :
    Quiet m (processPacketAt packet m i) := by
  unfold processPacketAt
  split
  · exact quiet_refl m
  · split
    · exact ⟨rfl, rfl, rfl, Or.inr rfl, [], by simp, by simp⟩
    · rename_i x hx
      split
      · exact ⟨rfl, rfl, rfl, Or.inr rfl, [_], rfl, by simp [MainEvent.isPacketEvent]⟩
      · rename_i r hr
        exact ⟨rfl, by simp, processPacket_keys x packet m.world r hr, Or.inl rfl, [_], rfl,
          by simp [MainEvent.isPacketEvent]⟩

theorem processPacketAll_quiet (packet : Packet) (m : MainState) :
    Quiet m (processPacketAll packet m) :=
  quiet_foldl _ (processPacketAt_quiet packet) _ m

theorem notifyAt_quiet (n : ProxyNotification) (m : MainState) (i : Nat) :
    Quiet m (notifyAt n m i) := by
  unfold notifyAt
  split
  · exact quiet_refl m
  · split
    · exact ⟨rfl, by simp, onNotification_keys _ n m.world, Or.inl rfl, [], by simp, by simp⟩
    · exact quiet_refl m

theorem quiet_world (m : MainState) (w : World) (h : w.keys = m.world.keys) :
    Quiet m { m with world := w } :=
  ⟨rfl, rfl, h, Or.inl rfl, [], by simp, by simp⟩

theorem quiet_packetEvent (m : MainState) (e : MainEvent) (h : e.isPacketEvent = true) :
    Quiet m { m with log := m.log ++ [e] } :=
  ⟨rfl, rfl, rfl, Or.inl rfl, [e], rfl, by simpa using h⟩

theorem receiveCallbacks_quiet (m : MainState) : Quiet m (receiveCallbacks m) := by
  unfold receiveCallbacks
  split
  · exact quiet_refl m
  · rename_i ns rest _
    exact quiet_trans (quiet_world m { m.world with proxyCallbacks := rest } rfl)
      (quiet_foldl _ (fun m1 n => quiet_foldl _ (notifyAt_quiet n) _ m1) _ _)

theorem drainLoop_quiet (script : List (Option Packet)) (m : MainState) :
    Quiet m (drainLoop script m) := by
  induction script generalizing m with
  | nil => exact receiveCallbacks_quiet m
  | cons p rest ih =>
    have h0 : Quiet m { m with world := { m.world with receive := rest } } :=
      quiet_world m _ rfl
    cases p with
    | none => exact quiet_trans h0 (receiveCallbacks_quiet _)
    | some packet =>
      have h1 : Quiet m (processPacketAll packet
          (receiveCallbacks { m with world := { m.world with receive := rest } })) :=
        quiet_trans (quiet_trans h0 (receiveCallbacks_quiet _)) (processPacketAll_quiet packet _)
      simp only [drainLoop]
      split
      · exact h1
      · exact quiet_trans (quiet_trans h1 (quiet_packetEvent _ (.PrintPacketMessages packet) rfl))
          (ih _)

theorem drain_quiet (m : MainState) : Quiet m (drain m) := drainLoop_quiet _ m


/-! ### The bookkeeping of the orchestrator -/

theorem mainRun_succ (n : Nat) (m : MainState) :
    mainRun (n + 1) m = mainStep (mainRun n m) := by
  induction n generalizing m with
  | zero => rfl
  | succ k ih =>
    show mainRun (k + 1) (mainStep m) = _
    rw [ih]
    rfl

@[simp]
theorem initCalls_append (a b : List MainEvent) :
    initCalls (a ++ b) = initCalls a ++ initCalls b := by
  simp [initCalls]

@[simp]
theorem failures_append (a b : List MainEvent) :
    failures (a ++ b) = failures a + failures b := by
  simp [failures]

@[simp]
theorem passes_append (a b : List MainEvent) :
    passes (a ++ b) = passes a + passes b := by
  simp [passes]

@[simp]
theorem reports_append (a b : List MainEvent) :
    reportsNoConnectivity (a ++ b) ↔ reportsNoConnectivity a ∨ reportsNoConnectivity b := by
  simp [reportsNoConnectivity]

@[simp]
theorem initCalls_nil : initCalls [] = [] := rfl

@[simp]
theorem failures_nil : failures [] = 0 := rfl

@[simp]
theorem passes_nil : passes [] = 0 := rfl

@[simp]
theorem reports_nil : reportsNoConnectivity [] ↔ False := by
  simp [reportsNoConnectivity]

@[simp]
theorem initCalls_cons (e : MainEvent) (l : List MainEvent) :
    initCalls (e :: l) = e.initIndex.toList ++ initCalls l := by
  cases h : e.initIndex <;> simp [initCalls, List.filterMap_cons, h]

@[simp]
theorem failures_cons (e : MainEvent) (l : List MainEvent) :
    failures (e :: l) = (if e.isFailed = true then 1 else 0) + failures l := by
  simp only [failures, List.countP_cons]
  omega

@[simp]
theorem passes_cons (e : MainEvent) (l : List MainEvent) :
    passes (e :: l) = (if e.isPassed = true then 1 else 0) + passes l := by
  simp only [passes, List.countP_cons]
  omega

@[simp]
theorem reports_cons (e : MainEvent) (l : List MainEvent) :
    reportsNoConnectivity (e :: l) ↔
      e = .print .connectivityNotPossible ∨ reportsNoConnectivity l := by
  simp only [reportsNoConnectivity, List.mem_cons]
  constructor
  · rintro (h | h)
    · exact Or.inl h.symm
    · exact Or.inr h
  · rintro (h | h)
    · exact Or.inl h.symm
    · exact Or.inr h

theorem loopEvents_silent (ext : List MainEvent)
    (h : ∀ e ∈ ext, e.isPacketEvent = true ∨ e = .RakSleep 30) :
    initCalls ext = [] ∧ failures ext = 0 ∧ passes ext = 0 ∧ ¬ reportsNoConnectivity ext := by
  induction ext with
  | nil => simp
  | cons e es ih =>
    have he := h e (List.mem_cons_self _ _)
    obtain ⟨h1, h2, h3, h4⟩ := ih (fun x hx => h x (List.mem_cons_of_mem _ hx))
    rcases he with he | rfl
    · cases e <;> simp_all [MainEvent.isPacketEvent, MainEvent.initIndex,
        MainEvent.isFailed, MainEvent.isPassed]
    · simp_all [MainEvent.initIndex, MainEvent.isFailed, MainEvent.isPassed]

theorem packetEvents_silent (ext : List MainEvent) (h : ∀ e ∈ ext, e.isPacketEvent = true) :
    initCalls ext = [] ∧ failures ext = 0 ∧ passes ext = 0 ∧ ¬ reportsNoConnectivity ext :=
  loopEvents_silent ext (fun e he => Or.inl (h e he))

theorem quiet_stats {m m' : MainState} (q : Quiet m m') :
    initCalls m'.log = initCalls m.log ∧ failures m'.log = failures m.log ∧
    passes m'.log = passes m.log ∧
    reportsNoConnectivity m'.log = reportsNoConnectivity m.log := by
  obtain ⟨ext, hlog, hext⟩ := q.log
  obtain ⟨h1, h2, h3, h4⟩ := packetEvents_silent ext hext
  rw [hlog]
  refine ⟨by simp [h1], by simp [h2], by simp [h3], propext ?_⟩
  simp [h4]

theorem range_snoc (c n : Nat) : List.range' c (n + 1) = List.range' c n ++ [c + n] := by
  rw [List.range'_concat]
  simp

theorem isFault_eq (pc : PC) (h : pc.isFault = true) : ∃ f, pc = .fault f := by
  cases pc <;> simp [PC.isFault] at h
  exact ⟨_, rfl⟩

/-- The packet loop entered from a steady state with the control in `pc0`
(`update`, `waitQuit` or `waitDone`) leaves a steady state, with the control
moved on to `pc1` unless a call faulted. -/
theorem steady_drain (L c : Nat) (m0 : MainState) (h : Steady L c m0) (pc1 : PC)
    (hpc : m0.pc = .update ∧ (pc1 = .update ∨ pc1 = .check) ∨
      m0.pc = .waitQuit ∧ pc1 = .waitQuit ∨ m0.pc = .waitDone ∧ pc1 = .waitDone) :
    Steady L c (if (drain m0).pc.isFault = true then drain m0
      else { drain m0 with pc := pc1 }) ∧
    ∀ ext, (∀ e ∈ ext, e.isPacketEvent = true ∨ e = .RakSleep 30) →
      (drain m0).pc.isFault = false → pc1 = m0.pc →
      Steady L c { drain m0 with log := (drain m0).log ++ ext } := by
  have q := drain_quiet m0
  obtain ⟨s1, s2, s3, s4⟩ := quiet_stats q
  obtain ⟨hL, hI, hat⟩ := h
  have qs := q.stage
  have qz := q.size
  have qp := q.pc
  generalize drain m0 = m1 at *
  have key : ∀ ext, (∀ e ∈ ext, e.isPacketEvent = true ∨ e = .RakSleep 30) →
      Steady L c { m1 with log := m1.log ++ ext, pc := pc1 } := by
    intro ext hext
    have hsil := loopEvents_silent ext hext
    obtain ⟨e1, e2, e3, e4⟩ := hsil
    refine ⟨qz.trans hL, ?_, ?_⟩
    · simp only [initCalls_append, e1, List.append_nil, s1]
      exact hI
    · simp only [initCalls_append, failures_append, passes_append, reports_append, e1, e2, e3,
        e4, List.append_nil, Nat.add_zero, or_false, s1, s2, s3, s4, qs]
      rcases hpc with ⟨h0, rfl | rfl⟩ | ⟨h0, rfl⟩ | ⟨h0, rfl⟩ <;> rw [h0] at hat <;>
        simpa only [steadyAt] using hat
  constructor
  · split
    · rename_i hf
      obtain ⟨f, hf⟩ := isFault_eq _ hf
      refine ⟨qz.trans hL, by rw [s1]; exact hI, ?_⟩
      rw [s1, s2, s3, s4, qs, hf]
      rcases hpc with ⟨h0, _⟩ | ⟨h0, _⟩ | ⟨h0, _⟩ <;> rw [h0] at hat <;>
        simp only [steadyAt] at hat ⊢
      · obtain ⟨a1, a2, a3, a4⟩ := hat
        exact ⟨a1, a4, Or.inl ⟨a2, Or.inr a3⟩⟩
      · obtain ⟨a1, a2, a3, a4, a5⟩ := hat
        exact ⟨a1, a5, Or.inr ⟨a2, a3, a4⟩⟩
      · obtain ⟨a1, a2, a3, a4, a5⟩ := hat
        exact ⟨a1, a5, Or.inr ⟨a2, a3, a4⟩⟩
    · have := key [] (by simp)
      simpa using this
  · intro ext hext hf h1
    have hpc1 : m1.pc = pc1 := by
      rcases qp with h | h
      · rw [h, h1]
      · rw [hf] at h
        cases h
    have := key ext hext
    rw [← hpc1] at this
    exact this

theorem steady_step (L c : Nat) (m : MainState) (h : Steady L c m) :
    Steady L c (mainStep m) := by
  have h0 := h
  obtain ⟨hL, hI, hpc⟩ := h
  cases hp : m.pc with
  | skip => simp [hp, steadyAt] at hpc
  | exited code =>
    have : mainStep m = m := by simp [mainStep, hp]
    rw [this]
    exact h0
  | fault f =>
    have : mainStep m = m := by simp [mainStep, hp]
    rw [this]
    exact h0
  | init =>
    simp only [hp, steadyAt] at hpc
    obtain ⟨h1, h2, h3, h4⟩ := hpc
    have hlt : m.currentStage < m.samples.length := by omega
    obtain ⟨x, hx⟩ : ∃ x, m.samples[m.currentStage]? = some x :=
      ⟨_, List.getElem?_eq_getElem hlt⟩
    have hcur : m.currentStage = c + (initCalls m.log).length := by omega
    simp only [mainStep, hp, hx]
    split
    · refine ⟨hL, ?_, ?_⟩
      · simp only [initCalls_append, initCalls_cons, initCalls_nil, MainEvent.initIndex,
          Option.toList, List.length_append, List.length_cons, List.length_nil,
          List.nil_append, List.append_nil, Nat.zero_add, range_snoc]
        rw [← hI, hcur]
      · simp [steadyAt, MainEvent.initIndex, MainEvent.isFailed, MainEvent.isPassed]
        exact ⟨h1, h4, Or.inl ⟨h2, Or.inr h3⟩⟩
    · refine ⟨by simpa using hL, ?_, ?_⟩
      · simp only [initCalls_append, initCalls_cons, initCalls_nil, MainEvent.initIndex,
          Option.toList, List.length_append, List.length_cons, List.length_nil,
          List.nil_append, List.append_nil, Nat.zero_add, range_snoc]
        rw [← hI, hcur]
      · simp [steadyAt, MainEvent.initIndex, MainEvent.isFailed, MainEvent.isPassed]
        exact ⟨h1, h2, h3, h4⟩
  | update =>
    have hat := hpc
    simp only [hp, steadyAt] at hat
    obtain ⟨h1, h2, h3, h4⟩ := hat
    have hlt : m.currentStage < m.samples.length := by omega
    obtain ⟨x, hx⟩ : ∃ x, m.samples[m.currentStage]? = some x :=
      ⟨_, List.getElem?_eq_getElem hlt⟩
    simp only [mainStep, hp, hx]
    refine (steady_drain L c _ ?_ .check (Or.inl ⟨rfl, Or.inr rfl⟩)).1
    refine ⟨by simpa using hL, ?_, ?_⟩
    · simpa [MainEvent.initIndex] using hI
    · simp [steadyAt, MainEvent.initIndex, MainEvent.isFailed, MainEvent.isPassed]
      exact ⟨h1, h2, h3, h4⟩
  | check =>
    have hat := hpc
    simp only [hp, steadyAt] at hat
    obtain ⟨h1, h2, h3, h4⟩ := hat
    have hlt : m.currentStage < m.samples.length := by omega
    obtain ⟨x, hx⟩ : ∃ x, m.samples[m.currentStage]? = some x :=
      ⟨_, List.getElem?_eq_getElem hlt⟩
    simp only [mainStep, hp, hx]
    have hI' : ∀ ext, initCalls ext = [] →
        initCalls (m.log ++ ext) = List.range' c (initCalls (m.log ++ ext)).length := by
      intro ext he
      rw [initCalls_append, he, List.append_nil]
      exact hI
    split_ifs with c1 c2 c3 c4 c5
    · refine ⟨hL, hI' _ (by simp [MainEvent.initIndex]), ?_⟩
      simp [steadyAt, MainEvent.initIndex, MainEvent.isFailed, MainEvent.isPassed]
      omega
    · refine ⟨hL, hI' _ (by simp [MainEvent.initIndex]), ?_⟩
      simp [steadyAt, MainEvent.initIndex, MainEvent.isFailed, MainEvent.isPassed]
      exact ⟨by omega, by omega, by omega, h4⟩
    · refine ⟨hL, hI' _ (by simp [MainEvent.initIndex]), ?_⟩
      simp [steadyAt, MainEvent.initIndex, MainEvent.isFailed, MainEvent.isPassed]
      exact ⟨h1, by omega, by omega, h4⟩
    · refine ⟨hL, hI' _ (by simp [MainEvent.initIndex]), ?_⟩
      simp [steadyAt, MainEvent.initIndex, MainEvent.isFailed, MainEvent.isPassed]
      exact ⟨by omega, by omega, by omega, h4⟩
    · refine ⟨hL, hI' _ (by simp [MainEvent.initIndex]), ?_⟩
      simp [steadyAt, MainEvent.initIndex, MainEvent.isFailed, MainEvent.isPassed]
      exact ⟨h1, by omega, by omega, h4⟩
    · refine ⟨hL, hI' _ (by simp [MainEvent.initIndex]), ?_⟩
      simp [steadyAt, MainEvent.initIndex, MainEvent.isFailed, MainEvent.isPassed]
      exact ⟨h1, h2, h3, h4⟩
  | waitQuit =>
    have hat := hpc
    simp only [hp, steadyAt] at hat
    obtain ⟨h1, h2, h3, h4, h5⟩ := hat
    simp only [mainStep, hp]
    split
    · refine ⟨hL, ?_, ?_⟩
      · simpa [MainEvent.initIndex] using hI
      · simp [steadyAt, MainEvent.initIndex, MainEvent.isFailed, MainEvent.isPassed]
        exact ⟨h3, Or.inr ⟨h5, h1, h2, h4⟩⟩
    · have hd := steady_drain L c { m with world := (kbhit m.world).2, pc := .waitQuit }
        ⟨hL, hI, by simpa [steadyAt] using ⟨h1, h2, h3, h4, h5⟩⟩ .waitQuit
        (Or.inr (Or.inl ⟨rfl, rfl⟩))
      split
      · rename_i hf
        have := hd.1
        rwa [if_pos hf] at this
      · rename_i hf
        exact hd.2 [.RakSleep 30] (by simp) (by simpa using hf) rfl
  | waitDone =>
    have hat := hpc
    simp only [hp, steadyAt] at hat
    obtain ⟨h1, h2, h3, h4, h5⟩ := hat
    simp only [mainStep, hp]
    split
    · refine ⟨hL, ?_, ?_⟩
      · simpa [MainEvent.initIndex] using hI
      · simp [steadyAt, MainEvent.initIndex, MainEvent.isFailed, MainEvent.isPassed]
        exact ⟨h3, Or.inr ⟨h5, h1, h2, h4⟩⟩
    · have hd := steady_drain L c { m with world := (kbhit m.world).2, pc := .waitDone }
        ⟨hL, hI, by simpa [steadyAt] using ⟨h1, h2, h3, h4, h5⟩⟩ .waitDone
        (Or.inr (Or.inr ⟨rfl, rfl⟩))
      split
      · rename_i hf
        have := hd.1
        rwa [if_pos hf] at this
      · rename_i hf
        exact hd.2 [.RakSleep 30] (by simp) (by simpa using hf) rfl

theorem steady_run (L c : Nat) (m : MainState) (h : Steady L c m) (n : Nat) :
    Steady L c (mainRun n m) := by
  induction n with
  | zero => exact h
  | succ k ih =>
    rw [mainRun_succ]
    exact steady_step L c _ ih

theorem steady_orchestrate (samples : List Sample) (c : Nat) (w : World)
    (hc : c < samples.length) : Steady samples.length c (orchestrate true samples c w) := by
  refine ⟨rfl, by simp [orchestrate], ?_⟩
  simp [orchestrate, steadyAt, hc]


/-! ### The claims about the orchestrator -/

/-- The report `Failed` is printed by the step that finds the active technique
`FAILED` at the test of the outcome, and `Passed` by the step that finds it
`SUCCEEDED`, and by no other step. -/
theorem reports_step (m : MainState) :
    failures (mainStep m).log =
      failures m.log + (if observedOutcome m = some .FAILED then 1 else 0) ∧
    passes (mainStep m).log =
      passes m.log + (if observedOutcome m = some .SUCCEEDED then 1 else 0) := by
  have hwait : ∀ m0 : MainState,
      failures (if (drain m0).pc.isFault = true then drain m0
        else { drain m0 with log := (drain m0).log ++ [.RakSleep 30] }).log =
          failures m0.log ∧
      passes (if (drain m0).pc.isFault = true then drain m0
        else { drain m0 with log := (drain m0).log ++ [.RakSleep 30] }).log =
          passes m0.log := by
    intro m0
    obtain ⟨_, h2, h3, _⟩ := quiet_stats (drain_quiet m0)
    split <;> simp [h2, h3, MainEvent.isFailed, MainEvent.isPassed]
  cases hp : m.pc with
  | skip =>
    have hobs : observedOutcome m = none := by simp [observedOutcome, hp]
    rw [hobs]
    simp only [mainStep, hp, reduceCtorEq, if_false, Nat.add_zero]
    repeat' split
    all_goals simp [MainEvent.isFailed, MainEvent.isPassed]
  | init =>
    have hobs : observedOutcome m = none := by simp [observedOutcome, hp]
    rw [hobs]
    simp only [mainStep, hp, reduceCtorEq, if_false, Nat.add_zero]
    repeat' split
    all_goals simp [MainEvent.isFailed, MainEvent.isPassed]
  | update =>
    have hobs : observedOutcome m = none := by simp [observedOutcome, hp]
    rw [hobs]
    simp only [mainStep, hp, reduceCtorEq, if_false, Nat.add_zero]
    split
    · simp
    · rename_i x hx
      obtain ⟨_, h2, h3, _⟩ := quiet_stats (drain_quiet
        { m with samples := m.samples.set m.currentStage (x.Update m.world).1,
                 world := (x.Update m.world).2,
                 log := m.log ++ [.Update m.currentStage], pc := .update })
      split <;> simp [h2, h3, MainEvent.isFailed, MainEvent.isPassed]
  | check =>
    have hobs : observedOutcome m = (m.samples[m.currentStage]?).map Sample.sampleResult := by
      simp [observedOutcome, hp]
    rw [hobs]
    simp only [mainStep, hp]
    cases hx : m.samples[m.currentStage]? with
    | none => simp
    | some x =>
      cases hr : x.sampleResult with
      | PENDING => simp [hr, MainEvent.isFailed, MainEvent.isPassed]
      | FAILED =>
        by_cases hend : m.currentStage + 1 = m.samples.length <;>
          simp [hr, hend, MainEvent.isFailed, MainEvent.isPassed]
      | SUCCEEDED =>
        by_cases hq : x.QueryQuitOnSuccess = true
        · simp [hr, hq, MainEvent.isFailed, MainEvent.isPassed]
        · by_cases hlt : m.currentStage + 1 < m.samples.length <;>
            simp [hr, hq, hlt, MainEvent.isFailed, MainEvent.isPassed]
  | waitQuit =>
    have hobs : observedOutcome m = none := by simp [observedOutcome, hp]
    rw [hobs]
    simp only [mainStep, hp, reduceCtorEq, if_false, Nat.add_zero]
    split
    · simp [MainEvent.isFailed, MainEvent.isPassed]
    · simpa using hwait { m with world := (kbhit m.world).2, pc := .waitQuit }
  | waitDone =>
    have hobs : observedOutcome m = none := by simp [observedOutcome, hp]
    rw [hobs]
    simp only [mainStep, hp, reduceCtorEq, if_false, Nat.add_zero]
    split
    · simp [MainEvent.isFailed, MainEvent.isPassed]
    · simpa using hwait { m with world := (kbhit m.world).2, pc := .waitDone }
  | exited code => simp [mainStep, observedOutcome, hp]
  | fault f => simp [mainStep, observedOutcome, hp]

theorem failures_run (n : Nat) : ∀ m : MainState,
    failures (mainRun n m).log = failures m.log + failuresFound n m := by
  induction n with
  | zero =>
    intro m
    rfl
  | succ k ih =>
    intro m
    have hrun : mainRun (k + 1) m = mainRun k (mainStep m) := rfl
    rw [hrun, ih (mainStep m), (reports_step m).1]
    simp only [failuresFound]
    omega

theorem failuresFound_succ (n : Nat) : ∀ m : MainState,
    failuresFound (n + 1) m =
      failuresFound n m + (if observedOutcome (mainRun n m) = some .FAILED then 1 else 0) := by
  induction n with
  | zero =>
    intro m
    simp [failuresFound, mainRun]
  | succ k ih =>
    intro m
    have hrun : mainRun (k + 1) m = mainRun k (mainStep m) := rfl
    rw [hrun]
    have h1 : failuresFound (k + 1 + 1) m =
        (if observedOutcome m = some .FAILED then 1 else 0) +
          failuresFound (k + 1) (mainStep m) := rfl
    have h2 : failuresFound (k + 1) m =
        (if observedOutcome m = some .FAILED then 1 else 0) +
          failuresFound k (mainStep m) := rfl
    rw [h1, h2, ih (mainStep m)]
    omega

theorem passes_run (n : Nat) (m : MainState)
    (h : ∀ k < n, observedOutcome (mainRun k m) ≠ some .SUCCEEDED) :
    passes (mainRun n m).log = passes m.log := by
  induction n with
  | zero => rfl
  | succ k ih =>
    rw [mainRun_succ, (reports_step (mainRun k m)).2, ih (fun j hj => h j (by omega)),
      if_neg (h k (by omega))]
    rfl

/-- The bookkeeping of a run in which no technique was reported passed: `Init`
was called for the stages `c`, `c+1`, ... in this order, the cursor is `c` plus
the number of techniques reported failed, and `main` has returned exactly when
the cursor equals the length of the list, with 1 and after reporting that
connectivity is not possible. -/
theorem cursor_bookkeeping (samples : List Sample) (c : Nat) (w : World) (n : Nat)
    (hc : c < samples.length)
    (hP : passes (mainRun n (orchestrate true samples c w)).log = 0) :
    initCalls (mainRun n (orchestrate true samples c w)).log =
      List.range' c (initCalls (mainRun n (orchestrate true samples c w)).log).length ∧
    (mainRun n (orchestrate true samples c w)).currentStage =
      c + failures (mainRun n (orchestrate true samples c w)).log ∧
    failures (mainRun n (orchestrate true samples c w)).log ≤
      (initCalls (mainRun n (orchestrate true samples c w)).log).length ∧
    (initCalls (mainRun n (orchestrate true samples c w)).log).length ≤
      failures (mainRun n (orchestrate true samples c w)).log + 1 ∧
    ((∃ code, (mainRun n (orchestrate true samples c w)).pc = .exited code) ↔
      (mainRun n (orchestrate true samples c w)).currentStage = samples.length) ∧
    (∀ code, (mainRun n (orchestrate true samples c w)).pc = .exited code →
      code = 1 ∧ reportsNoConnectivity (mainRun n (orchestrate true samples c w)).log) := by
  have hst := steady_run samples.length c _ (steady_orchestrate samples c w hc) n
  generalize mainRun n (orchestrate true samples c w) = m at *
  obtain ⟨hL, hI, hat⟩ := hst
  rw [hP] at hat
  refine ⟨hI, ?_⟩
  cases hp : m.pc with
  | skip =>
    rw [hp] at hat
    exact hat.elim
  | init =>
    rw [hp] at hat
    obtain ⟨a1, a2, a3, a4⟩ := hat
    exact ⟨by omega, by omega, by omega, ⟨fun ⟨_, h⟩ => (by cases h), fun h => (by omega)⟩,
      fun _ h => by cases h⟩
  | update =>
    rw [hp] at hat
    obtain ⟨a1, a2, a3, a4⟩ := hat
    exact ⟨by omega, by omega, by omega, ⟨fun ⟨_, h⟩ => (by cases h), fun h => (by omega)⟩,
      fun _ h => by cases h⟩
  | check =>
    rw [hp] at hat
    obtain ⟨a1, a2, a3, a4⟩ := hat
    exact ⟨by omega, by omega, by omega, ⟨fun ⟨_, h⟩ => (by cases h), fun h => (by omega)⟩,
      fun _ h => by cases h⟩
  | waitQuit =>
    rw [hp] at hat
    obtain ⟨a1, a2, a3, a4, a5⟩ := hat
    omega
  | waitDone =>
    rw [hp] at hat
    obtain ⟨a1, a2, a3, a4, a5⟩ := hat
    omega
  | exited code =>
    rw [hp] at hat
    obtain ⟨a1, a2, a3⟩ := hat
    rcases a3 with ⟨b1, b2, b3⟩ | ⟨b1, b2, b3, b4⟩
    · refine ⟨by omega, by omega, by omega, ⟨fun _ => b2, fun _ => ⟨_, rfl⟩⟩, ?_⟩
      intro code' h
      cases h
      exact ⟨a1, b1⟩
    · omega
  | fault f =>
    rw [hp] at hat
    obtain ⟨a1, a2, a3⟩ := hat
    rcases a3 with ⟨b1, b2⟩ | ⟨b1, b2, b3⟩
    · exact ⟨by omega, by omega, by omega, ⟨fun ⟨_, h⟩ => (by cases h), fun h => (by omega)⟩,
        fun _ h => by cases h⟩
    · omega


/-- C1: in a run over any list of samples, from any first stage `c`, in which
the test of the outcome (line 888) has found no technique `SUCCEEDED` so far, so
that every technique that reached a terminal outcome as the active one was found
`FAILED`: `Init` was called for the stages `c`, `c+1`, ... in this order; a step
moves the cursor exactly when it finds the active technique `FAILED`, and then
by one, so the cursor is `c` plus the number of failures found, each of them
reported; each `Init` but the first came after a failure; and `main` has
returned exactly when the cursor equals the length of the list, in which case it
returned 1 after reporting that connectivity is not possible. The step that
finds the active technique `FAILED` (lines 892-912) adds one to the cursor and
then returns 1 when the cursor has reached the length of the list, and goes on
to the next `Init` otherwise. -/
theorem failures_advance_cursor (samples : List Sample) (c : Nat) (w : World) (n : Nat)
    (hc : c < samples.length)
    (hFailed : ∀ k < n,
      observedOutcome (mainRun k (orchestrate true samples c w)) ≠ some .SUCCEEDED) :
    initCalls (mainRun n (orchestrate true samples c w)).log =
      List.range' c (initCalls (mainRun n (orchestrate true samples c w)).log).length ∧
    (∀ k < n, (mainRun (k + 1) (orchestrate true samples c w)).currentStage =
      (mainRun k (orchestrate true samples c w)).currentStage +
        (if observedOutcome (mainRun k (orchestrate true samples c w)) = some .FAILED
          then 1 else 0)) ∧
    (mainRun n (orchestrate true samples c w)).currentStage =
      c + failuresFound n (orchestrate true samples c w) ∧
    failures (mainRun n (orchestrate true samples c w)).log =
      failuresFound n (orchestrate true samples c w) ∧
    failuresFound n (orchestrate true samples c w) ≤
      (initCalls (mainRun n (orchestrate true samples c w)).log).length ∧
    (initCalls (mainRun n (orchestrate true samples c w)).log).length ≤
      failuresFound n (orchestrate true samples c w) + 1 ∧
    ((∃ code, (mainRun n (orchestrate true samples c w)).pc = .exited code) ↔
      (mainRun n (orchestrate true samples c w)).currentStage = samples.length) ∧
    (∀ code, (mainRun n (orchestrate true samples c w)).pc = .exited code →
      code = 1 ∧ reportsNoConnectivity (mainRun n (orchestrate true samples c w)).log) ∧
    (∀ (m : MainState) (x : Sample), m.pc = .check →
      m.samples[m.currentStage]? = some x → x.sampleResult = .FAILED →
      (mainStep m).currentStage = m.currentStage + 1 ∧
      (m.currentStage + 1 = m.samples.length →
        (mainStep m).pc = .exited 1 ∧ reportsNoConnectivity (mainStep m).log) ∧
      (m.currentStage + 1 ≠ m.samples.length → (mainStep m).pc = .init)) := by
  have hcur : ∀ j ≤ n, (mainRun j (orchestrate true samples c w)).currentStage =
      c + failuresFound j (orchestrate true samples c w) := by
    intro j hj
    have hP := passes_run j (orchestrate true samples c w) (fun k hk => hFailed k (by omega))
    have hF := failures_run j (orchestrate true samples c w)
    have hb := (cursor_bookkeeping samples c w j hc (by rw [hP]; rfl)).2.1
    rw [hb, hF]
    simp [orchestrate]
  have hP := passes_run n (orchestrate true samples c w) hFailed
  have hF : failures (mainRun n (orchestrate true samples c w)).log =
      failuresFound n (orchestrate true samples c w) := by
    rw [failures_run n (orchestrate true samples c w)]
    simp [orchestrate]
  obtain ⟨b1, _, b3, b4, b5, b6⟩ := cursor_bookkeeping samples c w n hc (by rw [hP]; rfl)
  refine ⟨b1, ?_, hcur n (Nat.le_refl n), hF, by rw [← hF]; exact b3,
    by rw [← hF]; exact b4, b5, b6, ?_⟩
  · intro k hk
    rw [hcur (k + 1) (by omega), hcur k (by omega), failuresFound_succ]
    omega
  · intro m x hpc hx hr
    by_cases hend : m.currentStage + 1 = m.samples.length <;>
      simp [mainStep, hpc, hx, hr, hend, reportsNoConnectivity]

theorem mainStep_exited (m : MainState) (code : Int) (h : m.pc = .exited code) :
    mainStep m = m := by
  simp [mainStep, h]

theorem mainStep_fault (m : MainState) (h : m.pc.isFault = true) : mainStep m = m := by
  obtain ⟨f, hf⟩ := isFault_eq _ h
  simp [mainStep, hf]

theorem mainRun_fixed (m : MainState) (h : mainStep m = m) (n : Nat) : mainRun n m = m := by
  induction n with
  | zero => rfl
  | succ k ih => rw [mainRun_succ, ih, h]

theorem mainStep_log (m : MainState) : ∃ ext, (mainStep m).log = m.log ++ ext := by
  have hdrain : ∀ m0 : MainState, ∃ ext,
      (if (drain m0).pc.isFault = true then drain m0
        else { drain m0 with log := (drain m0).log ++ [.RakSleep 30] }).log = m0.log ++ ext := by
    intro m0
    obtain ⟨ext, hlog, _⟩ := (drain_quiet m0).log
    split
    · exact ⟨ext, hlog⟩
    · exact ⟨ext ++ [.RakSleep 30], by simp [hlog]⟩
  cases hp : m.pc with
  | skip =>
    simp only [mainStep, hp]
    repeat' split
    all_goals first | exact ⟨_, rfl⟩ | exact ⟨[], (List.append_nil _).symm⟩
  | init =>
    simp only [mainStep, hp]
    repeat' split
    all_goals first | exact ⟨_, rfl⟩ | exact ⟨[], (List.append_nil _).symm⟩
  | update =>
    simp only [mainStep, hp]
    split
    · exact ⟨[], (List.append_nil _).symm⟩
    · rename_i x hx
      obtain ⟨ext, hlog, _⟩ := (drain_quiet
        { m with samples := m.samples.set m.currentStage (x.Update m.world).1,
                 world := (x.Update m.world).2,
                 log := m.log ++ [.Update m.currentStage], pc := .update }).log
      split
      · exact ⟨[.Update m.currentStage] ++ ext, by rw [hlog]; simp⟩
      · exact ⟨[.Update m.currentStage] ++ ext, by simp [hlog]⟩
  | check =>
    simp only [mainStep, hp]
    repeat' split
    all_goals first | exact ⟨_, rfl⟩ | exact ⟨[], (List.append_nil _).symm⟩
  | waitQuit =>
    simp only [mainStep, hp]
    split
    · exact ⟨_, rfl⟩
    · exact hdrain { m with world := (kbhit m.world).2, pc := .waitQuit }
  | waitDone =>
    simp only [mainStep, hp]
    split
    · exact ⟨_, rfl⟩
    · exact hdrain { m with world := (kbhit m.world).2, pc := .waitDone }
  | exited code =>
    rw [mainStep_exited m code hp]
    exact ⟨[], (List.append_nil _).symm⟩
  | fault f =>
    rw [mainStep_fault m (by simp [hp, PC.isFault])]
    exact ⟨[], (List.append_nil _).symm⟩

theorem mainRun_log (n : Nat) (m : MainState) : ∃ ext, (mainRun n m).log = m.log ++ ext := by
  induction n with
  | zero => exact ⟨[], (List.append_nil _).symm⟩
  | succ k ih =>
    obtain ⟨e1, h1⟩ := ih
    obtain ⟨e2, h2⟩ := mainStep_log (mainRun k m)
    exact ⟨e1 ++ e2, by rw [mainRun_succ, h2, h1, List.append_assoc]⟩

/-- C3, as the claim states it, fails: the first `Init` call of a run of `main`
is for the sample at index 4, which is ProxyRelay, while PortMapping is the
sample at index 0. -/
theorem main_first_init_is_proxy_relay :
    (initCalls (mainRun 1 (mainStart someIndeterminate quietWorld)).log).head? = some 4 ∧
    (mainSamples someIndeterminate)[4]?.map Sample.QueryName =
      some .UDPProxyClientFramework ∧
    (mainSamples someIndeterminate)[0]?.map Sample.QueryName = some .UPNPFramework := by
  decide

theorem main_inits (i : Indeterminate) (w : World) (n : Nat) :
    initCalls (mainRun n (mainStart i w)).log = [] ∨
      initCalls (mainRun n (mainStart i w)).log = [4] := by
  by_cases hs : w.startupOk = true
  · have e : mainStart i w = orchestrate true (mainSamples i) 4 w := by
      simp [mainStart, hs, hasServer, responseLetter, firstStage, FeatureList.toNat]
    rw [e]
    have hst := steady_run (mainSamples i).length 4 _
      (steady_orchestrate (mainSamples i) 4 w (by simp [mainSamples])) n
    generalize mainRun n (orchestrate true (mainSamples i) 4 w) = m at *
    obtain ⟨hL, hI, hat⟩ := hst
    have h5 : (mainSamples i).length = 5 := rfl
    rw [h5] at hat
    have hk : (initCalls m.log).length = 0 ∨ (initCalls m.log).length = 1 := by
      cases hp : m.pc <;> rw [hp] at hat <;> simp only [steadyAt] at hat <;> omega
    rcases hk with hk | hk
    · left
      rw [hI, hk]
      rfl
    · right
      rw [hI, hk]
      rfl
  · left
    have hfix : mainStep (mainStart i w) = mainStart i w := by
      simp [mainStart, hs, mainStep]
    rw [mainRun_fixed _ hfix]
    simp [mainStart, hs, MainEvent.initIndex]

/-- C3, amended: `main` holds the five techniques in the order PortMapping,
NatClassification, PunchThrough, PeerRelay, ProxyRelay, and starts its run at
ProxyRelay: at every point of every run the `Init` calls made so far are none,
or the one call for ProxyRelay (index 4); no technique before ProxyRelay is
ever initialised, and once the transport has started the call for ProxyRelay
is made in the first step. -/
theorem main_runs_proxy_relay_only (i : Indeterminate) (w : World) (n : Nat) :
    (mainSamples i).map Sample.QueryName =
      [.UPNPFramework, .NatTypeDetectionFramework, .NatPunchthoughClientFramework,
        .Router2Framework, .UDPProxyClientFramework] ∧
    firstStage.toNat = 4 ∧
    (initCalls (mainRun n (mainStart i w)).log = [] ∨
      initCalls (mainRun n (mainStart i w)).log = [4]) ∧
    (w.startupOk = true → initCalls (mainRun (n + 1) (mainStart i w)).log = [4]) := by
  have hsome : ∀ k, initCalls (mainRun k (mainStart i w)).log = [] ∨
      initCalls (mainRun k (mainStart i w)).log = [4] := by
    intro n
    exact main_inits i w n
  refine ⟨rfl, rfl, hsome n, ?_⟩
  intro hs
  rcases hsome (n + 1) with h | h
  · exfalso
    have e : mainStart i w = orchestrate true (mainSamples i) 4 w := by
      simp [mainStart, hs, hasServer, responseLetter, firstStage, FeatureList.toNat]
    have hrun : mainRun (n + 1) (mainStart i w) = mainRun n (mainStep (mainStart i w)) := rfl
    obtain ⟨ext, hext⟩ := mainRun_log n (mainStep (mainStart i w))
    rw [hrun, hext, initCalls_append] at h
    have h1 : initCalls (mainStep (mainStart i w)).log = [4] := by
      rw [e]
      simp only [mainStep, orchestrate, mainSamples]
      simp only [if_neg (show ¬ (true = false) by decide)]
      have hx : [Sample.upnp UPNPFramework.new, Sample.natType (.new i), Sample.punch (.new i),
          Sample.router2 (.new i), Sample.proxy (.new i)][4]? = some (Sample.proxy (.new i)) :=
        rfl
      simp only [hx]
      split <;> simp [MainEvent.initIndex]
    rw [h1] at h
    simp at h
  · exact h

theorem epilogue_silent (ext : List MainEvent) (h : ∀ e ∈ ext, e.isEpilogue = true) :
    initCalls ext = [] ∧ failures ext = 0 ∧ ¬ reportsNoConnectivity ext := by
  induction ext with
  | nil => simp
  | cons e es ih =>
    have he := h e (List.mem_cons_self _ _)
    obtain ⟨h1, h2, h3⟩ := ih (fun x hx => h x (List.mem_cons_of_mem _ hx))
    cases e with
    | print s =>
      cases s <;> simp_all [MainEvent.isEpilogue, MainEvent.initIndex, MainEvent.isFailed]
    | _ => simp_all [MainEvent.isEpilogue, MainEvent.initIndex, MainEvent.isFailed]

theorem packetEvent_isEpilogue (e : MainEvent) (h : e.isPacketEvent = true) :
    e.isEpilogue = true := by
  cases e <;> simp_all [MainEvent.isPacketEvent, MainEvent.isEpilogue]

theorem epilogue_trans {a b c : MainState} (h1 : Epilogue a b) (h2 : Epilogue b c) :
    Epilogue a c := by
  obtain ⟨e1, hl1, he1⟩ := h1.log
  obtain ⟨e2, hl2, he2⟩ := h2.log
  refine ⟨h2.stage.trans h1.stage, h2.over, e1 ++ e2, by rw [hl2, hl1, List.append_assoc], ?_⟩
  intro e he
  rcases List.mem_append.mp he with h | h
  · exact he1 e h
  · exact he2 e h

theorem isOver_of_fault (pc : PC) (h : pc.isFault = true) : pc.isOver = true := by
  cases pc <;> simp_all [PC.isFault, PC.isOver]

theorem epilogue_drain (m0 : MainState) (h0 : m0.pc = .waitQuit ∨ m0.pc = .waitDone) :
    Epilogue m0 (if (drain m0).pc.isFault = true then drain m0
      else { drain m0 with log := (drain m0).log ++ [.RakSleep 30] }) ∧
    ((drain m0).pc.isFault = false → (drain m0).pc = m0.pc) ∧
    (drain m0).world.keys = m0.world.keys := by
  have q := drain_quiet m0
  obtain ⟨ext, hlog, hext⟩ := q.log
  have hpc : (drain m0).pc.isFault = false → (drain m0).pc = m0.pc := by
    intro hf
    rcases q.pc with h | h
    · exact h
    · rw [hf] at h
      cases h
  refine ⟨?_, hpc, q.keys⟩
  split
  · rename_i hf
    exact ⟨q.stage, isOver_of_fault _ hf, ext, hlog,
      fun e he => packetEvent_isEpilogue e (hext e he)⟩
  · rename_i hf
    refine ⟨q.stage, ?_, ext ++ [.RakSleep 30], by simp [hlog], ?_⟩
    · have := hpc (by simpa using hf)
      show (drain m0).pc.isOver = true
      rw [this]
      rcases h0 with h | h <;> rw [h] <;> rfl
    · intro e he
      rcases List.mem_append.mp he with h | h
      · exact packetEvent_isEpilogue e (hext e h)
      · simp only [List.mem_singleton] at h
        subst h
        rfl

theorem epilogue_step (m : MainState) (h : m.pc.isOver = true) : Epilogue m (mainStep m) := by
  cases hp : m.pc with
  | skip => simp [hp, PC.isOver] at h
  | init => simp [hp, PC.isOver] at h
  | update => simp [hp, PC.isOver] at h
  | check => simp [hp, PC.isOver] at h
  | exited code =>
    rw [mainStep_exited m code hp]
    exact ⟨rfl, h, [], by simp, by simp⟩
  | fault f =>
    rw [mainStep_fault m (by simp [hp, PC.isFault])]
    exact ⟨rfl, h, [], by simp, by simp⟩
  | waitQuit =>
    simp only [mainStep, hp]
    split
    · exact ⟨rfl, rfl, _, rfl, by simp [MainEvent.isEpilogue]⟩
    · have hd := (epilogue_drain { m with world := (kbhit m.world).2, pc := .waitQuit }
        (Or.inl rfl)).1
      exact ⟨hd.stage, hd.over, hd.log⟩
  | waitDone =>
    simp only [mainStep, hp]
    split
    · exact ⟨rfl, rfl, _, rfl, by simp [MainEvent.isEpilogue]⟩
    · have hd := (epilogue_drain { m with world := (kbhit m.world).2, pc := .waitDone }
        (Or.inr rfl)).1
      exact ⟨hd.stage, hd.over, hd.log⟩

theorem epilogue_run (m : MainState) (h : m.pc.isOver = true) (n : Nat) :
    Epilogue m (mainRun n m) := by
  induction n with
  | zero =>
    show Epilogue m m
    exact ⟨rfl, h, [], by simp, by simp⟩
  | succ k ih =>
    rw [mainRun_succ]
    exact epilogue_trans ih (epilogue_step _ ih.over)

theorem kbhit_keys (w : World) (k : Bool) (rest : List Bool) (h : w.keys = k :: rest) :
    (kbhit w).1 = k ∧ (kbhit w).2.keys = rest := by
  simp [kbhit, h]

theorem key_ends_wait (k : Nat) : ∀ (m : MainState) (rest : List Bool),
    (m.pc = .waitQuit ∨ m.pc = .waitDone) →
    m.world.keys = List.replicate k false ++ true :: rest →
    (mainRun (k + 1) m).pc = .exited 1 ∨ (mainRun (k + 1) m).pc.isFault = true := by
  induction k with
  | zero =>
    intro m rest hpc hkeys
    obtain ⟨hk, _⟩ := kbhit_keys m.world true rest (by simpa using hkeys)
    left
    show (mainStep m).pc = _
    rcases hpc with hp | hp <;> simp [mainStep, hp, hk]
  | succ k ih =>
    intro m rest hpc hkeys
    obtain ⟨hk, hk2⟩ := kbhit_keys m.world false (List.replicate k false ++ true :: rest)
      (by simpa [List.replicate_succ] using hkeys)
    have hrun : mainRun (k + 1 + 1) m = mainRun (k + 1) (mainStep m) := rfl
    rw [hrun]
    have hstep : ∀ pc0, (pc0 = PC.waitQuit ∨ pc0 = PC.waitDone) → m.pc = pc0 →
        mainStep m = (if (drain { m with world := (kbhit m.world).2, pc := pc0 }).pc.isFault
            = true then drain { m with world := (kbhit m.world).2, pc := pc0 }
          else { drain { m with world := (kbhit m.world).2, pc := pc0 } with
            log := (drain { m with world := (kbhit m.world).2, pc := pc0 }).log ++
              [.RakSleep 30] }) := by
      intro pc0 h0 hp
      rcases h0 with rfl | rfl <;> simp [mainStep, hp, hk]
    obtain ⟨pc0, h0, hp⟩ : ∃ pc0, (pc0 = PC.waitQuit ∨ pc0 = PC.waitDone) ∧ m.pc = pc0 :=
      ⟨m.pc, hpc, rfl⟩
    rw [hstep pc0 h0 hp]
    obtain ⟨_, d2, d3⟩ := epilogue_drain { m with world := (kbhit m.world).2, pc := pc0 }
      (by simpa using h0)
    by_cases hf : (drain { m with world := (kbhit m.world).2, pc := pc0 }).pc.isFault = true
    · rw [if_pos hf]
      right
      rw [mainRun_fixed _ (mainStep_fault _ hf)]
      exact hf
    · rw [if_neg hf]
      refine ih _ rest ?_ ?_
      · have := d2 (by simpa using hf)
        simpa [this] using h0
      · simpa [d3] using hk2


/-- C2: when the test of the outcome finds the active technique `SUCCEEDED`.
If the technique asks to terminate on success, or is the last of the list, the
run is over: the cursor stays, no `Init` call and no report of a failure follow
the report of the pass, the control is in the loop that waits for a key or
`main` has returned 1 (or a `ProcessPacket` call of the packet loop faulted),
and `main` has returned at the latest one step after the first key. Otherwise
the cursor advances by one and the next step calls `Init` of the next
technique. -/
theorem success_ends_or_advances (m : MainState) (x : Sample)
    (hpc : m.pc = .check) (hx : m.samples[m.currentStage]? = some x)
    (hs : x.sampleResult = .SUCCEEDED) :
    (x.QueryQuitOnSuccess = true ∨ m.samples.length ≤ m.currentStage + 1 →
      (∀ n, (mainRun (n + 1) m).currentStage = m.currentStage ∧
        (mainRun (n + 1) m).pc.isOver = true ∧
        ∃ ext, (mainRun (n + 1) m).log = m.log ++ .print (.passed x.QueryName) :: ext ∧
          initCalls ext = [] ∧ failures ext = 0 ∧ ¬ reportsNoConnectivity ext) ∧
      (∀ k rest, m.world.keys = List.replicate k false ++ true :: rest →
        (mainRun (k + 2) m).pc = .exited 1 ∨ (mainRun (k + 2) m).pc.isFault = true)) ∧
    (x.QueryQuitOnSuccess = false → m.currentStage + 1 < m.samples.length →
      (mainStep m).currentStage = m.currentStage + 1 ∧ (mainStep m).pc = .init ∧
      initCalls (mainStep m).log = initCalls m.log ∧
      ∃ y, m.samples[m.currentStage + 1]? = some y ∧
        (mainStep (mainStep m)).log = (mainStep m).log ++
          [.print (.executing y.QueryName), .Init (m.currentStage + 1)]) := by
  constructor
  · intro hover
    have hstep : ∃ first, mainStep m = { m with
          log := m.log ++ .print (.passed x.QueryName) :: first,
          pc := (mainStep m).pc } ∧
        ((mainStep m).pc = .waitQuit ∨ (mainStep m).pc = .waitDone) ∧
        initCalls first = [] ∧ failures first = 0 ∧ ¬ reportsNoConnectivity first := by
      by_cases hq : x.QueryQuitOnSuccess = true
      · refine ⟨[.print .pressAnyKeyToQuit], ?_, ?_, ?_⟩ <;>
          simp [mainStep, hpc, hx, hs, hq, MainEvent.initIndex, MainEvent.isFailed]
      · have hlast : ¬ (m.currentStage + 1 < m.samples.length) := by
          rcases hover with h | h
          · exact absurd h hq
          · omega
        refine ⟨[.print .proceedingToNextStage, .print .pressAnyKeyToQuitWhenDone], ?_, ?_, ?_⟩ <;>
          simp [mainStep, hpc, hx, hs, hq, hlast, MainEvent.initIndex, MainEvent.isFailed]
    obtain ⟨first, h1, h2, h3, h4, h5⟩ := hstep
    have hover1 : (mainStep m).pc.isOver = true := by
      rcases h2 with h | h <;> rw [h] <;> rfl
    have hstage : (mainStep m).currentStage = m.currentStage := by rw [h1]
    have hlog : (mainStep m).log = m.log ++ .print (.passed x.QueryName) :: first := by rw [h1]
    have hworld : (mainStep m).world = m.world := by rw [h1]
    constructor
    · intro n
      have hrun : mainRun (n + 1) m = mainRun n (mainStep m) := rfl
      have ep := epilogue_run (mainStep m) hover1 n
      obtain ⟨ext, e1, e2⟩ := ep.log
      obtain ⟨s1, s2, s3⟩ := epilogue_silent ext e2
      rw [hrun]
      refine ⟨ep.stage.trans hstage, ep.over, first ++ ext, ?_, ?_, ?_, ?_⟩
      · rw [e1, hlog]
        simp
      · simp [h3, s1]
      · simp [h4, s2]
      · simp [h5, s3]
    · intro k rest hkeys
      have hrun : mainRun (k + 2) m = mainRun (k + 1) (mainStep m) := rfl
      rw [hrun]
      exact key_ends_wait k (mainStep m) rest h2 (by rw [hworld]; exact hkeys)
  · intro hq hnext
    have hq' : ¬ x.QueryQuitOnSuccess = true := by simp [hq]
    obtain ⟨y, hy⟩ : ∃ y, m.samples[m.currentStage + 1]? = some y :=
      ⟨_, List.getElem?_eq_getElem hnext⟩
    have h1 : mainStep m = { m with
        currentStage := m.currentStage + 1,
        log := m.log ++ [.print (.passed x.QueryName), .print .proceedingToNextStage],
        pc := .init } := by
      simp [mainStep, hpc, hx, hs, hq, hnext]
    refine ⟨by rw [h1], by rw [h1], by rw [h1]; simp [MainEvent.initIndex], y, hy, ?_⟩
    rw [h1]
    simp only [mainStep, hy]
    split <;> rfl

/-! ### The claims on single techniques -/

/-- C11, at the failing input: a device and a valid gateway are found, the
install of the port mapping fails and the read-back succeeds; `Init` of a
PortMapping with outcome `PENDING` issues both requests and returns with outcome
`SUCCEEDED`. -/
theorem upnp_install_failure_succeeds :
    (upnpAnswers installFailsWorld).1.addPortMappingOk = false ∧
    ((UPNPFramework.mk .PENDING).Init installFailsWorld).1.sampleResult = .SUCCEEDED ∧
    ((UPNPFramework.mk .PENDING).Init installFailsWorld).2.trace =
      [.UPNP_AddPortMapping 50000 50000, .UPNP_GetSpecificPortMappingEntry 50000] := by
  decide

/-- What `UPNPFramework::Init` does with outcome `PENDING`: the outcome is
`SUCCEEDED` exactly when a device is found, the gateway is valid and the
read-back succeeds, and `FAILED` otherwise; the answer of the install is not
looked at. -/
theorem upnp_init_decided_by_read_back (s : UPNPFramework) (w : World)
    (h : s.sampleResult = .PENDING) :
    ((upnpAnswers w).1.devlist = true ∧ (upnpAnswers w).1.validIGD = 1 ∧
        (upnpAnswers w).1.getSpecificPortMappingEntryOk = true →
      (s.Init w).1.sampleResult = .SUCCEEDED) ∧
    (¬ ((upnpAnswers w).1.devlist = true ∧ (upnpAnswers w).1.validIGD = 1 ∧
        (upnpAnswers w).1.getSpecificPortMappingEntryOk = true) →
      (s.Init w).1.sampleResult = .FAILED) := by
  unfold UPNPFramework.Init
  simp only [h]
  constructor
  · rintro ⟨h1, h2, h3⟩
    simp [h1, h2, h3]
  · intro hn
    by_cases h1 : (upnpAnswers w).1.devlist = true
    · by_cases h2 : (upnpAnswers w).1.validIGD = 1
      · have h3 : (upnpAnswers w).1.getSpecificPortMappingEntryOk = false := by
          cases h3 : (upnpAnswers w).1.getSpecificPortMappingEntryOk
          · rfl
          · exact absurd ⟨h1, h2, h3⟩ hn
        simp [h1, h2, h3]
      · simp [h1, h2]
    · simp [h1]

theorem gets_clock (w : World) :
    (Gets w).2.clock = w.clock ∧ (Gets w).2.now = w.now ∧
      (Gets w).2.timeModulus = w.timeModulus := by
  unfold Gets
  split <;> exact ⟨rfl, rfl, rfl⟩

theorem getTimeMS_after_gets_emit (w : World) (e : Effect) :
    (GetTimeMS ((Gets w).2.emit e)).1 = (GetTimeMS w).1 ∧
    (GetTimeMS ((Gets w).2.emit e)).2.trace = w.trace ++ [e] ∧
    (GetTimeMS ((Gets w).2.emit e)).2.lines = (Gets w).2.lines := by
  obtain ⟨h1, h2, _⟩ := gets_clock w
  have ht := gets_trace w
  simp only [GetTimeMS, World.emit, h1, h2]
  split <;> simp [ht]

theorem gets_lines_cons (w : World) (l : List Char) (ls : List (List Char))
    (h : w.lines = l :: ls) : (Gets w).1 = l ∧ (Gets w).2.lines = ls := by
  simp [Gets, h]

/-- One re-arm of PunchThrough: a punch success followed by a line that is not
empty. -/
theorem punch_rearm_step (s : NatPunchthoughClientFramework) (packet : Packet) (w : World)
    (hPlugin : s.npClient = true) (hId : packet.id = .ID_NAT_PUNCHTHROUGH_SUCCEEDED)
    (hLine : (Gets w).1 ≠ []) :
    s.ProcessPacket packet w =
      .ok ({ s with timeout := ((GetTimeMS w).1 + 10000) % w.timeModulus },
        (GetTimeMS ((Gets w).2.emit (.OpenNAT (Gets w).1 s.serverAddress))).2) := by
  obtain ⟨h1, _, _⟩ := getTimeMS_after_gets_emit w (.OpenNAT (Gets w).1 s.serverAddress)
  obtain ⟨_, _, h3⟩ := gets_clock w
  have h4 : ((Gets w).2.emit (.OpenNAT (Gets w).1 s.serverAddress)).timeModulus =
      w.timeModulus := h3
  simp [NatPunchthoughClientFramework.ProcessPacket, hId, isPunchFailure, hLine, hPlugin,
    deadlineAfter, h1, h4]

/-- C12: for a PunchThrough with outcome `PENDING` whose plugin exists, a punch
success followed by a line that is not empty issues `OpenNAT` for that line
toward the stored `serverAddress`, leaves the outcome `PENDING` and sets
`timeout` to the clock reading plus 10000 in the type `TimeMS` (the plain sum
when it does not wrap); a punch success followed by an empty line sets the
outcome `SUCCEEDED`; and after any number of punch successes, each followed by
a line that is not empty, the outcome is still `PENDING`, one `OpenNAT` request
was issued for each line, and the next punch success followed by an empty line
sets `SUCCEEDED`. -/
theorem punch_rearms_until_declined (s : NatPunchthoughClientFramework) (w : World)
    (hPending : s.sampleResult = .PENDING) (hPlugin : s.npClient = true) :
    (∀ packet, packet.id = .ID_NAT_PUNCHTHROUGH_SUCCEEDED → (Gets w).1 ≠ [] →
      ∃ r, s.ProcessPacket packet w = .ok r ∧ r.1.sampleResult = .PENDING ∧
        r.2.trace = w.trace ++ [.OpenNAT (Gets w).1 s.serverAddress] ∧
        r.1.timeout = ((GetTimeMS w).1 + 10000) % w.timeModulus ∧
        ((GetTimeMS w).1 + 10000 < w.timeModulus → r.1.timeout = (GetTimeMS w).1 + 10000) ∧
        r.1.serverAddress = s.serverAddress ∧ r.1.npClient = true ∧
        r.1.isListening = s.isListening) ∧
    (∀ packet, packet.id = .ID_NAT_PUNCHTHROUGH_SUCCEEDED → (Gets w).1 = [] →
      s.ProcessPacket packet w = .ok ({ s with sampleResult := .SUCCEEDED }, (Gets w).2)) ∧
    (∀ (packets : List Packet) (targets rest : List (List Char)),
      (∀ p ∈ packets, p.id = .ID_NAT_PUNCHTHROUGH_SUCCEEDED) → (∀ t ∈ targets, t ≠ []) →
      packets.length = targets.length → w.lines = targets ++ rest →
      ∃ r, s.processPackets packets w = .ok r ∧ r.1.sampleResult = .PENDING ∧
        r.1.npClient = true ∧ r.1.serverAddress = s.serverAddress ∧ r.2.lines = rest ∧
        r.2.trace = w.trace ++ targets.map (fun t => Effect.OpenNAT t s.serverAddress) ∧
        ∀ packet, packet.id = .ID_NAT_PUNCHTHROUGH_SUCCEEDED → (Gets r.2).1 = [] →
          ∃ q, r.1.ProcessPacket packet r.2 = .ok q ∧ q.1.sampleResult = .SUCCEEDED) := by
  have hdecline : ∀ (s : NatPunchthoughClientFramework) (w : World) (packet : Packet),
      packet.id = .ID_NAT_PUNCHTHROUGH_SUCCEEDED → (Gets w).1 = [] →
      s.ProcessPacket packet w = .ok ({ s with sampleResult := .SUCCEEDED }, (Gets w).2) := by
    intro s w packet hId hLine
    simp [NatPunchthoughClientFramework.ProcessPacket, hId, isPunchFailure, hLine]
  refine ⟨?_, hdecline s w, ?_⟩
  · intro packet hId hLine
    refine ⟨_, punch_rearm_step s packet w hPlugin hId hLine, hPending, ?_, rfl, ?_, rfl,
      hPlugin, rfl⟩
    · exact (getTimeMS_after_gets_emit w _).2.1
    · intro hlt
      exact Nat.mod_eq_of_lt hlt
  · intro packets
    induction packets generalizing s w with
    | nil =>
      intro targets rest _ _ hlen hlines
      have ht : targets = [] := List.length_eq_zero.mp hlen.symm
      subst ht
      refine ⟨(s, w), rfl, hPending, hPlugin, rfl, by simpa using hlines, by simp, ?_⟩
      intro packet hId hLine
      exact ⟨_, hdecline s w packet hId hLine, rfl⟩
    | cons p ps ih =>
      intro targets rest hps hts hlen hlines
      cases targets with
      | nil => simp at hlen
      | cons t ts =>
        have hId := hps p (List.mem_cons_self _ _)
        obtain ⟨g1, g2⟩ := gets_lines_cons w t (ts ++ rest) (by simpa using hlines)
        have hLine : (Gets w).1 ≠ [] := by
          rw [g1]
          exact hts t (List.mem_cons_self _ _)
        have hstep := punch_rearm_step s p w hPlugin hId hLine
        obtain ⟨_, k2, k3⟩ := getTimeMS_after_gets_emit w (.OpenNAT (Gets w).1 s.serverAddress)
        obtain ⟨r, r1, r2, r3, r4, r5, r6, r7⟩ := ih
          { s with timeout := ((GetTimeMS w).1 + 10000) % w.timeModulus }
          (GetTimeMS ((Gets w).2.emit (.OpenNAT (Gets w).1 s.serverAddress))).2
          hPending hPlugin ts rest (fun q hq => hps q (List.mem_cons_of_mem _ hq))
          (fun q hq => hts q (List.mem_cons_of_mem _ hq)) (by simpa using hlen)
          (by rw [k3, g2])
        refine ⟨r, ?_, r2, r3, r4, r5, ?_, r7⟩
        · simp only [NatPunchthoughClientFramework.processPackets, hstep]
          exact r1
        · rw [r6, k2, g1]
          simp

/-- C13: the callbacks of ProxyRelay: `OnForwardingSuccess` issues the connect
request to the proxy and sets `SUCCEEDED`; `OnForwardingNotification` sets
`SUCCEEDED`; `OnNoServersOnline`, `OnRecipientNotConnected` and
`OnAllServersBusy` set `FAILED`; `OnForwardingInProgress` leaves the instance
and the world as they are. No other member changes. -/
theorem proxy_notifications_outcome (s : UDPProxyClientFramework) (w : World) :
    (∀ proxyIPAddress proxyPort,
      (s.onNotification (.OnForwardingSuccess proxyIPAddress proxyPort) w).1 =
        { s with sampleResult := .SUCCEEDED } ∧
      (s.onNotification (.OnForwardingSuccess proxyIPAddress proxyPort) w).2.trace =
        w.trace ++ [.Connect proxyIPAddress proxyPort]) ∧
    s.onNotification .OnForwardingNotification w = ({ s with sampleResult := .SUCCEEDED }, w) ∧
    s.onNotification .OnNoServersOnline w = ({ s with sampleResult := .FAILED }, w) ∧
    s.onNotification .OnRecipientNotConnected w = ({ s with sampleResult := .FAILED }, w) ∧
    s.onNotification .OnAllServersBusy w = ({ s with sampleResult := .FAILED }, w) ∧
    s.onNotification .OnForwardingInProgress w = (s, w) :=
  ⟨fun _ _ => ⟨rfl, connect_trace _ _ _⟩, rfl, rfl, rfl, rfl, rfl⟩

/-! ### The claims on the start and the end of a run -/

theorem drop_of_getElem? (samples : List Sample) (c : Nat) (x : Sample)
    (hx : samples[c]? = some x) : samples.drop c = x :: samples.drop (c + 1) := by
  obtain ⟨h, rfl⟩ := List.getElem?_eq_some.mp hx
  exact List.drop_eq_getElem_cons h

theorem skippedFrom_requires (samples : List Sample) (c : Nat) (x : Sample)
    (hx : samples[c]? = some x) (hr : x.QueryRequiresServer = true) :
    skippedFrom samples c = skippedFrom samples (c + 1) + 1 := by
  simp [skippedFrom, drop_of_getElem? samples c x hx, List.takeWhile_cons, hr]

theorem skippedFrom_free (samples : List Sample) (c : Nat) (x : Sample)
    (hx : samples[c]? = some x) (hr : x.QueryRequiresServer = false) :
    skippedFrom samples c = 0 := by
  simp [skippedFrom, drop_of_getElem? samples c x hx, List.takeWhile_cons, hr]

theorem skippedFrom_end (samples : List Sample) (c : Nat) (h : samples.length ≤ c) :
    skippedFrom samples c = 0 := by
  simp [skippedFrom, List.drop_eq_nil_of_le h]

theorem skipLines_succ (samples : List Sample) (c k : Nat) (x : Sample)
    (hx : samples[c]? = some x) :
    skipLines samples c (k + 1) =
      .print (.noServerSkipping x.QueryName) :: skipLines samples (c + 1) k := by
  simp [skipLines, drop_of_getElem? samples c x hx]

theorem skippedFrom_spec (samples : List Sample) :
    ∀ (k c : Nat), skippedFrom samples c = k → c ≤ samples.length →
      c + k ≤ samples.length ∧
      (∀ i, c ≤ i → i < c + k →
        ∃ x, samples[i]? = some x ∧ x.QueryRequiresServer = true) ∧
      (c + k < samples.length →
        ∃ x, samples[c + k]? = some x ∧ x.QueryRequiresServer = false) := by
  intro k
  induction k with
  | zero =>
    intro c hk hle
    by_cases hc : c < samples.length
    · refine ⟨by omega, fun i h1 h2 => by omega, fun _ => ?_⟩
      refine ⟨samples[c], List.getElem?_eq_getElem hc, ?_⟩
      cases hr : samples[c].QueryRequiresServer
      · rfl
      · have := skippedFrom_requires samples c _ (List.getElem?_eq_getElem hc) hr
        omega
    · exact ⟨by omega, fun i h1 h2 => by omega, fun h => by omega⟩
  | succ k ih =>
    intro c hk _
    have hc : c < samples.length := by
      by_contra h
      have := skippedFrom_end samples c (by omega)
      omega
    have hx := List.getElem?_eq_getElem hc
    have hr : samples[c].QueryRequiresServer = true := by
      cases hr : samples[c].QueryRequiresServer
      · have := skippedFrom_free samples c _ hx hr
        omega
      · rfl
    have hk1 : skippedFrom samples (c + 1) = k := by
      have := skippedFrom_requires samples c _ hx hr
      omega
    obtain ⟨h1, h2, h3⟩ := ih (c + 1) hk1 (by omega)
    refine ⟨by omega, ?_, ?_⟩
    · intro i hi1 hi2
      by_cases hic : i = c
      · subst hic
        exact ⟨_, hx, hr⟩
      · exact h2 i (by omega) (by omega)
    · intro hlt
      have := h3 (by omega)
      rwa [show c + 1 + k = c + (k + 1) by omega] at this

theorem skip_run (samples : List Sample) (w : World) :
    ∀ (k c : Nat) (log : List MainEvent), skippedFrom samples c = k → c < samples.length →
      (c + k < samples.length →
        mainRun (k + 1) ⟨samples, c, w, log, .skip⟩ =
          ⟨samples, c + k, w, log ++ skipLines samples c k, .init⟩) ∧
      (c + k = samples.length →
        mainRun k ⟨samples, c, w, log, .skip⟩ =
          ⟨samples, samples.length, w,
            log ++ skipLines samples c k ++ [.print .connectivityNotPossible, .getch],
            .exited 1⟩) := by
  intro k
  induction k with
  | zero =>
    intro c log hk hc
    have hx := List.getElem?_eq_getElem hc
    have hr : samples[c].QueryRequiresServer = false := by
      cases hr : samples[c].QueryRequiresServer
      · rfl
      · have := skippedFrom_requires samples c _ hx hr
        omega
    refine ⟨fun _ => ?_, fun h => by omega⟩
    have hrun : mainRun (0 + 1) ⟨samples, c, w, log, .skip⟩ =
        mainStep ⟨samples, c, w, log, .skip⟩ := rfl
    rw [hrun]
    simp [mainStep, hx, hr, skipLines]
  | succ k ih =>
    intro c log hk hc
    have hx := List.getElem?_eq_getElem hc
    have hr : samples[c].QueryRequiresServer = true := by
      cases hr : samples[c].QueryRequiresServer
      · have := skippedFrom_free samples c _ hx hr
        omega
      · rfl
    have hk1 : skippedFrom samples (c + 1) = k := by
      have := skippedFrom_requires samples c _ hx hr
      omega
    have hlines := skipLines_succ samples c k _ hx
    by_cases hend : c + 1 = samples.length
    · have hk0 : k = 0 := by
        have := skippedFrom_end samples (c + 1) (by omega)
        omega
      subst hk0
      refine ⟨fun h => by omega, fun _ => ?_⟩
      have hrun : mainRun (0 + 1) ⟨samples, c, w, log, .skip⟩ =
          mainStep ⟨samples, c, w, log, .skip⟩ := rfl
      rw [hrun, hlines]
      have h0 : ∀ d, skipLines samples d 0 = [] := fun d => by simp [skipLines]
      simp [mainStep, hx, hr, hend, h0]
    · have hstep : mainStep ⟨samples, c, w, log, .skip⟩ =
          ⟨samples, c + 1, w, log ++ [.print (.noServerSkipping samples[c].QueryName)],
            .skip⟩ := by
        simp [mainStep, hx, hr, hend]
      obtain ⟨i1, i2⟩ := ih (c + 1)
        (log ++ [.print (.noServerSkipping samples[c].QueryName)]) hk1 (by omega)
      constructor
      · intro hlt
        have hrun : mainRun (k + 1 + 1) ⟨samples, c, w, log, .skip⟩ =
            mainRun (k + 1) (mainStep ⟨samples, c, w, log, .skip⟩) := rfl
        rw [hrun, hstep, i1 (by omega), hlines]
        simp
        omega
      · intro heq
        have hrun : mainRun (k + 1) ⟨samples, c, w, log, .skip⟩ =
            mainRun k (mainStep ⟨samples, c, w, log, .skip⟩) := rfl
        rw [hrun, hstep, i2 (by omega), hlines]
        simp

theorem initCalls_skipLines (samples : List Sample) (c k : Nat) :
    initCalls (skipLines samples c k) = [] := by
  unfold skipLines
  induction (List.take k (List.drop c samples)) with
  | nil => rfl
  | cons x xs ih => simpa [MainEvent.initIndex] using ih

/-- C14: without a server (`hasServer` false) the loop of lines 853-865 moves the
cursor from `c` past the samples that require a server to the first one, at or
after `c`, that does not, prints one line for each sample it skips and calls
no `Init`; when there is no such sample it prints that connectivity is not
possible and `main` returns 1, and only then. With a server the run starts at
`c`. -/
theorem pre_skip_moves_cursor (samples : List Sample) (c : Nat) (w : World)
    (hc : c < samples.length) :
    (∀ i, c ≤ i → i < c + skippedFrom samples c →
      ∃ x, samples[i]? = some x ∧ x.QueryRequiresServer = true) ∧
    (c + skippedFrom samples c < samples.length →
      (∃ x, samples[c + skippedFrom samples c]? = some x ∧
        x.QueryRequiresServer = false) ∧
      mainRun (skippedFrom samples c + 1) (orchestrate false samples c w) =
        ⟨samples, c + skippedFrom samples c, w,
          skipLines samples c (skippedFrom samples c), .init⟩) ∧
    (¬ (c + skippedFrom samples c < samples.length) →
      (∀ i, c ≤ i → i < samples.length →
        ∃ x, samples[i]? = some x ∧ x.QueryRequiresServer = true) ∧
      mainRun (skippedFrom samples c) (orchestrate false samples c w) =
        ⟨samples, samples.length, w,
          skipLines samples c (skippedFrom samples c) ++
            [.print .connectivityNotPossible, .getch], .exited 1⟩) ∧
    initCalls (skipLines samples c (skippedFrom samples c)) = [] ∧
    orchestrate true samples c w = ⟨samples, c, w, [], .init⟩ := by
  obtain ⟨s1, s2, s3⟩ := skippedFrom_spec samples _ c rfl (by omega)
  obtain ⟨r1, r2⟩ := skip_run samples w _ c [] rfl hc
  have hstart : orchestrate false samples c w = ⟨samples, c, w, [], .skip⟩ := rfl
  refine ⟨s2, ?_, ?_, initCalls_skipLines _ _ _, rfl⟩
  · intro hlt
    refine ⟨s3 hlt, ?_⟩
    rw [hstart, r1 hlt]
    simp
  · intro hlt
    have heq : c + skippedFrom samples c = samples.length := by omega
    refine ⟨fun i h1 h2 => s2 i h1 (by omega), ?_⟩
    rw [hstart, r2 heq]
    simp

/-! ### No technique is torn down -/

theorem init_keeps_plugin (x : Sample) (w : World) (r : Sample × World)
    (h : x.Init w = .ok r) (hp : x.plugin = true) : r.1.plugin = true := by
  cases x with
  | upnp s => simp [Sample.plugin] at hp
  | natType s =>
    simp only [Sample.Init] at h
    cases hs : s.Init w with
    | error f => simp [hs, Except.map] at h
    | ok q =>
      simp only [hs, Except.map, Except.ok.injEq] at h
      subst h
      simp only [Sample.plugin] at hp ⊢
      unfold NatTypeDetectionFramework.Init at hs
      simp only [] at hs
      repeat' split at hs
      all_goals (cases hs <;> simp [hp])
  | punch s =>
    simp only [Sample.Init] at h
    cases hs : s.Init w with
    | error f => simp [hs, Except.map] at h
    | ok q =>
      simp only [hs, Except.map, Except.ok.injEq] at h
      subst h
      simp only [Sample.plugin] at hp ⊢
      unfold NatPunchthoughClientFramework.Init at hs
      simp only [] at hs
      repeat' split at hs
      all_goals (cases hs <;> simp [hp])
  | router2 s =>
    simp only [Sample.Init] at h
    cases hs : s.Init w with
    | error f => simp [hs, Except.map] at h
    | ok q =>
      simp only [hs, Except.map, Except.ok.injEq] at h
      subst h
      simp only [Sample.plugin] at hp ⊢
      unfold Router2Framework.Init at hs
      simp only [] at hs
      repeat' split at hs
      all_goals (cases hs <;> simp [hp])
  | proxy s =>
    simp only [Sample.Init] at h
    cases hs : s.Init w with
    | error f => simp [hs, Except.map] at h
    | ok q =>
      simp only [hs, Except.map, Except.ok.injEq] at h
      subst h
      simp only [Sample.plugin] at hp ⊢
      unfold UDPProxyClientFramework.Init at hs
      simp only [] at hs
      repeat' split at hs
      all_goals (cases hs <;> simp [hp])

theorem processPacket_keeps_plugin (x : Sample) (packet : Packet) (w : World)
    (r : Sample × World) (h : x.ProcessPacket packet w = .ok r) (hp : x.plugin = true) :
    r.1.plugin = true := by
  cases x with
  | punch s =>
    simp only [Sample.ProcessPacket] at h
    cases hs : s.ProcessPacket packet w with
    | error f => simp [hs, Except.map] at h
    | ok q =>
      simp only [hs, Except.map, Except.ok.injEq] at h
      subst h
      simp only [Sample.plugin] at hp ⊢
      unfold NatPunchthoughClientFramework.ProcessPacket at hs
      simp only [] at hs
      repeat' split at hs
      all_goals (cases hs <;> simp [hp])
  | upnp s => simp [Sample.plugin] at hp
  | natType s =>
    simp only [Sample.ProcessPacket, Except.ok.injEq] at h
    subst h
    simp only [Sample.plugin, NatTypeDetectionFramework.ProcessPacket] at hp ⊢
    split <;> simp [hp]
  | router2 s => simp only [Sample.ProcessPacket, Except.ok.injEq] at h; subst h; exact hp
  | proxy s => simp only [Sample.ProcessPacket, Except.ok.injEq] at h; subst h; exact hp

theorem update_keeps_plugin (x : Sample) (w : World) (hp : x.plugin = true) :
    (x.Update w).1.plugin = true := by
  cases x with
  | upnp s => simp [Sample.plugin] at hp
  | natType s =>
    simp only [Sample.plugin, Sample.Update, NatTypeDetectionFramework.Update] at hp ⊢
    repeat' split
    all_goals simp [hp]
  | punch s =>
    simp only [Sample.plugin, Sample.Update, NatPunchthoughClientFramework.Update] at hp ⊢
    repeat' split
    all_goals simp [hp]
  | router2 s =>
    simp only [Sample.plugin, Sample.Update, Router2Framework.Update] at hp ⊢
    repeat' split
    all_goals simp [hp]
  | proxy s =>
    simp only [Sample.plugin, Sample.Update, UDPProxyClientFramework.Update] at hp ⊢
    repeat' split
    all_goals simp [hp]

theorem onNotification_keeps_plugin (x : Sample) (n : ProxyNotification) (w : World)
    (hp : x.plugin = true) : (x.onNotification n w).1.plugin = true := by
  cases x <;> cases n <;>
    simp_all [Sample.onNotification, UDPProxyClientFramework.onNotification, Sample.plugin]

theorem attached_refl (m : MainState) : Attached m m :=
  ⟨fun _ x hx hp => ⟨x, hx, hp⟩, [], by simp, by simp⟩

theorem attached_trans {a b c : MainState} (h1 : Attached a b) (h2 : Attached b c) :
    Attached a c := by
  obtain ⟨e1, hl1, he1⟩ := h1.log
  obtain ⟨e2, hl2, he2⟩ := h2.log
  refine ⟨?_, e1 ++ e2, by rw [hl2, hl1, List.append_assoc], ?_⟩
  · intro i x hx hp
    obtain ⟨y, hy, hq⟩ := h1.plugins i x hx hp
    exact h2.plugins i y hy hq
  · intro e he
    rcases List.mem_append.mp he with h | h
    · exact he1 e h
    · exact he2 e h

theorem attached_foldl {α : Type} (f : MainState → α → MainState)
    (hf : ∀ m a, Attached m (f m a)) (l : List α) (m : MainState) :
    Attached m (l.foldl f m) := by
  induction l generalizing m with
  | nil => exact attached_refl m
  | cons a l ih => exact attached_trans (hf m a) (ih (f m a))

/-- The samples are as before. -/
theorem attached_same (m m' : MainState) (ext : List MainEvent)
    (hs : m'.samples = m.samples) (hl : m'.log = m.log ++ ext)
    (he : ∀ e ∈ ext, e.isShutdown = false) : Attached m m' :=
  ⟨fun _ x hx hp => ⟨x, by rw [hs]; exact hx, hp⟩, ext, hl, he⟩

/-- One sample was replaced by what a call made of it. -/
theorem attached_set (m m' : MainState) (i : Nat) (x r : Sample) (ext : List MainEvent)
    (hx : m.samples[i]? = some x) (hr : x.plugin = true → r.plugin = true)
    (hs : m'.samples = m.samples.set i r) (hl : m'.log = m.log ++ ext)
    (he : ∀ e ∈ ext, e.isShutdown = false) : Attached m m' := by
  refine ⟨?_, ext, hl, he⟩
  intro j y hy hp
  rw [hs]
  by_cases hji : i = j
  · subst hji
    have hlt : i < m.samples.length := by
      obtain ⟨h, _⟩ := List.getElem?_eq_some.mp hx
      exact h
    rw [hx] at hy
    cases hy
    exact ⟨r, by simp [List.getElem?_set, hlt], hr hp⟩
  · exact ⟨y, by simp [List.getElem?_set, hji, hy], hp⟩

theorem attached_events (m : MainState) (ext : List MainEvent)
    (he : ∀ e ∈ ext, e.isShutdown = false) : Attached m { m with log := m.log ++ ext } :=
  attached_same _ _ ext rfl rfl he

theorem processPacketAt_attached (packet : Packet) (m : MainState) (i : Nat) :
    Attached m (processPacketAt packet m i) := by
  unfold processPacketAt
  split
  · exact attached_refl m
  · split
    · exact attached_same _ _ [] rfl (by simp) (by simp)
    · rename_i x hx
      split
      · exact attached_same _ _ [_] rfl rfl (by simp [MainEvent.isShutdown])
      · rename_i r hr
        exact attached_set _ _ i x r.1 [_] hx
          (processPacket_keeps_plugin x packet m.world r hr) rfl rfl
          (by simp [MainEvent.isShutdown])

theorem notifyAt_attached (n : ProxyNotification) (m : MainState) (i : Nat) :
    Attached m (notifyAt n m i) := by
  unfold notifyAt
  split
  · exact attached_refl m
  · rename_i x hx
    split
    · exact attached_set _ _ i x _ [] hx (onNotification_keeps_plugin x n m.world) rfl
        (by simp) (by simp)
    · exact attached_refl m

theorem receiveCallbacks_attached (m : MainState) : Attached m (receiveCallbacks m) := by
  unfold receiveCallbacks
  split
  · exact attached_refl m
  · rename_i ns rest _
    exact attached_trans
      (attached_same m { m with world := { m.world with proxyCallbacks := rest } } [] rfl
        (by simp) (by simp))
      (attached_foldl _ (fun m1 n => attached_foldl _ (notifyAt_attached n) _ m1) _ _)

theorem drainLoop_attached (script : List (Option Packet)) (m : MainState) :
    Attached m (drainLoop script m) := by
  induction script generalizing m with
  | nil => exact receiveCallbacks_attached m
  | cons p rest ih =>
    have h0 : Attached m { m with world := { m.world with receive := rest } } :=
      attached_same _ _ [] rfl (by simp) (by simp)
    cases p with
    | none => exact attached_trans h0 (receiveCallbacks_attached _)
    | some packet =>
      have h1 : Attached m (processPacketAll packet
          (receiveCallbacks { m with world := { m.world with receive := rest } })) :=
        attached_trans (attached_trans h0 (receiveCallbacks_attached _))
          (attached_foldl _ (processPacketAt_attached packet) _ _)
      simp only [drainLoop]
      split
      · exact h1
      · exact attached_trans
          (attached_trans h1 (attached_events _ [.PrintPacketMessages packet]
            (by simp [MainEvent.isShutdown])))
          (ih _)

theorem drain_attached (m : MainState) : Attached m (drain m) := drainLoop_attached _ m

theorem attached_wait (m0 : MainState) :
    Attached m0 (if (drain m0).pc.isFault = true then drain m0
      else { drain m0 with log := (drain m0).log ++ [.RakSleep 30] }) := by
  split
  · exact drain_attached m0
  · exact attached_trans (drain_attached m0)
      (attached_events _ [.RakSleep 30] (by simp [MainEvent.isShutdown]))

theorem mainStep_attached (m : MainState) : Attached m (mainStep m) := by
  cases hp : m.pc with
  | skip =>
    simp only [mainStep, hp]
    repeat' split
    all_goals first
      | exact attached_same _ _ _ rfl rfl (by simp [MainEvent.isShutdown])
      | exact attached_same _ _ [] rfl (List.append_nil _).symm (by simp)
  | init =>
    simp only [mainStep, hp]
    split
    · exact attached_same _ _ [] rfl (by simp) (by simp)
    · rename_i x hx
      split
      · exact attached_same _ _ _ rfl rfl (by simp [MainEvent.isShutdown])
      · rename_i r hr
        exact attached_set _ _ m.currentStage x r.1 _ hx
          (init_keeps_plugin x m.world r hr) rfl rfl (by simp [MainEvent.isShutdown])
  | update =>
    simp only [mainStep, hp]
    split
    · exact attached_same _ _ [] rfl (by simp) (by simp)
    · rename_i x hx
      have h1 : Attached m
          { m with samples := m.samples.set m.currentStage (x.Update m.world).1,
                   world := (x.Update m.world).2,
                   log := m.log ++ [.Update m.currentStage], pc := .update } :=
        attached_set _ _ m.currentStage x (x.Update m.world).1 [.Update m.currentStage] hx
          (update_keeps_plugin x m.world) rfl rfl (by simp [MainEvent.isShutdown])
      have h2 := attached_trans h1 (drain_attached _)
      split
      · exact h2
      · exact attached_trans h2 (attached_same _ _ [] rfl (by simp) (by simp))
  | check =>
    simp only [mainStep, hp]
    repeat' split
    all_goals first
      | exact attached_same _ _ _ rfl rfl (by simp [MainEvent.isShutdown])
      | exact attached_same _ _ [] rfl (List.append_nil _).symm (by simp)
  | waitQuit =>
    simp only [mainStep, hp]
    split
    · exact attached_same _ _ _ rfl rfl (by simp [MainEvent.isShutdown])
    · exact attached_trans
        (attached_same m { m with world := (kbhit m.world).2, pc := .waitQuit } [] rfl
          (by simp) (by simp))
        (attached_wait _)
  | waitDone =>
    simp only [mainStep, hp]
    split
    · exact attached_same _ _ _ rfl rfl (by simp [MainEvent.isShutdown])
    · exact attached_trans
        (attached_same m { m with world := (kbhit m.world).2, pc := .waitDone } [] rfl
          (by simp) (by simp))
        (attached_wait _)
  | exited code =>
    rw [mainStep_exited m code hp]
    exact attached_refl m
  | fault f =>
    rw [mainStep_fault m (by simp [hp, PC.isFault])]
    exact attached_refl m

theorem mainRun_attached (n : Nat) (m : MainState) : Attached m (mainRun n m) := by
  induction n with
  | zero => exact attached_refl m
  | succ k ih =>
    rw [mainRun_succ]
    exact attached_trans ih (mainStep_attached _)

/-- C15, as the claim states it, fails: in the run of `main` in which the
forwarding that ProxyRelay asks for is not answered in time, `main` finds
ProxyRelay `FAILED`, reports it and returns 1 with the cursor past the list; it
has made no `Shutdown` call, no plugin was deleted, and ProxyRelay still has the
plugin its `Init` created. -/
theorem failed_proxy_keeps_plugin :
    (mainRun 3 (mainStart someIndeterminate timedOutWorld)).pc = .exited 1 ∧
    (mainRun 3 (mainStart someIndeterminate timedOutWorld)).currentStage = 5 ∧
    (mainRun 3 (mainStart someIndeterminate timedOutWorld)).log =
      [.print (.executing .UDPProxyClientFramework), .Init 4, .Update 4,
        .print (.failed .UDPProxyClientFramework), .print .connectivityNotPossible,
        .rakPeerShutdown, .getch] ∧
    (mainRun 3 (mainStart someIndeterminate timedOutWorld)).samples[4]? =
      some (.proxy ⟨.FAILED, true, 5000, false⟩) ∧
    Sample.plugin (.proxy ⟨.FAILED, true, 5000, false⟩) = true ∧
    (mainRun 3 (mainStart someIndeterminate timedOutWorld)).world.trace =
      [.AttachPlugin .UDPProxyClient, .SetResultHandler,
        .RequestForwarding ⟨10, 1⟩ ['7']] := by
  decide

/-- C15, amended: `main` calls `Shutdown` of no technique. Along any run of the
machine the log grows by no `Shutdown` call, and a sample whose plugin exists
still has it afterwards; the step that finds the active technique `FAILED` or
`SUCCEEDED` leaves the samples and the world as they are and goes on to the next
`Init` or ends the run; and the log of a run of `main` holds no `Shutdown`
call. -/
theorem main_calls_no_shutdown (m : MainState) (n : Nat) (i : Indeterminate) (w : World) :
    (∃ ext, (mainRun n m).log = m.log ++ ext ∧ ∀ e ∈ ext, e.isShutdown = false) ∧
    (∀ (k : Nat) (x : Sample), m.samples[k]? = some x → x.plugin = true →
      ∃ y : Sample, (mainRun n m).samples[k]? = some y ∧ y.plugin = true) ∧
    (∀ x : Sample, m.pc = .check → m.samples[m.currentStage]? = some x →
      x.sampleResult ≠ .PENDING →
      (mainStep m).samples = m.samples ∧ (mainStep m).world = m.world ∧
      ((mainStep m).pc = .init ∨ (mainStep m).pc.isOver = true)) ∧
    (∀ k, MainEvent.Shutdown k ∉ (mainRun n (mainStart i w)).log) := by
  refine ⟨(mainRun_attached n m).log, (mainRun_attached n m).plugins, ?_, ?_⟩
  · intro x hpc hx hne
    cases hr : x.sampleResult with
    | PENDING => exact absurd hr hne
    | FAILED =>
      by_cases hend : m.currentStage + 1 = m.samples.length <;>
        simp [mainStep, hpc, hx, hr, hend, PC.isOver]
    | SUCCEEDED =>
      by_cases hq : x.QueryQuitOnSuccess = true
      · simp [mainStep, hpc, hx, hr, hq, PC.isOver]
      · by_cases hlt : m.currentStage + 1 < m.samples.length <;>
          simp [mainStep, hpc, hx, hr, hq, hlt, PC.isOver]
  · intro k hk
    obtain ⟨ext, hlog, hext⟩ := (mainRun_attached n (mainStart i w)).log
    rw [hlog] at hk
    rcases List.mem_append.mp hk with h | h
    · unfold mainStart orchestrate at h
      split at h <;> simp at h
    · have := hext _ h
      simp [MainEvent.isShutdown] at this

/-! ### What `main` still calls once the run is over -/

theorem isEpilogue_no_call (e : MainEvent) (h : e.isEpilogue = true) (i : Nat) :
    e ≠ .Init i ∧ e ≠ .Update i := by
  cases e <;> simp_all [MainEvent.isEpilogue]

theorem kbhit_receive (w : World) : (kbhit w).2.receive = w.receive := by
  unfold kbhit
  split <;> rfl

theorem processPacketAt_fault (packet : Packet) (m : MainState) (i : Nat)
    (h : m.pc.isFault = true) : processPacketAt packet m i = m := by
  simp [processPacketAt, h]

theorem processPacket_foldl_fault (packet : Packet) (l : List Nat) (m : MainState)
    (h : m.pc.isFault = true) : l.foldl (processPacketAt packet) m = m := by
  induction l with
  | nil => rfl
  | cons j l ih => rw [List.foldl_cons, processPacketAt_fault packet m j h, ih]

/-- The loop of lines 923-926 calls `ProcessPacket` for every index of the list,
unless one of the calls does not return. -/
theorem processPacket_foldl_calls (packet : Packet) (l : List Nat) :
    ∀ m : MainState, (∀ i ∈ l, i < m.samples.length) →
      (l.foldl (processPacketAt packet) m).pc.isFault = true ∨
      ∀ i ∈ l, MainEvent.ProcessPacket i packet ∈ (l.foldl (processPacketAt packet) m).log := by
  induction l with
  | nil =>
    intro m _
    exact Or.inr (by simp)
  | cons j l ih =>
    intro m hl
    rw [List.foldl_cons]
    have hj : j < m.samples.length := hl j (List.mem_cons_self _ _)
    have q := processPacketAt_quiet packet m j
    by_cases hf : (processPacketAt packet m j).pc.isFault = true
    · left
      rw [processPacket_foldl_fault packet l _ hf]
      exact hf
    · rcases ih (processPacketAt packet m j)
          (fun i hi => by rw [q.size]; exact hl i (List.mem_cons_of_mem _ hi)) with h | h
      · exact Or.inl h
      · right
        intro i hi
        rcases List.mem_cons.mp hi with rfl | hi
        · obtain ⟨ext, hlog, _⟩ :=
            (quiet_foldl _ (processPacketAt_quiet packet) l (processPacketAt packet m i)).log
          rw [hlog]
          refine List.mem_append_left _ ?_
          have hx := List.getElem?_eq_getElem hj
          have hm : m.pc.isFault = false := by
            cases hmf : m.pc.isFault
            · rfl
            · rw [processPacketAt_fault packet m i hmf] at hf
              exact absurd hmf hf
          unfold processPacketAt at hf ⊢
          simp only [hm, hx] at hf ⊢
          cases hr : (m.samples[i]).ProcessPacket packet m.world with
          | error f => simp [hr, PC.isFault] at hf
          | ok r => simp
        · exact h i hi

/-- The packet loop, given a packet by the first `Receive` call, calls
`ProcessPacket` of every sample with it, unless a call does not return. -/
theorem drain_calls (m0 : MainState) (packet : Packet) (rest : List (Option Packet))
    (hr : m0.world.receive = some packet :: rest) :
    (drain m0).pc.isFault = true ∨
    ∀ i, i < m0.samples.length → MainEvent.ProcessPacket i packet ∈ (drain m0).log := by
  have q1 : Quiet m0 (receiveCallbacks { m0 with world := { m0.world with receive := rest } }) :=
    quiet_trans (quiet_world m0 { m0.world with receive := rest } rfl)
      (receiveCallbacks_quiet _)
  have hcalls := processPacket_foldl_calls packet
    (List.range (receiveCallbacks
      { m0 with world := { m0.world with receive := rest } }).samples.length)
    (receiveCallbacks { m0 with world := { m0.world with receive := rest } })
    (fun i hi => List.mem_range.mp hi)
  unfold drain
  rw [hr]
  simp only [drainLoop, processPacketAll]
  split
  · rename_i hf
    exact Or.inl hf
  · rcases hcalls with h | h
    · rename_i hf
      exact absurd h hf
    · right
      intro i hi
      obtain ⟨ext, hlog, _⟩ := (drainLoop_quiet rest
        { (List.range (receiveCallbacks
              { m0 with world := { m0.world with receive := rest } }).samples.length).foldl
            (processPacketAt packet)
            (receiveCallbacks { m0 with world := { m0.world with receive := rest } }) with
          log := ((List.range (receiveCallbacks
              { m0 with world := { m0.world with receive := rest } }).samples.length).foldl
            (processPacketAt packet)
            (receiveCallbacks { m0 with world := { m0.world with receive := rest } })).log ++
            [.PrintPacketMessages packet] }).log
      rw [hlog]
      refine List.mem_append_left _ (List.mem_append_left _ ?_)
      exact h i (List.mem_range.mpr (by rw [q1.size]; exact hi))

/-- The packet loop calls `ProcessPacket` of every sample with every packet that
the transport delivers before its first empty answer, unless a call does not
return. -/
theorem drainLoop_calls (packets : List Packet) (tail : List (Option Packet)) :
    ∀ m : MainState,
      (drainLoop (packets.map some ++ tail) m).pc.isFault = true ∨
      ∀ packet ∈ packets, ∀ i, i < m.samples.length →
        MainEvent.ProcessPacket i packet ∈ (drainLoop (packets.map some ++ tail) m).log := by
  induction packets with
  | nil =>
    intro m
    exact Or.inr (by simp)
  | cons p ps ih =>
    intro m
    obtain ⟨m1, hm1⟩ : ∃ m1, m1 = receiveCallbacks
        { m with world := { m.world with receive := ps.map some ++ tail } } := ⟨_, rfl⟩
    have q1 : Quiet m m1 := by
      rw [hm1]
      exact quiet_trans (quiet_world m { m.world with receive := ps.map some ++ tail } rfl)
        (receiveCallbacks_quiet _)
    obtain ⟨m2, hm2⟩ : ∃ m2, m2 = (List.range m1.samples.length).foldl
        (processPacketAt p) m1 := ⟨_, rfl⟩
    have q2 : Quiet m1 m2 := by
      rw [hm2]
      exact quiet_foldl _ (processPacketAt_quiet p) _ m1
    have hcalls := processPacket_foldl_calls p (List.range m1.samples.length) m1
      (fun i hi => List.mem_range.mp hi)
    rw [← hm2] at hcalls
    have hlist : (p :: ps).map some ++ tail = some p :: (ps.map some ++ tail) := rfl
    have hstep : drainLoop (some p :: (ps.map some ++ tail)) m =
        (if m2.pc.isFault = true then m2
          else drainLoop (ps.map some ++ tail)
            { m2 with log := m2.log ++ [.PrintPacketMessages p] }) := by
      subst hm2 hm1
      rfl
    rw [hlist, hstep]
    split
    · rename_i hf
      exact Or.inl hf
    · rename_i hf
      rcases hcalls with h | h
      · exact absurd h hf
      · rcases ih { m2 with log := m2.log ++ [.PrintPacketMessages p] } with h3 | h3
        · exact Or.inl h3
        · right
          intro packet hmem i hi
          rcases List.mem_cons.mp hmem with rfl | hmem
          · obtain ⟨ext, hlog, _⟩ := (drainLoop_quiet (ps.map some ++ tail)
              { m2 with log := m2.log ++ [.PrintPacketMessages packet] }).log
            rw [hlog]
            refine List.mem_append_left _ (List.mem_append_left _ ?_)
            exact h i (List.mem_range.mpr (by rw [q1.size]; exact hi))
          · exact h3 packet hmem i (by
              show i < m2.samples.length
              rw [q2.size, q1.size]
              exact hi)

/-- C16, as the claim states it, fails: in the run of `main` in which ProxyRelay
succeeds and a packet arrives afterwards, `main` finds ProxyRelay `SUCCEEDED`
at the third step and waits for a key; at the fourth step it calls
`ProcessPacket` of every technique with the packet, and NatClassification, which
was `FAILED`, becomes `SUCCEEDED`; `main` returns at the fifth step. -/
theorem wait_loop_calls_process_packet :
    (mainRun 3 (mainStart someIndeterminate latePacketWorld)).pc = .waitQuit ∧
    (mainRun 3 (mainStart someIndeterminate latePacketWorld)).log =
      [.print (.executing .UDPProxyClientFramework), .Init 4, .Update 4,
        .print (.passed .UDPProxyClientFramework), .print .pressAnyKeyToQuit] ∧
    (mainRun 4 (mainStart someIndeterminate latePacketWorld)).log =
      (mainRun 3 (mainStart someIndeterminate latePacketWorld)).log ++
        [.ProcessPacket 0 resultPacket, .ProcessPacket 1 resultPacket,
          .ProcessPacket 2 resultPacket, .ProcessPacket 3 resultPacket,
          .ProcessPacket 4 resultPacket, .PrintPacketMessages resultPacket, .RakSleep 30] ∧
    ((mainRun 3 (mainStart someIndeterminate latePacketWorld)).samples[1]?).map
      Sample.sampleResult = some .FAILED ∧
    ((mainRun 4 (mainStart someIndeterminate latePacketWorld)).samples[1]?).map
      Sample.sampleResult = some .SUCCEEDED ∧
    (mainRun 5 (mainStart someIndeterminate latePacketWorld)).pc = .exited 1 := by
  decide

/-- C16, amended: once the run is over (the control is in a loop that waits for
a key, or `main` has returned, or a call did not return), `main` makes no
further `Init` and no further `Update` call on any technique; once `main` has
returned it makes no call at all; while it waits for a key it still calls
`ProcessPacket` of every technique for a packet the transport delivers, and so
for every packet delivered before the transport has none left, unless one of
these calls does not return. -/
theorem finished_run_calls (m : MainState) (hover : m.pc.isOver = true) (n : Nat) :
    (∃ ext, (mainRun n m).log = m.log ++ ext ∧
      ∀ e ∈ ext, ∀ i, e ≠ MainEvent.Init i ∧ e ≠ MainEvent.Update i) ∧
    (∀ code, m.pc = .exited code → mainRun n m = m) ∧
    (∀ packet rest, (m.pc = .waitQuit ∨ m.pc = .waitDone) → (kbhit m.world).1 = false →
      m.world.receive = some packet :: rest →
      (mainStep m).pc.isFault = true ∨
      ∀ i, i < m.samples.length → MainEvent.ProcessPacket i packet ∈ (mainStep m).log) ∧
    (∀ (packets : List Packet) (tail : List (Option Packet)),
      (m.pc = .waitQuit ∨ m.pc = .waitDone) → (kbhit m.world).1 = false →
      m.world.receive = packets.map some ++ tail →
      (mainStep m).pc.isFault = true ∨
      ∀ packet ∈ packets, ∀ i, i < m.samples.length →
        MainEvent.ProcessPacket i packet ∈ (mainStep m).log) := by
  have hstep : (kbhit m.world).1 = false → ∀ pc0, m.pc = pc0 →
      (pc0 = PC.waitQuit ∨ pc0 = PC.waitDone) →
      mainStep m = (if (drain { m with world := (kbhit m.world).2, pc := pc0 }).pc.isFault
          = true then drain { m with world := (kbhit m.world).2, pc := pc0 }
        else { drain { m with world := (kbhit m.world).2, pc := pc0 } with
          log := (drain { m with world := (kbhit m.world).2, pc := pc0 }).log ++
            [.RakSleep 30] }) := by
    intro hkey pc0 hp h0
    rcases h0 with rfl | rfl <;> simp [mainStep, hp, hkey]
  refine ⟨?_, ?_, ?_, ?_⟩
  · obtain ⟨ext, hlog, hext⟩ := (epilogue_run m hover n).log
    exact ⟨ext, hlog, fun e he i => isEpilogue_no_call e (hext e he) i⟩
  · intro code hc
    exact mainRun_fixed m (mainStep_exited m code hc) n
  · intro packet rest hpc hkey hrecv
    rw [hstep hkey m.pc rfl hpc]
    have hd := drain_calls { m with world := (kbhit m.world).2, pc := m.pc } packet rest
      (by rw [← hrecv]; exact kbhit_receive m.world)
    split
    · rename_i hf
      exact Or.inl hf
    · rcases hd with h | h
      · rename_i hf
        exact absurd h hf
      · right
        intro i hi
        exact List.mem_append_left _ (h i hi)
  · intro packets tail hpc hkey hrecv
    rw [hstep hkey m.pc rfl hpc]
    have hd := drainLoop_calls packets tail { m with world := (kbhit m.world).2, pc := m.pc }
    have hdrain : drain { m with world := (kbhit m.world).2, pc := m.pc } =
        drainLoop (packets.map some ++ tail)
          { m with world := (kbhit m.world).2, pc := m.pc } := by
      unfold drain
      rw [← hrecv, ← kbhit_receive m.world]
    rw [hdrain]
    split
    · rename_i hf
      exact Or.inl hf
    · rcases hd with h | h
      · rename_i hf
        exact absurd h hf
      · right
        intro packet hmem i hi
        exact List.mem_append_left _ (h packet hmem i hi)

/-! ### The outcome a technique starts with -/

theorem getTimeMS_trace (w : World) : (GetTimeMS w).2.trace = w.trace := by
  unfold GetTimeMS
  split <;> rfl

/-- With the defaults of the coordination server at hand `ConnectBlocking`
always comes to its connect request. -/
theorem connectBlocking_server_trace (w : World) (a : SystemAddress) (w1 : World)
    (h : ConnectBlocking w (some DEFAULT_SERVER_ADDRESS) (some DEFAULT_SERVER_PORT) =
      .ok (a, w1)) :
    ∃ host remotePort, w1.trace = w.trace ++ [.Connect host remotePort] := by
  unfold ConnectBlocking at h
  have ha : absentOrEmpty (some DEFAULT_SERVER_ADDRESS) = false := by decide
  have hp : absentOrEmpty (some DEFAULT_SERVER_PORT) = false := by decide
  simp only [ha, hp, and_false, if_false, Bool.false_eq_true] at h
  have ht := attempt_trace _ _ _ _ _ h
  rw [gets_trace, gets_trace] at ht
  exact ⟨_, _, ht⟩

/-- The method `Init` of a ProxyRelay that starts `PENDING` without a plugin: it
ends `FAILED` without a plugin, or `PENDING` with the plugin attached, and it
has issued at least one request. -/
theorem proxy_init_sets_up (s : UDPProxyClientFramework) (w : World)
    (r : UDPProxyClientFramework × World) (hs : s.sampleResult = .PENDING)
    (hu : s.udpProxy = false) (h : s.Init w = .ok r) :
    (r.1.sampleResult = .FAILED ∧ r.1.udpProxy = false ∨
      r.1.sampleResult = .PENDING ∧ r.1.udpProxy = true ∧
        Effect.AttachPlugin .UDPProxyClient ∈ r.2.trace) ∧
    ∃ e rest, r.2.trace = w.trace ++ e :: rest := by
  unfold UDPProxyClientFramework.Init at h
  simp only [hs] at h
  split at h
  · rename_i hc
    cases hc
  · split at h
    · split at h
      · cases h
      · rename_i a w1 hcb
        obtain ⟨host, remotePort, ht⟩ := connectBlocking_server_trace _ _ _ hcb
        rw [select_trace] at ht
        split at h
        · cases h
          exact ⟨Or.inl ⟨rfl, hu⟩, _, [], ht⟩
        · cases h
          refine ⟨Or.inr ⟨rfl, rfl, ?_⟩, .Connect host remotePort, ?_⟩
          · split <;> simp [getTimeMS_trace, gets_trace, World.emit]
          · split <;> simp [getTimeMS_trace, gets_trace, World.emit, ht]
    · cases h
      refine ⟨Or.inr ⟨rfl, rfl, ?_⟩, .AttachPlugin .UDPProxyClient, ?_⟩
      · split <;> simp [getTimeMS_trace, gets_trace, World.emit]
      · split <;> simp [getTimeMS_trace, gets_trace, World.emit, select_trace]

/-- The function `ConnectBlocking` fails to return only by waiting for ever for
a packet. -/
theorem connectBlocking_fault (w : World) (defaultAddress defaultPort : Option (List Char))
    (f : Fault) (h : ConnectBlocking w defaultAddress defaultPort = .error f) : f = .hang := by
  unfold ConnectBlocking at h
  simp only [] at h
  split at h
  · cases h
  · split at h
    · cases h
    · rcases attempt_result (Gets (Gets w).2).2
          (if (Gets w).1 = [] then defaultAddress.getD [] else (Gets w).1)
          (if (Gets (Gets w).2).1 = [] then defaultPort.getD [] else (Gets (Gets w).2).1)
        with ⟨a, w1, hok, _⟩ | ⟨hh, _⟩
      · rw [hok] at h
        cases h
      · rw [hh] at h
        cases h
        rfl

theorem proxy_init_fault (s : UDPProxyClientFramework) (w : World) (f : Fault)
    (h : s.Init w = .error f) : f = .hang := by
  unfold UDPProxyClientFramework.Init at h
  simp only [] at h
  split at h
  · cases h
  · split at h
    · split at h
      · rename_i f1 hcb
        cases h
        exact connectBlocking_fault _ _ _ _ hcb
      · split at h <;> cases h
    · cases h

/-- C17, as the claim states it, fails: of the five techniques `main` creates
only ProxyRelay starts `PENDING`; PortMapping starts `FAILED`, and its `Init`,
called where a gateway is at hand, returns at once and leaves the answers of
miniupnpc unread, while the `Init` of a PortMapping that is `PENDING` ends
`SUCCEEDED` there. -/
theorem port_mapping_starts_failed :
    (mainSamples someIndeterminate).map Sample.sampleResult =
      [.FAILED, .FAILED, .FAILED, .FAILED, .PENDING] ∧
    (Sample.upnp .new).Init gatewayWorld = .ok (.upnp .new, gatewayWorld) ∧
    (UPNPFramework.Init ⟨.PENDING⟩ gatewayWorld).1.sampleResult = .SUCCEEDED :=
  ⟨by decide, rfl, by decide⟩

/-- C17, amended: of the five techniques `main` creates, PortMapping,
NatClassification, PunchThrough and PeerRelay start `FAILED` and ProxyRelay
starts `PENDING`. `Init` of each of the first four returns at once, the
technique and the world as they were. `Init` of ProxyRelay performs the setup:
when it returns it has issued at least one request, and the technique is
`FAILED` without a plugin or `PENDING` with its plugin attached; it fails to
return only by waiting for ever for the answer to its connect request. -/
theorem main_samples_start (i : Indeterminate) (w : World) :
    (mainSamples i).map Sample.sampleResult =
      [.FAILED, .FAILED, .FAILED, .FAILED, .PENDING] ∧
    (∀ (k : Nat) (x : Sample), k < 4 → (mainSamples i)[k]? = some x →
      x.Init w = .ok (x, w)) ∧
    (∀ (x : Sample) (r : Sample × World), (mainSamples i)[4]? = some x → x.Init w = .ok r →
      (r.1.sampleResult = .FAILED ∧ r.1.plugin = false ∨
        r.1.sampleResult = .PENDING ∧ r.1.plugin = true ∧
          Effect.AttachPlugin .UDPProxyClient ∈ r.2.trace) ∧
      ∃ e rest, r.2.trace = w.trace ++ e :: rest) ∧
    (∀ (x : Sample) (f : Fault), (mainSamples i)[4]? = some x → x.Init w = .error f →
      f = .hang) := by
  refine ⟨rfl, ?_, ?_, ?_⟩
  · intro k x hk hx
    interval_cases k
    all_goals
      simp only [mainSamples, List.getElem?_cons_zero, List.getElem?_cons_succ,
        Option.some.injEq] at hx
      subst hx
      rfl
  · intro x r hx h
    simp only [mainSamples, List.getElem?_cons_zero, List.getElem?_cons_succ,
      Option.some.injEq] at hx
    subst hx
    simp only [Sample.Init] at h
    cases hs : (UDPProxyClientFramework.new i).Init w with
    | error f => simp [hs, Except.map] at h
    | ok q =>
      simp only [hs, Except.map, Except.ok.injEq] at h
      subst h
      exact proxy_init_sets_up (.new i) w q rfl rfl hs
  · intro x f hx h
    simp only [mainSamples, List.getElem?_cons_zero, List.getElem?_cons_succ,
      Option.some.injEq] at hx
    subst hx
    simp only [Sample.Init] at h
    cases hs : (UDPProxyClientFramework.new i).Init w with
    | error f1 =>
      simp only [hs, Except.map, Except.error.injEq] at h
      subst h
      exact proxy_init_fault _ w f1 hs
    | ok q => simp [hs, Except.map] at h

/-! ### The claims at concrete inputs -/

/-- C1 at the list of PortMapping and ProxyRelay in a world where nothing
answers: the third and the sixth step find the active technique `FAILED`, and
after six steps `main` has returned 1 with the cursor at 2. -/
theorem failures_advance_cursor_witness :
    (mainRun 6 (orchestrate true failingPair 0 quietWorld)).currentStage =
      0 + failuresFound 6 (orchestrate true failingPair 0 quietWorld) ∧
    ((∃ code, (mainRun 6 (orchestrate true failingPair 0 quietWorld)).pc = .exited code) ↔
      (mainRun 6 (orchestrate true failingPair 0 quietWorld)).currentStage =
        failingPair.length) ∧
    observedOutcome (mainRun 2 (orchestrate true failingPair 0 quietWorld)) = some .FAILED ∧
    observedOutcome (mainRun 5 (orchestrate true failingPair 0 quietWorld)) = some .FAILED ∧
    failuresFound 6 (orchestrate true failingPair 0 quietWorld) = 2 ∧
    (mainRun 6 (orchestrate true failingPair 0 quietWorld)).currentStage = 2 ∧
    (mainRun 6 (orchestrate true failingPair 0 quietWorld)).pc = .exited 1 :=
  have h := failures_advance_cursor failingPair 0 quietWorld 6 (by decide) (by decide)
  ⟨h.2.2.1, h.2.2.2.2.2.2.1, by decide, by decide, by decide, by decide, by decide⟩

/-- C2 at a ProxyRelay found `SUCCEEDED`, with the key at the second `kbhit`. -/
theorem success_ends_or_advances_witness :
    ((mainRun 3 passedProxy).pc = .exited 1 ∨ (mainRun 3 passedProxy).pc.isFault = true) ∧
    (mainRun 3 passedProxy).pc = .exited 1 ∧ initCalls (mainRun 3 passedProxy).log = [] :=
  ⟨((success_ends_or_advances passedProxy (.proxy ⟨.SUCCEEDED, true, 0, false⟩) rfl rfl
    rfl).1 (Or.inl rfl)).2 1 [] rfl, by decide, by decide⟩

/-- C4 at a ProxyRelay that is told that no server is online and then
initialised, given a packet and updated. -/
theorem outcome_never_returns_to_pending_witness :
    (outcomeHistory [.notification .OnNoServersOnline, .Init, .ProcessPacket resultPacket,
        .Update] (.proxy ⟨.PENDING, true, 0, false⟩) quietWorld)[1]? = some .FAILED ∧
    SampleResult.FAILED ≠ .PENDING :=
  ⟨by decide,
    outcome_never_returns_to_pending
      [.notification .OnNoServersOnline, .Init, .ProcessPacket resultPacket, .Update]
      (.proxy ⟨.PENDING, true, 0, false⟩) quietWorld 1 4 .FAILED .FAILED (by decide)
      (by decide) (by decide) (by decide)⟩

/-- C7 at the ProxyRelay `main` creates, in a world where nothing answers. -/
theorem init_without_endpoint_fails_witness :
    ∃ x', (Sample.proxy (.new someIndeterminate)).Init quietWorld =
        .ok (x', quietWorld.emit (.Connect DEFAULT_SERVER_ADDRESS 61111)) ∧
      x'.sampleResult = .FAILED ∧
      x'.plugin = (Sample.proxy (.new someIndeterminate)).plugin ∧
      x'.timeout = (Sample.proxy (.new someIndeterminate)).timeout ∧
      x'.isListening = (Sample.proxy (.new someIndeterminate)).isListening ∧
      ∃ requests, (quietWorld.emit (.Connect DEFAULT_SERVER_ADDRESS 61111)).trace =
        quietWorld.trace ++ requests ∧ ∀ e ∈ requests, e.isConnect = true :=
  init_without_endpoint_fails (.proxy (.new someIndeterminate)) quietWorld quietWorld
    (quietWorld.emit (.Connect DEFAULT_SERVER_ADDRESS 61111)) rfl rfl (by decide) rfl

/-- C9 at two empty lines and the defaults of the coordination server, with a
transport that rejects the request: `ConnectBlocking` returns the unassigned
address after the one request to the default address and port. -/
theorem connect_blocking_defaults_witness :
    ConnectBlocking quietWorld (some DEFAULT_SERVER_ADDRESS) (some DEFAULT_SERVER_PORT) =
      .ok (UNASSIGNED_SYSTEM_ADDRESS,
        quietWorld.emit (.Connect DEFAULT_SERVER_ADDRESS 61111)) ∧
    (quietWorld.emit (.Connect DEFAULT_SERVER_ADDRESS 61111)).trace =
      quietWorld.trace ++
        [.Connect DEFAULT_SERVER_ADDRESS (toUnsignedShort (atoi DEFAULT_SERVER_PORT))] :=
  ⟨rfl,
    ((connect_blocking_defaults quietWorld quietWorld quietWorld
        (some DEFAULT_SERVER_ADDRESS) (some DEFAULT_SERVER_PORT) [] [] rfl rfl).1
      DEFAULT_SERVER_ADDRESS DEFAULT_SERVER_PORT rfl rfl (by decide)
      (Or.inr ⟨rfl, rfl, by decide⟩)).2.2.1 UNASSIGNED_SYSTEM_ADDRESS
      (quietWorld.emit (.Connect DEFAULT_SERVER_ADDRESS 61111)) rfl⟩

/-- C10 at a connect attempt that is accepted after one empty poll. -/
theorem connect_blocking_first_event_witness :
    ConnectBlocking.attempt acceptingWorld DEFAULT_SERVER_ADDRESS DEFAULT_SERVER_PORT =
      .ok (⟨10, 1⟩,
        { (Connect acceptingWorld DEFAULT_SERVER_ADDRESS
            (toUnsignedShort (atoi DEFAULT_SERVER_PORT))).2 with receive := [] }) :=
  (connect_blocking_first_event acceptingWorld DEFAULT_SERVER_ADDRESS
    DEFAULT_SERVER_PORT).2.1 rfl 1 ⟨.ID_CONNECTION_REQUEST_ACCEPTED, 0, ⟨10, 1⟩, 7⟩ [] rfl

/-- C12 at two punch successes followed by the lines `7` and `8`, then a third
followed by an empty line. -/
theorem punch_rearms_until_declined_witness :
    ∃ r, pendingPunch.processPackets [punchSuccessPacket, punchSuccessPacket]
        twoTargetsWorld = .ok r ∧
      r.1.sampleResult = .PENDING ∧ r.1.npClient = true ∧
      r.1.serverAddress = pendingPunch.serverAddress ∧ r.2.lines = [[]] ∧
      r.2.trace = twoTargetsWorld.trace ++
        [['7'], ['8']].map (fun t => Effect.OpenNAT t pendingPunch.serverAddress) ∧
      ∀ packet, packet.id = .ID_NAT_PUNCHTHROUGH_SUCCEEDED → (Gets r.2).1 = [] →
        ∃ q, r.1.ProcessPacket packet r.2 = .ok q ∧ q.1.sampleResult = .SUCCEEDED :=
  (punch_rearms_until_declined pendingPunch twoTargetsWorld rfl rfl).2.2
    [punchSuccessPacket, punchSuccessPacket] [['7'], ['8']] [[]]
    (by decide) (by decide) rfl rfl

/-- C14 at the samples of `main` without a server: from NatClassification the
cursor moves past two techniques to PeerRelay, and from ProxyRelay the list is
exhausted and `main` returns 1. -/
theorem pre_skip_moves_cursor_witness :
    mainRun 3 (orchestrate false (mainSamples someIndeterminate) 1 quietWorld) =
      ⟨mainSamples someIndeterminate, 3, quietWorld,
        [.print (.noServerSkipping .NatTypeDetectionFramework),
          .print (.noServerSkipping .NatPunchthoughClientFramework)], .init⟩ ∧
    mainRun 1 (orchestrate false (mainSamples someIndeterminate) 4 quietWorld) =
      ⟨mainSamples someIndeterminate, 5, quietWorld,
        [.print (.noServerSkipping .UDPProxyClientFramework),
          .print .connectivityNotPossible, .getch], .exited 1⟩ :=
  ⟨((pre_skip_moves_cursor (mainSamples someIndeterminate) 1 quietWorld (by decide)).2.1
      (by decide)).2,
    ((pre_skip_moves_cursor (mainSamples someIndeterminate) 4 quietWorld (by decide)).2.2.1
      (by decide)).2⟩

/-- C16 at a wait for the key during which a packet arrives: the two steps up
to the return of `main` add no `Init` and no `Update` call, and the first of
them calls `ProcessPacket` of the sample at index 0. -/
theorem finished_run_calls_witness :
    (∃ ext, (mainRun 2 waitingForKey).log = waitingForKey.log ++ ext ∧
      ∀ e ∈ ext, ∀ i, e ≠ MainEvent.Init i ∧ e ≠ MainEvent.Update i) ∧
    (mainRun 2 waitingForKey).pc = .exited 1 ∧
    MainEvent.ProcessPacket 0 resultPacket ∈ (mainStep waitingForKey).log :=
  ⟨(finished_run_calls waitingForKey (by decide) 2).1, by decide, by decide⟩

end NATCompleteClient
